import Mathlib

/-!
# Order management system: lifecycle and inventory consistency

A shallow embedding of the order lifecycle service
(`backend/core/services/order_service.go`), the order state machine
(`server/core/fsm/order_state_machine.go`), the in-memory stores
(`core/fake/*.go`), the order handlers
(`backend/api/v1/controllers/order_controller.go`) and the authentication
middleware (`server/middleware/auth.go`), followed by theorems about them.

Conventions of the embedding:

* `uuid.UUID` is the 128-bit value of the identifier, a `Nat`; `uuid.Nil` is `0`.
* `time.Time` is a `Nat`; the zero time is `0`.
* Go `int` is a 64-bit two's complement integer: values are `Int`s, and every
  arithmetic result is passed through `wrapInt`.
* `error` is its message, a `String`; `nil` is `none`.
* A Go `string` is a `String`; `len` and slices count the bytes of its UTF-8
  encoding.
* `context.Context` is ignored, as the in-memory stores ignore it.
-/

namespace OMS

/-! ## Machine integers -/

/-- The range of a Go `int` on a 64-bit target. -/
def IsInt (x : Int) : Prop := -9223372036854775808 ≤ x ∧ x ≤ 9223372036854775807

instance (x : Int) : Decidable (IsInt x) :=
  inferInstanceAs (Decidable (-9223372036854775808 ≤ x ∧ x ≤ 9223372036854775807))

/-- Two's complement wrap-around of an arithmetic result to 64 bits. -/
def wrapInt (x : Int) : Int :=
  (x + 9223372036854775808) % 18446744073709551616 - 9223372036854775808

/-! ## Data model (`core/model`) -/

/-- The identifier type `uuid.UUID`, as its 128-bit value. -/
abbrev UUID := Nat

/-- The nil identifier `uuid.Nil`. -/
def uuidNil : UUID := 0

/-- A reading of `time.Time`. -/
abbrev Time := Nat

/-- An `error`, as its message. -/
abbrev Error := String

/-- The type `model.OrderStatus`, a Go string type. -/
abbrev OrderStatus := String

/-- The type `model.JSONB`, an opaque key-value map. -/
abbrev JSONB := List (String × String)

def OrderStatusOrdered : OrderStatus := "ORDERED"
def OrderStatusShipped : OrderStatus := "SHIPPED"
def OrderStatusDelivered : OrderStatus := "DELIVERED"
def OrderStatusCancelled : OrderStatus := "CANCELLED"

/-- The record `model.Inventory`. -/
structure Inventory where
  ProductID : UUID
  Quantity : Int
  deriving DecidableEq, Repr

/-- The record `model.Order`. The `Product` association, which only the
database layer fills in, is left out. -/
structure Order where
  ID : UUID
  UserID : Int
  ProductID : UUID
  Quantity : Int
  CurrentStatus : OrderStatus
  Metadata : JSONB
  CreatedAt : Time
  UpdatedAt : Time
  deriving DecidableEq, Repr

/-- The record `model.OrderStateLog`. The `Order` association is left out. -/
structure OrderStateLog where
  ID : UUID
  OrderID : UUID
  PreviousStatus : OrderStatus
  NewStatus : OrderStatus
  UpdatedBy : Int
  UpdatedAt : Time
  deriving DecidableEq, Repr

/-! ## Order state machine (`core/fsm/order_state_machine.go`) -/

/-- The table `StateTransition`: the allowed targets of each status. -/
def StateTransition : List (OrderStatus × List OrderStatus) :=
  [ (OrderStatusOrdered, [OrderStatusShipped, OrderStatusCancelled]),
    (OrderStatusShipped, [OrderStatusDelivered]),
    (OrderStatusDelivered, []),
    (OrderStatusCancelled, []) ]

/-- The function `ValidateTransition`: `none` when the transition is allowed. -/
def ValidateTransition (currentStatus newStatus : OrderStatus) : Option Error :=
  if currentStatus = newStatus then none
  else
    match StateTransition.lookup currentStatus with
    | none => some ("invalid current status: " ++ currentStatus)
    | some allowedTransitions =>
      if allowedTransitions.any (fun allowed => allowed == newStatus) then none
      else some ("invalid transition from " ++ currentStatus ++ " to " ++ newStatus)

/-- The function `IsValidStatus`. -/
def IsValidStatus (status : OrderStatus) : Bool :=
  (StateTransition.lookup status).isSome

/-- The function `RequiresInventoryRestore`. -/
def RequiresInventoryRestore (status : OrderStatus) : Bool :=
  status == OrderStatusCancelled

/-! ## Calls that may not return -/

/-- The outcome of one call run on its own: it returns a value and leaves a
state, or it waits for ever on a mutex that is held, or it stops the process
with a fatal runtime error (unlocking a mutex that is not locked). -/
inductive Run (σ α : Type) where
  | ret (a : α) (s : σ)
  | blocked (s : σ)
  | fatal (s : σ)

/-- The state a call leaves: the one it returned in, or the one in which it
waits or stopped. -/
def Run.state {σ α : Type} (r : Run σ α) : σ :=
  match r with
  | .ret _ s => s
  | .blocked s => s
  | .fatal s => s

/-- Sequencing of calls: the continuation runs only when the call returned. -/
def Run.bind {σ α β : Type} (r : Run σ α) (k : α → σ → Run σ β) : Run σ β :=
  match r with
  | .ret a s => k a s
  | .blocked s => .blocked s
  | .fatal s => .fatal s

/-! ## Collaborator interfaces (`core/types/interfaces.go`)

Each method takes the state before the call and yields a `Run`. The listing
methods `GetByUserID` and `GetAll`, and `UpdateQuantity`, which the lifecycle
operations never call, are left out. -/

/-- The interface `types.OrderStore`. `Create` receives a pointer: its result is
the order as the call left it, together with the error. -/
structure OrderStore (σ : Type) where
  Create : Order → σ → Run σ (Order × Option Error)
  GetByID : UUID → σ → Run σ (Except Error Order)
  UpdateStatus : UUID → OrderStatus → σ → Run σ (Option Error)

/-- The interface `types.InventoryStore`. -/
structure InventoryStore (σ : Type) where
  GetByProductID : UUID → σ → Run σ (Except Error Inventory)
  LockForUpdate : UUID → σ → Run σ (Except Error Inventory)
  DecrementQuantity : UUID → Int → σ → Run σ (Option Error)
  IncrementQuantity : UUID → Int → σ → Run σ (Option Error)

/-- The interface `types.OrderStateLogStore`. -/
structure OrderStateLogStore (σ : Type) where
  Create : OrderStateLog → σ → Run σ (Option Error)
  GetByOrderID : UUID → σ → Run σ (Except Error (List OrderStateLog))

/-- The interface `types.FSMValidator`. -/
structure FSMValidator where
  ValidateTransition : OrderStatus → OrderStatus → Option Error
  IsValidStatus : OrderStatus → Bool
  RequiresInventoryRestore : OrderStatus → Bool

/-- The validator of `core/fsm/validator.go`, which delegates to the state machine. -/
def NewValidator : FSMValidator :=
  { ValidateTransition := ValidateTransition,
    IsValidStatus := IsValidStatus,
    RequiresInventoryRestore := RequiresInventoryRestore }

/-! ## Order lifecycle service (`core/services/order_service.go`) -/

/-- The record `orderService`: the four collaborators. -/
structure orderService (σ : Type) where
  orderStore : OrderStore σ
  inventoryStore : InventoryStore σ
  orderStateLogStore : OrderStateLogStore σ
  fsmValidator : FSMValidator

/-- The verb `%d` of `fmt`. -/
def fmtInt (n : Int) : String := toString n

/-- The method `orderService.CreateOrder`. -/
def orderService.CreateOrder {σ : Type} (s : orderService σ) (userID : Int) (productID : UUID)
    (quantity : Int) (metadata : JSONB) (w : σ) : Run σ (Except Error Order) :=
  if userID ≤ 0 then
    .ret (.error ("invalid user ID: " ++ fmtInt userID)) w
  else if quantity ≤ 0 then
    .ret (.error ("invalid quantity: " ++ fmtInt quantity)) w
  else
    (s.inventoryStore.LockForUpdate productID w).bind fun locked w1 =>
    match locked with
    | .error err => .ret (.error ("failed to lock inventory: " ++ err)) w1
    | .ok inventory =>
      if inventory.Quantity < quantity then
        .ret (.error ("insufficient inventory: requested " ++ fmtInt quantity
          ++ ", available " ++ fmtInt inventory.Quantity)) w1
      else
        (s.inventoryStore.DecrementQuantity productID quantity w1).bind fun decErr w2 =>
        match decErr with
        | some err => .ret (.error ("failed to decrement inventory: " ++ err)) w2
        | none =>
          let order : Order :=
            { ID := uuidNil, UserID := userID, ProductID := productID, Quantity := quantity,
              CurrentStatus := OrderStatusOrdered, Metadata := metadata,
              CreatedAt := 0, UpdatedAt := 0 }
          (s.orderStore.Create order w2).bind fun created w3 =>
          match created.2 with
          | some err =>
            (s.inventoryStore.IncrementQuantity productID quantity w3).bind fun restoreErr w4 =>
            match restoreErr with
            | some rerr =>
              .ret (.error ("failed to create order: " ++ err
                ++ " (inventory restore also failed: " ++ rerr ++ ")")) w4
            | none => .ret (.error ("failed to create order: " ++ err)) w4
          | none => .ret (.ok created.1) w3

/-- The method `orderService.UpdateOrderStatus`; `now` is the reading of
`time.Now()` taken for the audit entry. -/
def orderService.UpdateOrderStatus {σ : Type} (s : orderService σ) (now : Time) (orderID : UUID)
    (newStatus : OrderStatus) (updatedBy : Int) (w : σ) : Run σ (Except Error Order) :=
  (s.orderStore.GetByID orderID w).bind fun fetched w1 =>
  match fetched with
  | .error err => .ret (.error ("order not found: " ++ err)) w1
  | .ok order =>
    let currentStatus := order.CurrentStatus
    match s.fsmValidator.ValidateTransition currentStatus newStatus with
    | some err =>
      .ret (.error ("invalid transition from " ++ currentStatus ++ " to " ++ newStatus
        ++ ": " ++ err)) w1
    | none =>
      if currentStatus = newStatus then
        .ret (.ok order) w1
      else
        (s.orderStore.UpdateStatus orderID newStatus w1).bind fun updErr w2 =>
        match updErr with
        | some err => .ret (.error ("failed to update order status: " ++ err)) w2
        | none =>
          let stateLog : OrderStateLog :=
            { ID := uuidNil, OrderID := orderID, PreviousStatus := currentStatus,
              NewStatus := newStatus, UpdatedBy := updatedBy, UpdatedAt := now }
          (s.orderStateLogStore.Create stateLog w2).bind fun _ w3 =>
          (if s.fsmValidator.RequiresInventoryRestore newStatus then
            s.inventoryStore.IncrementQuantity order.ProductID order.Quantity w3
           else .ret none w3).bind fun _ w4 =>
          (s.orderStore.GetByID orderID w4).bind fun refetched w5 =>
          match refetched with
          | .error err => .ret (.error ("failed to fetch updated order: " ++ err)) w5
          | .ok updatedOrder => .ret (.ok updatedOrder) w5

/-- The method `orderService.GetOrderByID`. -/
def orderService.GetOrderByID {σ : Type} (s : orderService σ) (orderID : UUID) (w : σ) :
    Run σ (Except Error Order) :=
  s.orderStore.GetByID orderID w

/-- The method `orderService.GetOrderHistory`. -/
def orderService.GetOrderHistory {σ : Type} (s : orderService σ) (orderID : UUID) (w : σ) :
    Run σ (Except Error (List OrderStateLog)) :=
  s.orderStateLogStore.GetByOrderID orderID w

/-! ## In-memory stores (`core/fake`)

The package-level maps of the fakes make up the state `World`. Of the mutexes
only the per-product ones are state: the map-wide ones (`inventoryMap`,
`productLocks`, `orders`) are released again by every method that takes them.
A `...Func` field that is set replaces the method; it is given as the result
it computes. -/

/-- What the surroundings hand to a store during one call: the identifier
`uuid.New()` yields and the reading of `time.Now()`. -/
structure Env where
  newID : UUID
  now : Time
  deriving DecidableEq, Repr

/-- The package-level state of the fakes: `inventoryMap.m`, whether each
mutex of `productLocks.locks` is held, `orders.m` and `orderStateLogs`. -/
structure World where
  inventoryMap : UUID → Option Inventory
  productLocks : UUID → Bool
  orders : UUID → Option Order
  orderStateLogs : UUID → Option (List OrderStateLog)

/-- Assignment `m[k] = v` on a map. -/
def setKey {α : Type} (m : UUID → α) (k : UUID) (v : α) : UUID → α :=
  fun j => if j = k then v else m j

/-- The state in which all maps are empty and no mutex is held. -/
def World.empty : World :=
  { inventoryMap := fun _ => none,
    productLocks := fun _ => false,
    orders := fun _ => none,
    orderStateLogs := fun _ => none }

/-- The function `getDefaultQuantity`, keyed by the value of the identifier
whose canonical text the source lists. -/
def getDefaultQuantity (productID : UUID) : Int :=
  match
    [ (0x550e8400e29b41d4a716446655440000, (100 : Int)),
      (0x550e8400e29b41d4a716446655440001, 150),
      (0x550e8400e29b41d4a716446655440002, 75),
      (0x550e8400e29b41d4a716446655440003, 200),
      (0x550e8400e29b41d4a716446655440004, 50) ].lookup productID with
  | some qty => qty
  | none => 100

/-- The record `InventoryStoreFake`. -/
structure InventoryStoreFake where
  GetByProductIDFunc : Option (UUID → Except Error Inventory)
  LockForUpdateFunc : Option (UUID → Except Error Inventory)
  DecrementQuantityFunc : Option (UUID → Int → Option Error)
  IncrementQuantityFunc : Option (UUID → Int → Option Error)

/-- The record `&model.Inventory{ProductID: productID, Quantity: defaultQty}`
that the fake creates for a product it has not seen. -/
def defaultInventory (productID : UUID) : Inventory :=
  { ProductID := productID, Quantity := getDefaultQuantity productID }

/-- The method `InventoryStoreFake.GetByProductID`. -/
def InventoryStoreFake.GetByProductID (f : InventoryStoreFake) (productID : UUID) (w : World) :
    Run World (Except Error Inventory) :=
  match f.GetByProductIDFunc with
  | some hook => .ret (hook productID) w
  | none =>
    match w.inventoryMap productID with
    | some inv => .ret (.ok inv) w
    | none =>
      let inv := defaultInventory productID
      .ret (.ok inv) { w with inventoryMap := setKey w.inventoryMap productID (some inv) }

/-- The method `InventoryStoreFake.LockForUpdate`: it takes the mutex of the
product and returns with the mutex held. -/
def InventoryStoreFake.LockForUpdate (f : InventoryStoreFake) (productID : UUID) (w : World) :
    Run World (Except Error Inventory) :=
  match f.LockForUpdateFunc with
  | some hook => .ret (hook productID) w
  | none =>
    if w.productLocks productID then .blocked w
    else
      let w1 := { w with productLocks := setKey w.productLocks productID true }
      match w1.inventoryMap productID with
      | some inv => .ret (.ok inv) w1
      | none =>
        let inv := defaultInventory productID
        .ret (.ok inv) { w1 with inventoryMap := setKey w1.inventoryMap productID (some inv) }

/-- The call `productLock.Unlock()`: a fatal error when the mutex is not held. -/
def unlockProduct {α : Type} (productID : UUID) (a : α) (w : World) : Run World α :=
  if w.productLocks productID then
    .ret a { w with productLocks := setKey w.productLocks productID false }
  else .fatal w

/-- The method `InventoryStoreFake.DecrementQuantity`: it releases the mutex of
the product on both of its paths. -/
def InventoryStoreFake.DecrementQuantity (f : InventoryStoreFake) (productID : UUID)
    (quantity : Int) (w : World) : Run World (Option Error) :=
  match f.DecrementQuantityFunc with
  | some hook => .ret (hook productID quantity) w
  | none =>
    let found : Inventory × World :=
      match w.inventoryMap productID with
      | some inv => (inv, w)
      | none =>
        let inv := defaultInventory productID
        (inv, { w with inventoryMap := setKey w.inventoryMap productID (some inv) })
    let inv := found.1
    let w1 := found.2
    if inv.Quantity < quantity then
      unlockProduct productID
        (some ("insufficient inventory: requested " ++ fmtInt quantity
          ++ ", available " ++ fmtInt inv.Quantity)) w1
    else
      let inv1 : Inventory := { inv with Quantity := wrapInt (inv.Quantity - quantity) }
      unlockProduct productID none
        { w1 with inventoryMap := setKey w1.inventoryMap productID (some inv1) }

/-- The method `InventoryStoreFake.IncrementQuantity`: it takes the mutex of
the product and releases it on return. -/
def InventoryStoreFake.IncrementQuantity (f : InventoryStoreFake) (productID : UUID)
    (quantity : Int) (w : World) : Run World (Option Error) :=
  match f.IncrementQuantityFunc with
  | some hook => .ret (hook productID quantity) w
  | none =>
    if w.productLocks productID then .blocked w
    else
      let inv : Inventory :=
        match w.inventoryMap productID with
        | some inv => inv
        | none => { ProductID := productID, Quantity := 0 }
      let inv1 : Inventory := { inv with Quantity := wrapInt (inv.Quantity + quantity) }
      .ret none { w with inventoryMap := setKey w.inventoryMap productID (some inv1) }

/-- The fake as a `types.InventoryStore`. -/
def InventoryStoreFake.toStore (f : InventoryStoreFake) : InventoryStore World :=
  { GetByProductID := f.GetByProductID,
    LockForUpdate := f.LockForUpdate,
    DecrementQuantity := f.DecrementQuantity,
    IncrementQuantity := f.IncrementQuantity }

/-- The record `OrderStoreFake`. -/
structure OrderStoreFake where
  CreateFunc : Option (Order → Order × Option Error)
  GetByIDFunc : Option (UUID → Except Error Order)
  UpdateStatusFunc : Option (UUID → OrderStatus → Option Error)

/-- The method `OrderStoreFake.Create`. -/
def OrderStoreFake.Create (f : OrderStoreFake) (env : Env) (order : Order) (w : World) :
    Run World (Order × Option Error) :=
  match f.CreateFunc with
  | some hook => .ret (hook order) w
  | none =>
    let order1 : Order := if order.ID = uuidNil then { order with ID := env.newID } else order
    let order2 : Order := { order1 with CreatedAt := env.now, UpdatedAt := env.now }
    .ret (order2, none) { w with orders := setKey w.orders order2.ID (some order2) }

/-- The method `OrderStoreFake.GetByID`. -/
def OrderStoreFake.GetByID (f : OrderStoreFake) (orderID : UUID) (w : World) :
    Run World (Except Error Order) :=
  match f.GetByIDFunc with
  | some hook => .ret (hook orderID) w
  | none =>
    match w.orders orderID with
    | none => .ret (.error "order not found") w
    | some order => .ret (.ok order) w

/-- The method `OrderStoreFake.UpdateStatus`. -/
def OrderStoreFake.UpdateStatus (f : OrderStoreFake) (env : Env) (orderID : UUID)
    (status : OrderStatus) (w : World) : Run World (Option Error) :=
  match f.UpdateStatusFunc with
  | some hook => .ret (hook orderID status) w
  | none =>
    match w.orders orderID with
    | none => .ret (some "order not found") w
    | some order =>
      let order1 : Order := { order with CurrentStatus := status, UpdatedAt := env.now }
      .ret none { w with orders := setKey w.orders orderID (some order1) }

/-- The fake as a `types.OrderStore`. -/
def OrderStoreFake.toStore (f : OrderStoreFake) (env : Env) : OrderStore World :=
  { Create := f.Create env,
    GetByID := f.GetByID,
    UpdateStatus := f.UpdateStatus env }

/-- The record `OrderStateLogStoreFake`. -/
structure OrderStateLogStoreFake where
  CreateFunc : Option (OrderStateLog → Option Error)
  GetByOrderIDFunc : Option (UUID → Except Error (List OrderStateLog))

/-- The method `OrderStateLogStoreFake.Create`. -/
def OrderStateLogStoreFake.Create (f : OrderStateLogStoreFake) (log : OrderStateLog) (w : World) :
    Run World (Option Error) :=
  match f.CreateFunc with
  | some hook => .ret (hook log) w
  | none =>
    let logs : List OrderStateLog :=
      match w.orderStateLogs log.OrderID with
      | some logs => logs
      | none => []
    .ret none
      { w with orderStateLogs := setKey w.orderStateLogs log.OrderID (some (logs ++ [log])) }

/-- The method `OrderStateLogStoreFake.GetByOrderID`. -/
def OrderStateLogStoreFake.GetByOrderID (f : OrderStateLogStoreFake) (orderID : UUID) (w : World) :
    Run World (Except Error (List OrderStateLog)) :=
  match f.GetByOrderIDFunc with
  | some hook => .ret (hook orderID) w
  | none =>
    match w.orderStateLogs orderID with
    | none => .ret (.ok []) w
    | some logs => .ret (.ok logs) w

/-- The fake as a `types.OrderStateLogStore`. -/
def OrderStateLogStoreFake.toStore (f : OrderStateLogStoreFake) : OrderStateLogStore World :=
  { Create := f.Create,
    GetByOrderID := f.GetByOrderID }

/-- The record `FSMValidatorFake`. -/
structure FSMValidatorFake where
  ValidateTransitionFunc : Option (OrderStatus → OrderStatus → Option Error)
  IsValidStatusFunc : Option (OrderStatus → Bool)
  RequiresInventoryRestoreFunc : Option (OrderStatus → Bool)

/-- The fake as a `types.FSMValidator`: each method answers with its `...Func`
field when set, and otherwise with `nil`, `true` and `false`. -/
def FSMValidatorFake.toValidator (f : FSMValidatorFake) : FSMValidator :=
  { ValidateTransition := fun currentStatus newStatus =>
      match f.ValidateTransitionFunc with
      | some hook => hook currentStatus newStatus
      | none => none,
    IsValidStatus := fun status =>
      match f.IsValidStatusFunc with
      | some hook => hook status
      | none => true,
    RequiresInventoryRestore := fun status =>
      match f.RequiresInventoryRestoreFunc with
      | some hook => hook status
      | none => false }

/-- The inventory fake with no `...Func` field set. -/
def InventoryStoreFake.plain : InventoryStoreFake :=
  { GetByProductIDFunc := none, LockForUpdateFunc := none,
    DecrementQuantityFunc := none, IncrementQuantityFunc := none }

/-- The order fake with no `...Func` field set. -/
def OrderStoreFake.plain : OrderStoreFake :=
  { CreateFunc := none, GetByIDFunc := none, UpdateStatusFunc := none }

/-- The audit log fake with no `...Func` field set. -/
def OrderStateLogStoreFake.plain : OrderStateLogStoreFake :=
  { CreateFunc := none, GetByOrderIDFunc := none }

/-- The constructor `NewOrderService`. -/
def NewOrderService {σ : Type} (orderStore : OrderStore σ) (inventoryStore : InventoryStore σ)
    (orderStateLogStore : OrderStateLogStore σ) (fsmValidator : FSMValidator) : orderService σ :=
  { orderStore := orderStore,
    inventoryStore := inventoryStore,
    orderStateLogStore := orderStateLogStore,
    fsmValidator := fsmValidator }

/-- The service built on the three fakes and a validator. -/
def fakeService (orderStore : OrderStoreFake) (inventoryStore : InventoryStoreFake)
    (orderStateLogStore : OrderStateLogStoreFake) (fsmValidator : FSMValidator) (env : Env) :
    orderService World :=
  NewOrderService (orderStore.toStore env) inventoryStore.toStore orderStateLogStore.toStore
    fsmValidator

/-- The service over the fakes with no `...Func` field set and the validator
of the state machine. -/
def plainService (env : Env) : orderService World :=
  fakeService OrderStoreFake.plain InventoryStoreFake.plain OrderStateLogStoreFake.plain
    NewValidator env

/-- The quantity of a product as the fake inventory store reports it
(`GetByProductID` with no `...Func` field set). -/
def stock (w : World) (productID : UUID) : Int :=
  match InventoryStoreFake.plain.GetByProductID productID w with
  | .ret (.ok inv) _ => inv.Quantity
  | _ => 0

/-! ## Serial runs of `CreateOrder` on one product -/

/-- One call of `CreateOrder`: its arguments other than the product, and what
the surroundings hand to the stores while it runs. -/
structure CreateCall where
  env : Env
  userID : Int
  quantity : Int
  metadata : JSONB
  deriving DecidableEq, Repr

/-- Where a call of `CreateOrder` stands between two of its steps. -/
inductive Pc where
  /-- Not started. -/
  | start
  /-- Past the argument checks, before `productLock.Lock()` in `LockForUpdate`. -/
  | validated
  /-- Holding the mutex of the product, before the record is read. -/
  | haveLock
  /-- After `LockForUpdate` returned the copy of the record. -/
  | locked (inventory : Inventory)
  /-- Past the stock check of the service, before `DecrementQuantity`. -/
  | checked
  /-- In `DecrementQuantity`, which found too little, before `productLock.Unlock()`. -/
  | decFailed
  /-- In `DecrementQuantity`, past `productLock.Unlock()`, before the error is made. -/
  | decFailedUnlocked
  /-- In `DecrementQuantity`, which subtracted, before `productLock.Unlock()`. -/
  | decremented
  /-- After `DecrementQuantity` returned `nil`, before `orderStore.Create`. -/
  | released
  /-- Returned. -/
  | done (r : Except Error Order)
  /-- Stopped by the fatal error of unlocking a mutex that is not locked. (The
  error ends the process; the other calls are let run on all the same.) -/
  | crashed

/-- The next step of a call of `CreateOrder` on the plain fakes that stands at
`pc`, in the shared state `w`: where it stands afterwards and the state it
leaves, or `none` when it cannot move (it waits for the mutex, or it is over).
The plain `LockForUpdate` and `Create` return no error, so the two branches of
`CreateOrder` that handle one have no step. -/
def stepCall (productID : UUID) (c : CreateCall) (pc : Pc) (w : World) : Option (Pc × World) :=
  match pc with
  | .start =>
    if c.userID ≤ 0 then
      some (.done (.error ("invalid user ID: " ++ fmtInt c.userID)), w)
    else if c.quantity ≤ 0 then
      some (.done (.error ("invalid quantity: " ++ fmtInt c.quantity)), w)
    else some (.validated, w)
  | .validated =>
    if w.productLocks productID then none
    else some (.haveLock, { w with productLocks := setKey w.productLocks productID true })
  | .haveLock =>
    match w.inventoryMap productID with
    | some inv => some (.locked inv, w)
    | none =>
      let inv := defaultInventory productID
      some (.locked inv, { w with inventoryMap := setKey w.inventoryMap productID (some inv) })
  | .locked inventory =>
    if inventory.Quantity < c.quantity then
      some (.done (.error ("insufficient inventory: requested " ++ fmtInt c.quantity
        ++ ", available " ++ fmtInt inventory.Quantity)), w)
    else some (.checked, w)
  | .checked =>
    let found : Inventory × World :=
      match w.inventoryMap productID with
      | some inv => (inv, w)
      | none =>
        let inv := defaultInventory productID
        (inv, { w with inventoryMap := setKey w.inventoryMap productID (some inv) })
    let inv := found.1
    let w1 := found.2
    if inv.Quantity < c.quantity then some (.decFailed, w1)
    else
      let inv1 : Inventory := { inv with Quantity := wrapInt (inv.Quantity - c.quantity) }
      some (.decremented,
        { w1 with inventoryMap := setKey w1.inventoryMap productID (some inv1) })
  | .decFailed =>
    if w.productLocks productID then
      some (.decFailedUnlocked, { w with productLocks := setKey w.productLocks productID false })
    else some (.crashed, w)
  | .decFailedUnlocked =>
    let inv : Inventory :=
      match w.inventoryMap productID with
      | some inv => inv
      | none => defaultInventory productID
    some (.done (.error ("failed to decrement inventory: "
      ++ ("insufficient inventory: requested " ++ fmtInt c.quantity
        ++ ", available " ++ fmtInt inv.Quantity))), w)
  | .decremented =>
    if w.productLocks productID then
      some (.released, { w with productLocks := setKey w.productLocks productID false })
    else some (.crashed, w)
  | .released =>
    let order : Order :=
      { ID := c.env.newID, UserID := c.userID, ProductID := productID, Quantity := c.quantity,
        CurrentStatus := OrderStatusOrdered, Metadata := c.metadata,
        CreatedAt := c.env.now, UpdatedAt := c.env.now }
    some (.done (.ok order), { w with orders := setKey w.orders order.ID (some order) })
  | .done _ => none
  | .crashed => none

/-- A call in flight. -/
structure Thread where
  call : CreateCall
  pc : Pc

/-- The shared state and the calls in flight. -/
structure Config where
  world : World
  threads : List Thread

/-- The scheduler lets call number `i` take its next step; nothing happens when
there is no such call or when it cannot move. -/
def stepThread (productID : UUID) (i : Nat) (cfg : Config) : Config :=
  match cfg.threads[i]? with
  | none => cfg
  | some t =>
    match stepCall productID t.call t.pc cfg.world with
    | none => cfg
    | some next =>
      { world := next.2, threads := cfg.threads.set i { t with pc := next.1 } }

/-- An interleaving: the calls step in the order the schedule names them. -/
def runSchedule (productID : UUID) (schedule : List Nat) (cfg : Config) : Config :=
  schedule.foldl (fun acc i => stepThread productID i acc) cfg

/-- The calls handed in together, none started. -/
def spawn (w : World) (calls : List CreateCall) : Config :=
  { world := w, threads := calls.map fun c => { call := c, pc := Pc.start } }

/-- The quantity a call has reserved: its own once it returned an order. -/
def reservedBy (t : Thread) : Int :=
  match t.pc with
  | .done (.ok _) => t.call.quantity
  | _ => 0

/-- The quantity a call has taken out of the stock: its own once
`DecrementQuantity` subtracted it. -/
def takenBy (t : Thread) : Int :=
  match t.pc with
  | .decremented => t.call.quantity
  | .released => t.call.quantity
  | .done (.ok _) => t.call.quantity
  | _ => 0

/-- The quantity reserved by the calls that returned an order. -/
def totalReserved (threads : List Thread) : Int :=
  (threads.map reservedBy).sum

/-- The quantity the calls have taken out of the stock. -/
def totalTaken (threads : List Thread) : Int :=
  (threads.map takenBy).sum

/-- Whether a call standing at `pc` has passed the argument checks of
`CreateOrder` and not failed since. -/
def pastChecks (pc : Pc) : Bool :=
  match pc with
  | .start => false
  | .done (.error _) => false
  | .crashed => false
  | _ => true

/-- The invariant of the interleavings that start with stock `S`: the stock is
a non-negative machine integer, it and what the calls took out of it do not
exceed `S`, and every call past the argument checks asks for a positive quantity. -/
def Safe (productID : UUID) (S : Int) (cfg : Config) : Prop :=
  IsInt (stock cfg.world productID)
  ∧ 0 ≤ stock cfg.world productID
  ∧ stock cfg.world productID + totalTaken cfg.threads ≤ S
  ∧ ∀ t ∈ cfg.threads, pastChecks t.pc = true → 0 < t.call.quantity

/-! ## Runs of the lifecycle operations -/

/-- One call of a lifecycle operation on the plain fakes, with what the
surroundings hand out while it runs. -/
inductive Op where
  /-- A call of `CreateOrder` on a product. -/
  | create (c : CreateCall) (productID : UUID)
  /-- A call of `UpdateOrderStatus`. -/
  | update (env : Env) (now : Time) (orderID : UUID) (newStatus : OrderStatus) (updatedBy : Int)

/-- The call run on the plain fakes with the validator of the state machine. -/
def runOp (op : Op) (w : World) : Run World (Except Error Order) :=
  match op with
  | .create c productID =>
    (plainService c.env).CreateOrder c.userID productID c.quantity c.metadata w
  | .update env now orderID newStatus updatedBy =>
    (plainService env).UpdateOrderStatus now orderID newStatus updatedBy w

/-- The state the calls leave when run one after another. A call that does not
return ends the run in the state in which it waits or stopped. -/
def runOps : List Op → World → World
  | [], w => w
  | op :: ops, w =>
    match runOp op w with
    | .ret _ w1 => runOps ops w1
    | .blocked w1 => w1
    | .fatal w1 => w1

/-- The largest Go `int` on a 64-bit target. -/
def maxInt : Int := 9223372036854775807

/-- The quantity that cancelling the order `orderID` hands back to the product:
the quantity of the order when it is stored, is on that product and is ORDERED. -/
def outstanding (w : World) (productID orderID : UUID) : Int :=
  match w.orders orderID with
  | some o =>
    if o.ProductID = productID ∧ o.CurrentStatus = OrderStatusOrdered then o.Quantity else 0
  | none => 0

/-- A state whose books are in order: no stock is negative, no ORDERED order has
a negative quantity, and the stock of a product together with the quantities of
any ORDERED orders on it is a machine integer. -/
def Balanced (w : World) : Prop :=
  (∀ p, 0 ≤ stock w p)
  ∧ (∀ id o, w.orders id = some o → o.CurrentStatus = OrderStatusOrdered → 0 ≤ o.Quantity)
  ∧ (∀ p (ids : List UUID), ids.Nodup →
      stock w p + (ids.map (outstanding w p)).sum ≤ maxInt)

/-! ## Database inventory store (`datastore/inventory_store.go`) -/

/-- What the query `db.Where("product_id = ?", productID).First(&inventory)`
answers: the row, `gorm.ErrRecordNotFound` when the product has no row, or
another error. -/
inductive FirstResult where
  | found (inventory : Inventory)
  | recordNotFound
  | failed (err : Error)

/-- The method `inventoryStore.GetByProductID` of the database store, with the
query of the database as `first`. -/
def inventoryStore.GetByProductID (first : UUID → FirstResult) (productID : UUID) :
    Except Error Inventory :=
  match first productID with
  | .failed err => .error err
  | .recordNotFound => .ok { ProductID := productID, Quantity := 0 }
  | .found inventory => .ok inventory

/-! ## Reading the audit log -/

/-- The history of an order as the audit log fake reports it (`GetByOrderID`
with no `...Func` field set). -/
def history (w : World) (orderID : UUID) : List OrderStateLog :=
  match OrderStateLogStoreFake.plain.GetByOrderID orderID w with
  | .ret (.ok logs) _ => logs
  | _ => []

/-! ## Go strings -/

/-- The bytes of a Go string: the UTF-8 encoding of its characters. -/
def goBytes (s : String) : List Nat :=
  s.data.flatMap fun c => (String.utf8EncodeChar c).map UInt8.toNat

/-- The builtin `len` on a string: its number of bytes. -/
def goLen (s : String) : Nat := (goBytes s).length

/-- The slice `s[:n]` of a string, for `n` within its length: its first `n`
bytes. -/
def goSlice (s : String) (n : Nat) : List Nat := (goBytes s).take n

/-! ## HTTP layer (`api/v1`, `middleware`)

A handler takes what it reads of the request and the state, and yields the
response it writes. JSON decoding, `uuid.Parse`, `UUID.String` and
`auth.ValidateToken` are library functions, taken as given in `Library`. -/

/-- The values handlers read from `r.Context()`: those under the keys
`"user_id"` and `"user_role"`, when they are set with the type asked for. -/
structure Context where
  user_id : Option Int
  user_role : Option String

/-- What the middleware and the handlers read of an `http.Request`: the method,
`r.URL.Path`, the `Authorization` header (empty when absent), the path variables
`mux.Vars(r)`, the body and the context. -/
structure Request where
  Method : String
  Path : String
  Authorization : String
  vars : String → String
  Body : String
  ctx : Context

/-- The record `types.CreateOrderRequest`; a `nil` map is `none`. -/
structure CreateOrderRequest where
  ProductID : String
  Quantity : Int
  ShippingAddress : Option JSONB

/-- The record `types.UpdateOrderStatusRequest`. -/
structure UpdateOrderStatusRequest where
  CurrentStatus : String

/-- The record `types.CreateOrderResponse`. -/
structure CreateOrderResponse where
  OrderID : String
  CurrentStatus : String
  Message : String
  deriving DecidableEq, Repr

/-- The record `types.UpdateOrderStatusResponse`. -/
structure UpdateOrderStatusResponse where
  OrderID : String
  PreviousStatus : String
  CurrentStatus : String
  UpdatedBy : Int
  UpdatedAt : Time
  deriving DecidableEq, Repr

/-- The data a handler encodes as the body of its response. -/
inductive ResponseData where
  /-- The map with the keys `"error"` and `"message"` of `WriteErrorResponse`. -/
  | failure (error message : String)
  | createOrder (r : CreateOrderResponse)
  | updateOrderStatus (r : UpdateOrderStatusResponse)
  /-- The map with the keys `"id"` and `"name"` of the product route. -/
  | product (id name : String)
  deriving DecidableEq, Repr

/-- What a handler writes: the status code and the body. -/
structure Response where
  statusCode : Nat
  data : ResponseData
  deriving DecidableEq, Repr

def StatusOK : Nat := 200
def StatusCreated : Nat := 201
def StatusBadRequest : Nat := 400
def StatusUnauthorized : Nat := 401
def StatusForbidden : Nat := 403
def StatusNotFound : Nat := 404
def StatusConflict : Nat := 409
def StatusInternalServerError : Nat := 500

/-- The function `helpers.WriteJSONResponse`. -/
def WriteJSONResponse (statusCode : Nat) (data : ResponseData) : Response :=
  { statusCode := statusCode, data := data }

/-- The function `helpers.WriteErrorResponse`. -/
def WriteErrorResponse (statusCode : Nat) (errorMsg message : String) : Response :=
  WriteJSONResponse statusCode (.failure errorMsg message)

/-- The library functions the HTTP layer calls: `uuid.Parse` and the two uses
of `json.NewDecoder(r.Body).Decode` (`none` for an error), `UUID.String`, and
`auth.ValidateToken`, which yields the user and the role of a token. -/
structure Library where
  uuidParse : String → Option UUID
  uuidString : UUID → String
  decodeCreateOrderRequest : String → Option CreateOrderRequest
  decodeUpdateOrderStatusRequest : String → Option UpdateOrderStatusRequest
  ValidateToken : String → Except Error (Int × String)

/-- The interface `services.OrderService`, without its listing methods. A
method that returns neither an order nor an error is not covered. -/
structure OrderService (σ : Type) where
  CreateOrder : Int → UUID → Int → JSONB → σ → Run σ (Except Error Order)
  UpdateOrderStatus : UUID → OrderStatus → Int → σ → Run σ (Except Error Order)
  GetOrderByID : UUID → σ → Run σ (Except Error Order)
  GetOrderHistory : UUID → σ → Run σ (Except Error (List OrderStateLog))

/-- The lifecycle service as a `services.OrderService`; `now` is the reading
of `time.Now()` its `UpdateOrderStatus` takes. -/
def orderService.toService {σ : Type} (s : orderService σ) (now : Time) : OrderService σ :=
  { CreateOrder := s.CreateOrder,
    UpdateOrderStatus := s.UpdateOrderStatus now,
    GetOrderByID := s.GetOrderByID,
    GetOrderHistory := s.GetOrderHistory }

/-- The record `OrderController`. -/
structure OrderController (σ : Type) where
  orderService : OrderService σ

/-- The constructor `NewOrderController`. -/
def NewOrderController {σ : Type} (orderService : OrderService σ) : OrderController σ :=
  { orderService := orderService }

/-- The function `isValidOrderStatus`. -/
def isValidOrderStatus (status : OrderStatus) : Bool :=
  [OrderStatusOrdered, OrderStatusShipped, OrderStatusDelivered, OrderStatusCancelled].any
    fun valid => status == valid

/-- The function `getUserIDFromContext`. -/
def getUserIDFromContext (ctx : Context) : Int :=
  match ctx.user_id with
  | some userID => userID
  | none => 0

/-- The function `getUserRoleFromContext`. -/
def getUserRoleFromContext (ctx : Context) : String :=
  match ctx.user_role with
  | some role => role
  | none => "user"

/-- The handler `OrderController.CreateOrder`. -/
def OrderController.CreateOrder {σ : Type} (oc : OrderController σ) (lib : Library)
    (r : Request) (w : σ) : Run σ Response :=
  let ctx := r.ctx
  let userID := getUserIDFromContext ctx
  let role := getUserRoleFromContext ctx
  if userID = 0 then
    .ret (WriteErrorResponse StatusUnauthorized "unauthorized" "User ID not found in context") w
  else if role = "admin" then
    .ret (WriteErrorResponse StatusForbidden "forbidden" "Admin users cannot place orders") w
  else
    match lib.decodeCreateOrderRequest r.Body with
    | none => .ret (WriteErrorResponse StatusBadRequest "invalid_request" "Invalid request body") w
    | some req =>
      if req.Quantity ≤ 0 then
        .ret (WriteErrorResponse StatusBadRequest "invalid_request"
          "Quantity must be greater than 0") w
      else
        match lib.uuidParse req.ProductID with
        | none =>
          .ret (WriteErrorResponse StatusBadRequest "invalid_request"
            "Invalid product ID format") w
        | some productID =>
          let metadata : JSONB :=
            match req.ShippingAddress with
            | some address => address
            | none => []
          (oc.orderService.CreateOrder userID productID req.Quantity metadata w).bind
          fun result w1 =>
          match result with
          | .error errMsg =>
            if goLen errMsg > 20 ∧ goSlice errMsg 20 = goBytes "insufficient inventory" then
              .ret (WriteErrorResponse StatusBadRequest "insufficient_inventory" errMsg) w1
            else
              .ret (WriteErrorResponse StatusInternalServerError "internal_error"
                ("Failed to create order: " ++ errMsg)) w1
          | .ok order =>
            .ret (WriteJSONResponse StatusCreated
              (.createOrder
                { OrderID := lib.uuidString order.ID,
                  CurrentStatus := order.CurrentStatus,
                  Message := "Order placed successfully" })) w1

/-- The handler `OrderController.UpdateOrderStatus`. The statements after the
role checks, which every allowed request reaches, are `forward`. -/
def OrderController.UpdateOrderStatus {σ : Type} (oc : OrderController σ) (lib : Library)
    (r : Request) (w : σ) : Run σ Response :=
  let ctx := r.ctx
  let orderID := r.vars "orderId"
  let userID := getUserIDFromContext ctx
  match lib.decodeUpdateOrderStatusRequest r.Body with
  | none => .ret (WriteErrorResponse StatusBadRequest "invalid_request" "Invalid request body") w
  | some req =>
    match lib.uuidParse orderID with
    | none =>
      .ret (WriteErrorResponse StatusBadRequest "invalid_request" "Invalid order ID format") w
    | some orderUUID =>
      let newStatus : OrderStatus := req.CurrentStatus
      if !isValidOrderStatus newStatus then
        .ret (WriteErrorResponse StatusBadRequest "invalid_request" "Invalid order status") w
      else
        (oc.orderService.GetOrderByID orderUUID w).bind fun fetched w1 =>
        match fetched with
        | .error _ => .ret (WriteErrorResponse StatusNotFound "not_found" "Order not found") w1
        | .ok currentOrder =>
          let previousStatus : String := currentOrder.CurrentStatus
          let role := getUserRoleFromContext ctx
          let forward : Run σ Response :=
            (oc.orderService.UpdateOrderStatus orderUUID newStatus userID w1).bind
            fun result w2 =>
            match result with
            | .error errMsg =>
              if goLen errMsg > 15 ∧ goSlice errMsg 15 = goBytes "invalid transition" then
                .ret (WriteErrorResponse StatusConflict "invalid_transition" errMsg) w2
              else if errMsg = "order not found"
                  ∨ (goLen errMsg > 13 ∧ goSlice errMsg 13 = goBytes "order not found") then
                .ret (WriteErrorResponse StatusNotFound "not_found" errMsg) w2
              else
                .ret (WriteErrorResponse StatusInternalServerError "internal_error"
                  "Failed to update order status") w2
            | .ok order =>
              .ret (WriteJSONResponse StatusOK
                (.updateOrderStatus
                  { OrderID := lib.uuidString order.ID,
                    PreviousStatus := previousStatus,
                    CurrentStatus := order.CurrentStatus,
                    UpdatedBy := userID,
                    UpdatedAt := order.UpdatedAt })) w2
          if role = "admin" then
            if newStatus ≠ OrderStatusShipped ∧ newStatus ≠ OrderStatusDelivered then
              .ret (WriteErrorResponse StatusForbidden "forbidden"
                "Admin can only update status to SHIPPED or DELIVERED") w1
            else forward
          else
            if newStatus ≠ OrderStatusCancelled then
              .ret (WriteErrorResponse StatusForbidden "forbidden"
                ("Regular users can only cancel ORDERED orders. "
                  ++ "Only admin can update status to SHIPPED or DELIVERED")) w1
            else if currentOrder.CurrentStatus ≠ OrderStatusOrdered then
              .ret (WriteErrorResponse StatusForbidden "forbidden"
                "Only ORDERED orders can be cancelled by regular users") w1
            else forward

/-- The handler of the route `/products/{productId}` in `SetupRouterWithStoresAndDB`. -/
def productHandler {σ : Type} (r : Request) (w : σ) : Run σ Response :=
  .ret (WriteJSONResponse StatusOK (.product (r.vars "productId") "Placeholder Product")) w

/-- The list `publicPaths` of `AuthMiddleware`. -/
def publicPaths : List String :=
  ["/api/v1/health", "/api/v1/products", "/api/v1/auth/login", "/api/v1/auth/signup"]

/-- The middleware `AuthMiddleware` around the handler `next`. -/
def AuthMiddleware {σ : Type} (lib : Library) (next : Request → σ → Run σ Response)
    (r : Request) (w : σ) : Run σ Response :=
  if publicPaths.any (fun path => r.Path == path) then next r w
  else if r.Method = "GET" ∧ goLen r.Path > 15
      ∧ goSlice r.Path 15 = goBytes "/api/v1/products" then
    next r w
  else
    let authHeader := r.Authorization
    if authHeader = "" then
      .ret (WriteErrorResponse StatusUnauthorized "unauthorized"
        "Missing Authorization header") w
    else
      match authHeader.splitOn " " with
      | [bearer, token] =>
        if bearer ≠ "Bearer" then
          .ret (WriteErrorResponse StatusUnauthorized "unauthorized"
            "Invalid Authorization header format") w
        else
          match lib.ValidateToken token with
          | .error _ =>
            .ret (WriteErrorResponse StatusUnauthorized "unauthorized"
              "Invalid or expired token") w
          | .ok (userID, role) =>
            next { r with ctx := { user_id := some userID, user_role := some role } } w
      | _ =>
        .ret (WriteErrorResponse StatusUnauthorized "unauthorized"
          "Invalid Authorization header format") w

/-! ## Sample data -/

/-- An order of 3 units of product 7 placed by user 5. -/
def sampleOrder : Order :=
  { ID := 11, UserID := 5, ProductID := 7, Quantity := 3,
    CurrentStatus := OrderStatusOrdered, Metadata := [], CreatedAt := 1, UpdatedAt := 1 }

/-- A state with 100 units of product 7 on record, `sampleOrder` stored and no
mutex held. -/
def sampleWorld : World :=
  { World.empty with
    inventoryMap := setKey World.empty.inventoryMap 7 (some { ProductID := 7, Quantity := 100 }),
    orders := setKey World.empty.orders 11 (some sampleOrder) }

/-- What the surroundings hand out in the samples: identifier 12 at time 2. -/
def sampleEnv : Env := { newID := 12, now := 2 }

/-- A call for 60 units by user 5. -/
def sampleCall : CreateCall :=
  { env := sampleEnv, userID := 5, quantity := 60, metadata := [] }

/-- An order store whose `CreateFunc` refuses every order. -/
def failingOrderStore : OrderStoreFake :=
  { CreateFunc := some fun order => (order, some "db down"),
    GetByIDFunc := none, UpdateStatusFunc := none }

/-- An inventory store whose `IncrementQuantityFunc` refuses every increment. -/
def failingRestoreStore : InventoryStoreFake :=
  { GetByProductIDFunc := none, LockForUpdateFunc := none, DecrementQuantityFunc := none,
    IncrementQuantityFunc := some fun _ _ => some "restore failed" }

/-- An audit log store whose `CreateFunc` refuses every entry. -/
def failingLogStore : OrderStateLogStoreFake :=
  { CreateFunc := some fun _ => some "audit down", GetByOrderIDFunc := none }

/-- The sample order once cancelled. -/
def cancelledOrder : Order :=
  { sampleOrder with CurrentStatus := OrderStatusCancelled }

/-- A state like `sampleWorld` but with the sample order CANCELLED. -/
def cancelledWorld : World :=
  { sampleWorld with orders := setKey World.empty.orders 11 (some cancelledOrder) }

/-- A state with 3 units of product 7 on record and a stored ORDERED order whose
quantity is `-5`. -/
def owingWorld : World :=
  { World.empty with
    inventoryMap := setKey World.empty.inventoryMap 7 (some { ProductID := 7, Quantity := 3 }),
    orders := setKey World.empty.orders 11 (some { sampleOrder with Quantity := -5 }) }

/-- A state like `sampleWorld` but with no inventory record at all. -/
def unrecordedWorld : World :=
  { World.empty with orders := setKey World.empty.orders 11 (some sampleOrder) }

/-- A state like `sampleWorld` but with the largest machine integer as the
quantity of product 7. -/
def brimfulWorld : World :=
  { World.empty with
    inventoryMap := setKey World.empty.inventoryMap 7 (some { ProductID := 7, Quantity := maxInt }),
    orders := setKey World.empty.orders 11 (some sampleOrder) }

/-- An order store that writes like the plain fake but whose `GetByID` does not
show cancelled orders: it answers "record not found" for them. -/
def hidingOrderStore (env : Env) : OrderStore World :=
  { Create := OrderStoreFake.plain.Create env,
    GetByID := fun orderID w =>
      match w.orders orderID with
      | none => .ret (.error "order not found") w
      | some order =>
        if order.CurrentStatus = OrderStatusCancelled then .ret (.error "record not found") w
        else .ret (.ok order) w,
    UpdateStatus := OrderStoreFake.plain.UpdateStatus env }

/-- The service over `hidingOrderStore`, the plain inventory and audit log fakes
and the validator of the state machine. -/
def hidingService (env : Env) : orderService World :=
  NewOrderService (hidingOrderStore env) InventoryStoreFake.plain.toStore
    OrderStateLogStoreFake.plain.toStore NewValidator

/-- A stand-in for the library: the identifiers 7 and 11 are written in
decimal, the request bodies of the samples are decoded, and no token is valid. -/
def sampleLibrary : Library :=
  { uuidParse := fun s => if s = "7" then some 7 else if s = "11" then some 11 else none,
    uuidString := fun id => toString id,
    decodeCreateOrderRequest := fun body =>
      if body = "150 of product 7" then
        some { ProductID := "7", Quantity := 150, ShippingAddress := none }
      else none,
    decodeUpdateOrderStatusRequest := fun body =>
      if body = "" then none else some { CurrentStatus := body },
    ValidateToken := fun _ => .error "token is malformed" }

/-- The controller over the lifecycle service on the plain fakes. -/
def sampleController : OrderController World :=
  NewOrderController ((plainService sampleEnv).toService 4)

/-- A request by user 5, a regular user, to order 150 units of product 7. -/
def sampleCreateRequest : Request :=
  { Method := "POST", Path := "/api/v1/orders", Authorization := "", vars := fun _ => "",
    Body := "150 of product 7", ctx := { user_id := some 5, user_role := some "user" } }

/-- A request by user 1, an admin, to set the order 11 to DELIVERED. -/
def sampleDeliverRequest : Request :=
  { Method := "PATCH", Path := "/api/v1/orders/11", Authorization := "",
    vars := fun name => if name = "orderId" then "11" else "",
    Body := "DELIVERED", ctx := { user_id := some 1, user_role := some "admin" } }

/-- A request by user 5, a regular user, to set the order 11 to SHIPPED. -/
def sampleShipRequest : Request :=
  { sampleDeliverRequest with
    Body := "SHIPPED", ctx := { user_id := some 5, user_role := some "user" } }

/-- A request by user 1, an admin, to set the order 11 to `FOO`. -/
def sampleBogusRequest : Request :=
  { sampleDeliverRequest with Body := "FOO" }

/-- A request for the product 42 that carries no `Authorization` header. -/
def sampleProductRequest : Request :=
  { Method := "GET", Path := "/api/v1/products/42", Authorization := "",
    vars := fun name => if name = "productId" then "42" else "",
    Body := "", ctx := { user_id := none, user_role := none } }

/-! ## The state machine -/

/-- Claim C1. For every pair of status values, also ones outside the four
lifecycle states, `ValidateTransition` returns `nil` exactly when the two are
equal or the pair is ORDERED to SHIPPED, ORDERED to CANCELLED or SHIPPED to
DELIVERED; every other pair gets an error. -/
theorem ValidateTransition_nil_iff (current target : OrderStatus) :
    ValidateTransition current target = none ↔
      (current = target
        ∨ (current = OrderStatusOrdered ∧ target = OrderStatusShipped)
        ∨ (current = OrderStatusOrdered ∧ target = OrderStatusCancelled)
        ∨ (current = OrderStatusShipped ∧ target = OrderStatusDelivered)) := by
  unfold ValidateTransition
  by_cases h : current = target
  · simp [h]
  · simp only [h, if_false, false_or]
    simp only [StateTransition, List.lookup]
    by_cases h1 : current = OrderStatusOrdered
    · subst h1
      simp [OrderStatusOrdered, OrderStatusShipped, OrderStatusCancelled, OrderStatusDelivered]
      by_cases hs : "SHIPPED" = target
      · simp [← hs]
      · have hs2 : ¬ target = "SHIPPED" := fun e => hs e.symm
        simp [hs, hs2, eq_comm]
    · have e1 : (current == OrderStatusOrdered) = false := by simpa using h1
      simp only [e1]
      by_cases h2 : current = OrderStatusShipped
      · subst h2
        simp [OrderStatusOrdered, OrderStatusShipped, OrderStatusCancelled, OrderStatusDelivered]
        exact eq_comm
      · have e2 : (current == OrderStatusShipped) = false := by simpa using h2
        simp only [e2]
        cases hd : current == OrderStatusDelivered <;>
          cases hc : current == OrderStatusCancelled <;> simp [h1, h2]

/-! ## Store lemmas -/


@[simp] theorem Run.bind_ret {σ α β : Type} (a : α) (s : σ) (k : α → σ → Run σ β) :
    (Run.ret a s).bind k = k a s := rfl
@[simp] theorem Run.bind_blocked {σ α β : Type} (s : σ) (k : α → σ → Run σ β) :
    (Run.blocked s : Run σ α).bind k = .blocked s := rfl
@[simp] theorem Run.bind_fatal {σ α β : Type} (s : σ) (k : α → σ → Run σ β) :
    (Run.fatal s : Run σ α).bind k = .fatal s := rfl

theorem wrapInt_eq_self (x : Int) (h : IsInt x) : wrapInt x = x := by
  unfold wrapInt
  unfold IsInt at h
  omega

theorem stock_eq (w : World) (p : UUID) :
    stock w p = (match w.inventoryMap p with
      | some inv => inv.Quantity
      | none => getDefaultQuantity p) := by
  unfold stock InventoryStoreFake.GetByProductID InventoryStoreFake.plain
  cases h : w.inventoryMap p <;> simp [defaultInventory]

theorem setKey_same {α : Type} (m : UUID → α) (k : UUID) (v : α) : setKey m k v k = v := by
  simp [setKey]

theorem setKey_other {α : Type} (m : UUID → α) (k j : UUID) (v : α) (h : j ≠ k) :
    setKey m k v j = m j := by
  simp [setKey, h]

/-- What `LockForUpdate` of the plain fake does when the mutex is free. -/
theorem plain_LockForUpdate (w : World) (p : UUID) (hl : w.productLocks p = false) :
    ∃ inv w1, InventoryStoreFake.plain.LockForUpdate p w = .ret (.ok inv) w1
      ∧ inv.Quantity = stock w p
      ∧ w1.inventoryMap p = some inv
      ∧ (∀ p', p' ≠ p → w1.inventoryMap p' = w.inventoryMap p')
      ∧ (∀ p', stock w1 p' = stock w p')
      ∧ w1.productLocks = setKey w.productLocks p true
      ∧ w1.orders = w.orders
      ∧ w1.orderStateLogs = w.orderStateLogs := by
  unfold InventoryStoreFake.LockForUpdate InventoryStoreFake.plain
  simp only [hl]
  cases h : w.inventoryMap p with
  | none =>
    refine ⟨defaultInventory p,
      { w with
        productLocks := setKey w.productLocks p true,
        inventoryMap := setKey w.inventoryMap p (some (defaultInventory p)) },
      by simp [h], ?_, ?_, ?_, ?_, rfl, rfl, rfl⟩
    · simp [stock_eq, h, defaultInventory]
    · simp [setKey]
    · intro p' hp
      simp [setKey, hp]
    · intro p'
      by_cases hp : p' = p
      · subst hp
        simp [stock_eq, h, setKey, defaultInventory]
      · simp [stock_eq, setKey, hp]
  | some inv =>
    refine ⟨inv, { w with productLocks := setKey w.productLocks p true },
      by simp [h], ?_, ?_, ?_, ?_, rfl, rfl, rfl⟩
    · simp [stock_eq, h]
    · simp [h]
    · intro p' _
      rfl
    · intro p'
      simp [stock_eq]

/-- What `DecrementQuantity` of the plain fake does on a product whose mutex is
held and whose record holds at least the quantity asked for. -/
theorem plain_DecrementQuantity (w : World) (p : UUID) (q : Int) (inv : Inventory)
    (hinv : w.inventoryMap p = some inv) (hl : w.productLocks p = true)
    (hge : ¬ inv.Quantity < q) :
    InventoryStoreFake.plain.DecrementQuantity p q w = .ret none
      { w with
        inventoryMap := setKey w.inventoryMap p
          (some { inv with Quantity := wrapInt (inv.Quantity - q) }),
        productLocks := setKey w.productLocks p false } := by
  unfold InventoryStoreFake.DecrementQuantity InventoryStoreFake.plain unlockProduct
  simp [hinv, hge, hl]

/-- What `IncrementQuantity` of the plain fake does on a product that has a
record and whose mutex is free. -/
theorem plain_IncrementQuantity (w : World) (p : UUID) (q : Int) (inv : Inventory)
    (hinv : w.inventoryMap p = some inv) (hl : w.productLocks p = false) :
    InventoryStoreFake.plain.IncrementQuantity p q w = .ret none
      { w with
        inventoryMap := setKey w.inventoryMap p
          (some { inv with Quantity := wrapInt (inv.Quantity + q) }) } := by
  unfold InventoryStoreFake.IncrementQuantity InventoryStoreFake.plain
  simp [hinv, hl]


/-- What `CreateOrder` does past its argument checks when the inventory store is the
plain fake and the mutex of the product is free: the stock check of the service
decides between the insufficient-inventory error and the decrement. -/
theorem CreateOrder_plain_inventory (orderStore : OrderStore World)
    (logStore : OrderStateLogStore World) (fsm : FSMValidator)
    (userID : Int) (p : UUID) (q : Int) (md : JSONB) (w : World)
    (hu : 0 < userID) (hq : 0 < q) (hl : w.productLocks p = false) :
    ∃ inv w1, InventoryStoreFake.plain.LockForUpdate p w = .ret (.ok inv) w1
      ∧ inv.Quantity = stock w p
      ∧ w1.inventoryMap p = some inv
      ∧ (∀ p', p' ≠ p → w1.inventoryMap p' = w.inventoryMap p')
      ∧ (∀ p', stock w1 p' = stock w p')
      ∧ w1.productLocks = setKey w.productLocks p true
      ∧ w1.orders = w.orders
      ∧ w1.orderStateLogs = w.orderStateLogs
      ∧ (stock w p < q →
          (NewOrderService orderStore InventoryStoreFake.plain.toStore logStore fsm).CreateOrder
              userID p q md w
            = .ret (.error ("insufficient inventory: requested " ++ fmtInt q
                ++ ", available " ++ fmtInt (stock w p))) w1)
      ∧ (¬ stock w p < q →
          (NewOrderService orderStore InventoryStoreFake.plain.toStore logStore fsm).CreateOrder
              userID p q md w
            = (orderStore.Create
                { ID := uuidNil, UserID := userID, ProductID := p, Quantity := q,
                  CurrentStatus := OrderStatusOrdered, Metadata := md,
                  CreatedAt := 0, UpdatedAt := 0 }
                { w1 with
                  inventoryMap := setKey w1.inventoryMap p
                    (some { inv with Quantity := wrapInt (inv.Quantity - q) }),
                  productLocks := setKey w1.productLocks p false }).bind
              fun created w3 =>
                match created.2 with
                | some err =>
                  (InventoryStoreFake.plain.IncrementQuantity p q w3).bind fun restoreErr w4 =>
                  match restoreErr with
                  | some rerr =>
                    .ret (.error ("failed to create order: " ++ err
                      ++ " (inventory restore also failed: " ++ rerr ++ ")")) w4
                  | none => .ret (.error ("failed to create order: " ++ err)) w4
                | none => .ret (.ok created.1) w3) := by
  obtain ⟨inv, w1, hlock, hqty, hrec, hoth, hstock, hlocks, hord, hlog⟩ :=
    plain_LockForUpdate w p hl
  refine ⟨inv, w1, hlock, hqty, hrec, hoth, hstock, hlocks, hord, hlog, ?_, ?_⟩
  · intro hlt
    have hlt' : inv.Quantity < q := by rw [hqty]; exact hlt
    unfold orderService.CreateOrder NewOrderService InventoryStoreFake.toStore
    have hu' : ¬ userID ≤ 0 := by omega
    have hq' : ¬ q ≤ 0 := by omega
    simp [hu', hq', hlock, hlt']
    rw [hqty]
  · intro hge
    have hge' : ¬ inv.Quantity < q := by rw [hqty]; exact hge
    have hheld : w1.productLocks p = true := by rw [hlocks]; simp [setKey]
    unfold orderService.CreateOrder NewOrderService InventoryStoreFake.toStore
    have hu' : ¬ userID ≤ 0 := by omega
    have hq' : ¬ q ≤ 0 := by omega
    simp [hu', hq', hlock, hge', plain_DecrementQuantity w1 p q inv hrec hheld hge']

/-! ## `CreateOrder` -/


theorem plainService_eq (env : Env) :
    plainService env = NewOrderService (OrderStoreFake.plain.toStore env)
      InventoryStoreFake.plain.toStore OrderStateLogStoreFake.plain.toStore NewValidator := rfl

/-- Claim C4. With a quantity that is zero or negative `CreateOrder` returns an
error and leaves the state as it was, whatever the stores are: no store is
called, so stock, mutexes and stored orders are untouched. -/
theorem CreateOrder_nonpositive_quantity {σ : Type} (s : orderService σ) (userID : Int)
    (productID : UUID) (quantity : Int) (metadata : JSONB) (w : σ) (hq : quantity ≤ 0) :
    s.CreateOrder userID productID quantity metadata w
      = .ret (.error (if userID ≤ 0 then "invalid user ID: " ++ fmtInt userID
          else "invalid quantity: " ++ fmtInt quantity)) w := by
  unfold orderService.CreateOrder
  by_cases hu : userID ≤ 0
  · simp [hu]
  · simp [hu, hq]

/-- Claim C4 at quantity `-3` on the plain fakes. -/
theorem CreateOrder_nonpositive_quantity_witness :
    (-3 : Int) ≤ 0
    ∧ (plainService sampleEnv).CreateOrder 5 7 (-3) [] sampleWorld
        = .ret (.error "invalid quantity: -3") sampleWorld :=
  ⟨by decide,
    CreateOrder_nonpositive_quantity (plainService sampleEnv) 5 7 (-3) [] sampleWorld
      (by decide)⟩

/-- Refusal with the mutex free. For a valid user and a quantity `q > 0` above
the stock of the product, `CreateOrder` on the fake inventory store, called while the mutex of
the product is free, returns the insufficient-inventory error; the stock of
every product is what it was, and no order and no audit entry was stored. -/
theorem CreateOrder_insufficient_inventory (orderStore : OrderStore World)
    (logStore : OrderStateLogStore World)
    (fsm : FSMValidator) (userID : Int) (p : UUID) (q : Int) (md : JSONB) (w : World)
    (hu : 0 < userID) (hq : 0 < q) (hl : w.productLocks p = false) (hs : stock w p < q) :
    ∃ w1,
      (NewOrderService orderStore InventoryStoreFake.plain.toStore logStore fsm).CreateOrder
          userID p q md w
        = .ret (.error ("insufficient inventory: requested " ++ fmtInt q
            ++ ", available " ++ fmtInt (stock w p))) w1
      ∧ (∀ p', stock w1 p' = stock w p')
      ∧ w1.orders = w.orders
      ∧ w1.orderStateLogs = w.orderStateLogs := by
  obtain ⟨inv, w1, -, -, -, -, hstock, -, hord, hlog, hins, -⟩ :=
    CreateOrder_plain_inventory orderStore logStore fsm userID p q md w hu hq hl
  exact ⟨w1, hins hs, hstock, hord, hlog⟩

/-- The refusal of 150 units against a stock of 100, the mutex being free. -/
theorem CreateOrder_insufficient_inventory_witness :
    stock sampleWorld 7 < 150
    ∧ ∃ w1,
      (NewOrderService (OrderStoreFake.plain.toStore sampleEnv) InventoryStoreFake.plain.toStore
          OrderStateLogStoreFake.plain.toStore NewValidator).CreateOrder 5 7 150 [] sampleWorld
        = .ret (.error ("insufficient inventory: requested " ++ fmtInt 150
            ++ ", available " ++ fmtInt (stock sampleWorld 7))) w1
      ∧ (∀ p', stock w1 p' = stock sampleWorld p')
      ∧ w1.orders = sampleWorld.orders
      ∧ w1.orderStateLogs = sampleWorld.orderStateLogs :=
  ⟨by decide,
    CreateOrder_insufficient_inventory (OrderStoreFake.plain.toStore sampleEnv)
      OrderStateLogStoreFake.plain.toStore NewValidator 5 7 150 [] sampleWorld
      (by decide) (by decide) rfl (by decide)⟩

/-- What `CreateOrder` on the plain fakes does when the mutex of the product is
free and the stock covers the quantity. -/
theorem plainService_CreateOrder_ok (env : Env) (userID : Int) (p : UUID) (q : Int)
    (md : JSONB) (w : World) (hu : 0 < userID) (hq : 0 < q) (hl : w.productLocks p = false)
    (hint : IsInt (stock w p)) (hge : q ≤ stock w p) :
    ∃ w1,
      (plainService env).CreateOrder userID p q md w
        = .ret (.ok { ID := env.newID, UserID := userID, ProductID := p, Quantity := q,
                      CurrentStatus := OrderStatusOrdered, Metadata := md,
                      CreatedAt := env.now, UpdatedAt := env.now }) w1
      ∧ stock w1 p = stock w p - q
      ∧ (∀ p', p' ≠ p → stock w1 p' = stock w p')
      ∧ w1.productLocks p = false
      ∧ w1.orders = setKey w.orders env.newID
          (some { ID := env.newID, UserID := userID, ProductID := p, Quantity := q,
                  CurrentStatus := OrderStatusOrdered, Metadata := md,
                  CreatedAt := env.now, UpdatedAt := env.now })
      ∧ w1.orderStateLogs = w.orderStateLogs := by
  obtain ⟨inv, w1, -, hqty, hrec, hoth, hstock, hlocks, hord, hlog, -, hok⟩ :=
    CreateOrder_plain_inventory (OrderStoreFake.plain.toStore env)
      OrderStateLogStoreFake.plain.toStore NewValidator userID p q md w hu hq hl
  have hge' : ¬ stock w p < q := by omega
  have hrun := hok hge'
  rw [← plainService_eq] at hrun
  have hwrap : wrapInt (inv.Quantity - q) = stock w p - q := by
    rw [hqty]
    apply wrapInt_eq_self
    unfold IsInt at *
    omega
  simp only [OrderStoreFake.toStore, OrderStoreFake.Create, OrderStoreFake.plain, uuidNil,
    if_true, Run.bind_ret] at hrun
  refine ⟨_, hrun, ?_, ?_, ?_, ?_, hlog⟩
  · simp [stock_eq, setKey, hwrap]
  · intro p' hp
    rw [← hstock p']
    simp [stock_eq, setKey, hp]
  · simp [setKey]
  · simp [hord]

/-- Placement with the mutex free. For a user id and a quantity `q` above zero
and a product whose stock `s` is at least `q`, `CreateOrder` on the plain fakes, called while the
mutex of the product is free and handed a fresh identifier, returns an order
with status ORDERED that carries the given user, product, quantity and
metadata; afterwards the stock of the product is `s - q`, the order is stored
under the fresh identifier, every other stored order is as before, and the
stock of every other product is unchanged. -/
theorem CreateOrder_success (env : Env) (userID : Int) (p : UUID) (q : Int) (md : JSONB)
    (w : World)
    (hu : 0 < userID) (hq : 0 < q) (hl : w.productLocks p = false)
    (hint : IsInt (stock w p)) (hge : q ≤ stock w p) (hfresh : w.orders env.newID = none) :
    ∃ w1,
      (plainService env).CreateOrder userID p q md w
        = .ret (.ok { ID := env.newID, UserID := userID, ProductID := p, Quantity := q,
                      CurrentStatus := OrderStatusOrdered, Metadata := md,
                      CreatedAt := env.now, UpdatedAt := env.now }) w1
      ∧ stock w1 p = stock w p - q
      ∧ (∀ p', p' ≠ p → stock w1 p' = stock w p')
      ∧ w.orders env.newID = none
      ∧ w1.orders env.newID
          = some ({ ID := env.newID, UserID := userID, ProductID := p, Quantity := q,
                    CurrentStatus := OrderStatusOrdered, Metadata := md,
                    CreatedAt := env.now, UpdatedAt := env.now } : Order)
      ∧ (∀ k, k ≠ env.newID → w1.orders k = w.orders k) := by
  obtain ⟨w1, hrun, hst, hoth, -, hord, -⟩ :=
    plainService_CreateOrder_ok env userID p q md w hu hq hl hint hge
  refine ⟨w1, hrun, hst, hoth, hfresh, ?_, ?_⟩
  · simp [hord, setKey]
  · intro k hk
    simp [hord, setKey, hk]


/-- The placement of 60 units against a stock of 100, the mutex being free. -/
theorem CreateOrder_success_witness :
    (60 : Int) ≤ stock sampleWorld 7
    ∧ ∃ w1,
      (plainService sampleEnv).CreateOrder 5 7 60 [] sampleWorld
        = .ret (.ok { ID := 12, UserID := 5, ProductID := 7, Quantity := 60,
                      CurrentStatus := OrderStatusOrdered, Metadata := [],
                      CreatedAt := 2, UpdatedAt := 2 }) w1
      ∧ stock w1 7 = stock sampleWorld 7 - 60
      ∧ (∀ p', p' ≠ 7 → stock w1 p' = stock sampleWorld p')
      ∧ sampleWorld.orders 12 = none
      ∧ w1.orders 12
          = some ({ ID := 12, UserID := 5, ProductID := 7, Quantity := 60,
                    CurrentStatus := OrderStatusOrdered, Metadata := [],
                    CreatedAt := 2, UpdatedAt := 2 } : Order)
      ∧ (∀ k, k ≠ 12 → w1.orders k = sampleWorld.orders k) :=
  ⟨by decide,
    CreateOrder_success sampleEnv 5 7 60 [] sampleWorld (by decide) (by decide) rfl
      (by decide) (by decide) rfl⟩

/-- Where `CreateOrder` stands once the reservation went through and the order
store refused the order: its outcome is that of the compensating
`IncrementQuantity` of the same product and quantity. -/
theorem CreateOrder_create_failed {σ : Type} (s : orderService σ) (userID : Int) (p : UUID)
    (q : Int) (md : JSONB) (w w1 w2 w3 : σ) (inv : Inventory) (created : Order × Option Error)
    (err : Error) (hu : 0 < userID) (hq : 0 < q)
    (hlock : s.inventoryStore.LockForUpdate p w = .ret (.ok inv) w1)
    (hge : ¬ inv.Quantity < q)
    (hdec : s.inventoryStore.DecrementQuantity p q w1 = .ret none w2)
    (hcreate : s.orderStore.Create
        { ID := uuidNil, UserID := userID, ProductID := p, Quantity := q,
          CurrentStatus := OrderStatusOrdered, Metadata := md, CreatedAt := 0, UpdatedAt := 0 }
        w2 = .ret created w3)
    (hfail : created.2 = some err) :
    s.CreateOrder userID p q md w
      = (s.inventoryStore.IncrementQuantity p q w3).bind fun restoreErr w4 =>
          match restoreErr with
          | some rerr =>
            .ret (.error ("failed to create order: " ++ err
              ++ " (inventory restore also failed: " ++ rerr ++ ")")) w4
          | none => .ret (.error ("failed to create order: " ++ err)) w4 := by
  unfold orderService.CreateOrder
  have hu' : ¬ userID ≤ 0 := by omega
  have hq' : ¬ q ≤ 0 := by omega
  simp [hu', hq', hlock, hge, hdec, hcreate, hfail]

/-- Claim C7. When the decrement went through and `Create` of the order store
then fails, `CreateOrder` calls `IncrementQuantity` of the inventory store with
the same product and quantity, from the state `w2` in which the stock is down
by `q`; that increment succeeds, `CreateOrder` returns an error, no order is
stored, and the stock of every product is what it was before the call. -/
theorem CreateOrder_compensates_failed_create (orderStore : OrderStoreFake)
    (logStore : OrderStateLogStoreFake)
    (fsm : FSMValidator) (env : Env) (hook : Order → Order × Option Error) (err : Error)
    (userID : Int) (p : UUID) (q : Int) (md : JSONB) (w : World)
    (hu : 0 < userID) (hq : 0 < q) (hl : w.productLocks p = false)
    (hint : IsInt (stock w p)) (hge : q ≤ stock w p)
    (hhook : orderStore.CreateFunc = some hook)
    (hfail : (hook { ID := uuidNil, UserID := userID, ProductID := p, Quantity := q,
                     CurrentStatus := OrderStatusOrdered, Metadata := md,
                     CreatedAt := 0, UpdatedAt := 0 }).2 = some err) :
    ∃ w2 w3,
      stock w2 p = stock w p - q
      ∧ InventoryStoreFake.plain.IncrementQuantity p q w2 = .ret none w3
      ∧ (fakeService orderStore InventoryStoreFake.plain logStore fsm env).CreateOrder
            userID p q md w
          = .ret (.error ("failed to create order: " ++ err)) w3
      ∧ w3.orders = w.orders
      ∧ (∀ p', stock w3 p' = stock w p') := by
  obtain ⟨inv, w1, hlock, hqty, hrec, hoth, hstock, hlocks, hord, hlog, -, -⟩ :=
    CreateOrder_plain_inventory (orderStore.toStore env) logStore.toStore fsm userID p q md w
      hu hq hl
  have hge' : ¬ inv.Quantity < q := by rw [hqty]; omega
  have hheld : w1.productLocks p = true := by rw [hlocks]; simp [setKey]
  have hdec := plain_DecrementQuantity w1 p q inv hrec hheld hge'
  have hwrap : wrapInt (inv.Quantity - q) = stock w p - q := by
    rw [hqty]
    apply wrapInt_eq_self
    unfold IsInt at *
    omega
  have hwrap2 : wrapInt (stock w p - q + q) = stock w p := by
    have hback : stock w p - q + q = stock w p := by omega
    rw [hback]
    exact wrapInt_eq_self _ hint
  rw [hwrap] at hdec
  have hinc := plain_IncrementQuantity
    { w1 with
      inventoryMap := setKey w1.inventoryMap p (some { inv with Quantity := stock w p - q }),
      productLocks := setKey w1.productLocks p false }
    p q { inv with Quantity := stock w p - q } (by simp [setKey]) (by simp [setKey])
  simp only [hwrap2] at hinc
  refine ⟨_, _, ?_, hinc, ?_, ?_, ?_⟩
  · simp [stock_eq, setKey]
  · have hcreate : (orderStore.toStore env).Create
        { ID := uuidNil, UserID := userID, ProductID := p, Quantity := q,
          CurrentStatus := OrderStatusOrdered, Metadata := md, CreatedAt := 0, UpdatedAt := 0 }
        { w1 with
          inventoryMap := setKey w1.inventoryMap p (some { inv with Quantity := stock w p - q }),
          productLocks := setKey w1.productLocks p false }
        = .ret
          (hook
            { ID := uuidNil, UserID := userID, ProductID := p, Quantity := q,
              CurrentStatus := OrderStatusOrdered, Metadata := md, CreatedAt := 0,
              UpdatedAt := 0 })
          { w1 with
          inventoryMap := setKey w1.inventoryMap p (some { inv with Quantity := stock w p - q }),
          productLocks := setKey w1.productLocks p false } := by
      simp [OrderStoreFake.toStore, OrderStoreFake.Create, hhook]
    have h := CreateOrder_create_failed
      (fakeService orderStore InventoryStoreFake.plain logStore fsm env) userID p q md w w1 _ _ inv
      _ err hu hq hlock hge' hdec hcreate hfail
    rw [h]
    simp only [fakeService, NewOrderService, InventoryStoreFake.toStore]
    rw [hinc]
    rfl
  · exact hord
  · intro p'
    rw [← hstock p']
    by_cases hp : p' = p
    · subst hp
      simp [stock_eq, setKey, hrec, hqty]
    · simp [stock_eq, setKey, hp]

/-- Claim C7 at 3 units against a stock of 100, with an order store that is down. -/
theorem CreateOrder_compensates_failed_create_witness :
    ∃ w2 w3,
      stock w2 7 = stock sampleWorld 7 - 3
      ∧ InventoryStoreFake.plain.IncrementQuantity 7 3 w2 = .ret none w3
      ∧ (fakeService failingOrderStore InventoryStoreFake.plain OrderStateLogStoreFake.plain
            NewValidator sampleEnv).CreateOrder 5 7 3 [] sampleWorld
          = .ret (.error ("failed to create order: " ++ "db down")) w3
      ∧ w3.orders = sampleWorld.orders
      ∧ (∀ p', stock w3 p' = stock sampleWorld p') :=
  CreateOrder_compensates_failed_create failingOrderStore OrderStateLogStoreFake.plain
    NewValidator sampleEnv (fun order => (order, some "db down")) "db down" 5 7 3 [] sampleWorld
    (by decide) (by decide) rfl (by decide) (by decide) rfl rfl

/-- Claim C8. When `Create` of the order store fails and the compensating
`IncrementQuantity` fails as well, `CreateOrder` returns one error whose message
holds the message of the creation error and the message of the compensation
error. -/
theorem CreateOrder_both_errors_surface {σ : Type} (s : orderService σ) (userID : Int)
    (p : UUID)
    (q : Int) (md : JSONB) (w w1 w2 w3 w4 : σ) (inv : Inventory) (created : Order × Option Error)
    (err rerr : Error) (hu : 0 < userID) (hq : 0 < q)
    (hlock : s.inventoryStore.LockForUpdate p w = .ret (.ok inv) w1)
    (hge : ¬ inv.Quantity < q)
    (hdec : s.inventoryStore.DecrementQuantity p q w1 = .ret none w2)
    (hcreate : s.orderStore.Create
        { ID := uuidNil, UserID := userID, ProductID := p, Quantity := q,
          CurrentStatus := OrderStatusOrdered, Metadata := md, CreatedAt := 0, UpdatedAt := 0 }
        w2 = .ret created w3)
    (hfail : created.2 = some err)
    (hrestore : s.inventoryStore.IncrementQuantity p q w3 = .ret (some rerr) w4) :
    s.CreateOrder userID p q md w
        = .ret (.error ("failed to create order: " ++ err
            ++ " (inventory restore also failed: " ++ rerr ++ ")")) w4
      ∧ err.data <:+: ("failed to create order: " ++ err
            ++ " (inventory restore also failed: " ++ rerr ++ ")").data
      ∧ rerr.data <:+: ("failed to create order: " ++ err
            ++ " (inventory restore also failed: " ++ rerr ++ ")").data := by
  refine ⟨?_, ?_, ?_⟩
  · rw [CreateOrder_create_failed s userID p q md w w1 w2 w3 inv created err hu hq hlock hge
      hdec hcreate hfail, hrestore]
    rfl
  · refine ⟨"failed to create order: ".data,
      (" (inventory restore also failed: " ++ rerr ++ ")").data, ?_⟩
    simp [String.data_append]
  · refine ⟨("failed to create order: " ++ err ++ " (inventory restore also failed: ").data,
      ")".data, ?_⟩
    simp [String.data_append]

/-- Claim C8 with an order store that is down and an inventory store that
refuses the increment: the stock stays down by the 3 units. -/
theorem CreateOrder_both_errors_surface_witness :
    ∃ w4,
      (fakeService failingOrderStore failingRestoreStore OrderStateLogStoreFake.plain
            NewValidator sampleEnv).CreateOrder 5 7 3 [] sampleWorld
          = .ret (.error
              "failed to create order: db down (inventory restore also failed: restore failed)")
              w4
      ∧ stock w4 7 = 97 :=
  ⟨_,
    (CreateOrder_both_errors_surface
      (fakeService failingOrderStore failingRestoreStore OrderStateLogStoreFake.plain
        NewValidator sampleEnv)
      5 7 3 [] sampleWorld _ _ _ _ _ _ "db down" "restore failed" (by decide) (by decide)
      rfl (by decide) rfl rfl rfl rfl).1,
    by decide⟩

/-- Claim C9. For a stored order, `UpdateOrderStatus` to the status the order
already has, with the validator of the state machine, returns that order and no
error and leaves the state as it was: no audit entry, no change of any
inventory quantity, and the stored order, its `UpdatedAt` included, untouched. -/
theorem UpdateOrderStatus_same_status (env : Env) (inventoryStore : InventoryStore World)
    (logStore : OrderStateLogStore World) (now : Time) (orderID : UUID) (order : Order)
    (updatedBy : Int) (w : World) (hstored : w.orders orderID = some order) :
    (NewOrderService (OrderStoreFake.plain.toStore env) inventoryStore logStore
        NewValidator).UpdateOrderStatus now orderID order.CurrentStatus updatedBy w
      = .ret (.ok order) w := by
  unfold orderService.UpdateOrderStatus
  simp [NewOrderService, OrderStoreFake.toStore, OrderStoreFake.GetByID, OrderStoreFake.plain,
    hstored, NewValidator, ValidateTransition]

/-- Claim C9 at the sample order, which is ORDERED. -/
theorem UpdateOrderStatus_same_status_witness :
    sampleWorld.orders 11 = some sampleOrder
    ∧ (plainService sampleEnv).UpdateOrderStatus 3 11 OrderStatusOrdered 9 sampleWorld
        = .ret (.ok sampleOrder) sampleWorld :=
  ⟨rfl,
    UpdateOrderStatus_same_status sampleEnv InventoryStoreFake.plain.toStore
      OrderStateLogStoreFake.plain.toStore 3 11 sampleOrder 9 sampleWorld rfl⟩

/-- Claim C10. For an order id that the order store does not hold and any
target status, `UpdateOrderStatus` returns an error and leaves the state as it
was: order store, audit log and every inventory quantity. -/
theorem UpdateOrderStatus_not_found (env : Env) (inventoryStore : InventoryStore World)
    (logStore : OrderStateLogStore World) (fsm : FSMValidator) (now : Time) (orderID : UUID)
    (newStatus : OrderStatus) (updatedBy : Int) (w : World) (habsent : w.orders orderID = none) :
    (NewOrderService (OrderStoreFake.plain.toStore env) inventoryStore logStore
        fsm).UpdateOrderStatus now orderID newStatus updatedBy w
      = .ret (.error "order not found: order not found") w := by
  unfold orderService.UpdateOrderStatus
  simp [NewOrderService, OrderStoreFake.toStore, OrderStoreFake.GetByID, OrderStoreFake.plain,
    habsent]

/-- Claim C10 at order id 13, which is not stored. -/
theorem UpdateOrderStatus_not_found_witness :
    sampleWorld.orders 13 = none
    ∧ (plainService sampleEnv).UpdateOrderStatus 3 13 OrderStatusShipped 9 sampleWorld
        = .ret (.error "order not found: order not found") sampleWorld :=
  ⟨rfl,
    UpdateOrderStatus_not_found sampleEnv InventoryStoreFake.plain.toStore
      OrderStateLogStoreFake.plain.toStore NewValidator 3 13 OrderStatusShipped 9 sampleWorld
      rfl⟩

/-! ## Serial runs -/


/-- One step of a call keeps the stock a non-negative machine integer and never
lets the stock and what the call took out of it grow. -/
theorem stepCall_effect (p : UUID) (c : CreateCall) (pc pc' : Pc) (w w' : World)
    (h : stepCall p c pc w = some (pc', w')) (hint : IsInt (stock w p))
    (h0 : 0 ≤ stock w p) (hq : pastChecks pc = true → 0 < c.quantity) :
    (pastChecks pc' = true → 0 < c.quantity)
    ∧ IsInt (stock w' p)
    ∧ 0 ≤ stock w' p
    ∧ stock w' p + takenBy { call := c, pc := pc' }
        ≤ stock w p + takenBy { call := c, pc := pc } := by
  cases pc with
  | start =>
    simp only [stepCall] at h
    split_ifs at h with h1 h2
    · simp only [Option.some.injEq, Prod.mk.injEq] at h
      obtain ⟨rfl, rfl⟩ := h
      simp [pastChecks, takenBy, hint, h0]
    · simp only [Option.some.injEq, Prod.mk.injEq] at h
      obtain ⟨rfl, rfl⟩ := h
      simp [pastChecks, takenBy, hint, h0]
    · simp only [Option.some.injEq, Prod.mk.injEq] at h
      obtain ⟨rfl, rfl⟩ := h
      simp [pastChecks, takenBy, hint, h0]
      omega
  | validated =>
    simp only [stepCall] at h
    split_ifs at h with h1
    simp only [Option.some.injEq, Prod.mk.injEq] at h
    obtain ⟨rfl, rfl⟩ := h
    have hs : stock { w with productLocks := setKey w.productLocks p true } p = stock w p := by
      simp [stock_eq]
    rw [hs]
    exact ⟨fun _ => hq rfl, hint, h0, by simp [takenBy]⟩
  | haveLock =>
    simp only [stepCall] at h
    cases hrec : w.inventoryMap p with
    | none =>
      simp only [hrec, Option.some.injEq, Prod.mk.injEq] at h
      obtain ⟨rfl, rfl⟩ := h
      have hs : stock { w with
          inventoryMap := setKey w.inventoryMap p (some (defaultInventory p)) } p
          = stock w p := by
        simp [stock_eq, hrec, setKey, defaultInventory]
      rw [hs]
      exact ⟨fun _ => hq rfl, hint, h0, by simp [takenBy]⟩
    | some inv =>
      simp only [hrec, Option.some.injEq, Prod.mk.injEq] at h
      obtain ⟨rfl, rfl⟩ := h
      exact ⟨fun _ => hq rfl, hint, h0, by simp [takenBy]⟩
  | locked inventory =>
    simp only [stepCall] at h
    split_ifs at h with h1
    · simp only [Option.some.injEq, Prod.mk.injEq] at h
      obtain ⟨rfl, rfl⟩ := h
      simp [pastChecks, takenBy, hint, h0]
    · simp only [Option.some.injEq, Prod.mk.injEq] at h
      obtain ⟨rfl, rfl⟩ := h
      exact ⟨fun _ => hq rfl, hint, h0, by simp [takenBy]⟩
  | checked =>
    have hpos : 0 < c.quantity := hq rfl
    simp only [stepCall] at h
    cases hrec : w.inventoryMap p with
    | none =>
      have hst : stock w p = getDefaultQuantity p := by simp [stock_eq, hrec]
      simp only [hrec] at h
      split_ifs at h with h1
      · simp only [Option.some.injEq, Prod.mk.injEq] at h
        obtain ⟨rfl, rfl⟩ := h
        have hs : stock { w with
            inventoryMap := setKey w.inventoryMap p (some (defaultInventory p)) } p
            = stock w p := by
          simp [stock_eq, hrec, setKey, defaultInventory]
        rw [hs]
        exact ⟨fun _ => hpos, hint, h0, by simp [takenBy]⟩
      · simp only [Option.some.injEq, Prod.mk.injEq] at h
        obtain ⟨rfl, hw⟩ := h
        simp only [defaultInventory] at h1 hw
        have hwrap : wrapInt (getDefaultQuantity p - c.quantity)
            = getDefaultQuantity p - c.quantity := by
          apply wrapInt_eq_self
          unfold IsInt at *
          omega
        have hs : stock w' p = stock w p - c.quantity := by
          rw [← hw]
          simp [stock_eq, setKey, hwrap, hrec]
        rw [hs]
        refine ⟨fun _ => hpos, ?_, by omega, by simp [takenBy]⟩
        unfold IsInt at *
        omega
    | some inv =>
      have hst : stock w p = inv.Quantity := by simp [stock_eq, hrec]
      simp only [hrec] at h
      split_ifs at h with h1
      · simp only [Option.some.injEq, Prod.mk.injEq] at h
        obtain ⟨rfl, rfl⟩ := h
        exact ⟨fun _ => hpos, hint, h0, by simp [takenBy]⟩
      · simp only [Option.some.injEq, Prod.mk.injEq] at h
        obtain ⟨rfl, hw⟩ := h
        have hwrap : wrapInt (inv.Quantity - c.quantity) = inv.Quantity - c.quantity := by
          apply wrapInt_eq_self
          unfold IsInt at *
          omega
        have hs : stock w' p = stock w p - c.quantity := by
          rw [← hw]
          simp [stock_eq, setKey, hwrap, hrec]
        rw [hs]
        refine ⟨fun _ => hpos, ?_, by omega, by simp [takenBy]⟩
        unfold IsInt at *
        omega
  | decFailed =>
    simp only [stepCall] at h
    split_ifs at h with h1
    · simp only [Option.some.injEq, Prod.mk.injEq] at h
      obtain ⟨rfl, rfl⟩ := h
      have hs : stock { w with productLocks := setKey w.productLocks p false } p
          = stock w p := by
        simp [stock_eq]
      rw [hs]
      exact ⟨fun _ => hq rfl, hint, h0, by simp [takenBy]⟩
    · simp only [Option.some.injEq, Prod.mk.injEq] at h
      obtain ⟨rfl, rfl⟩ := h
      simp [pastChecks, takenBy, hint, h0]
  | decFailedUnlocked =>
    simp only [stepCall, Option.some.injEq, Prod.mk.injEq] at h
    obtain ⟨rfl, rfl⟩ := h
    simp [pastChecks, takenBy, hint, h0]
  | decremented =>
    have hpos : 0 < c.quantity := hq rfl
    simp only [stepCall] at h
    split_ifs at h with h1
    · simp only [Option.some.injEq, Prod.mk.injEq] at h
      obtain ⟨rfl, rfl⟩ := h
      have hs : stock { w with productLocks := setKey w.productLocks p false } p
          = stock w p := by
        simp [stock_eq]
      rw [hs]
      exact ⟨fun _ => hpos, hint, h0, by simp [takenBy]⟩
    · simp only [Option.some.injEq, Prod.mk.injEq] at h
      obtain ⟨rfl, rfl⟩ := h
      simp [pastChecks, takenBy, hint, h0]
      omega
  | released =>
    have hpos : 0 < c.quantity := hq rfl
    simp only [stepCall, Option.some.injEq, Prod.mk.injEq] at h
    obtain ⟨rfl, rfl⟩ := h
    have hs : ∀ os, stock { w with orders := os } p = stock w p := by
      intro os
      simp [stock_eq]
    rw [hs]
    exact ⟨fun _ => hpos, hint, h0, by simp [takenBy]⟩
  | done r => simp [stepCall] at h
  | crashed => simp [stepCall] at h


theorem sum_map_set (f : Thread → Int) :
    ∀ (l : List Thread) (i : Nat) (t t' : Thread), l[i]? = some t →
      ((l.set i t').map f).sum = (l.map f).sum - f t + f t' := by
  intro l
  induction l with
  | nil =>
    intro i t t' h
    simp at h
  | cons a l ih =>
    intro i t t' h
    cases i with
    | zero =>
      simp only [List.getElem?_cons_zero, Option.some.injEq] at h
      subst h
      simp only [List.set_cons_zero, List.map_cons, List.sum_cons]
      omega
    | succ i =>
      simp only [List.getElem?_cons_succ] at h
      simp only [List.set_cons_succ, List.map_cons, List.sum_cons, ih i t t' h]
      omega

theorem stepThread_safe (p : UUID) (S : Int) (i : Nat) (cfg : Config) (hs : Safe p S cfg) :
    Safe p S (stepThread p i cfg) := by
  cases hget : cfg.threads[i]? with
  | none =>
    have hsame : stepThread p i cfg = cfg := by simp [stepThread, hget]
    rw [hsame]
    exact hs
  | some t =>
    cases hstep : stepCall p t.call t.pc cfg.world with
    | none =>
      have hsame : stepThread p i cfg = cfg := by simp [stepThread, hget, hstep]
      rw [hsame]
      exact hs
    | some next =>
      obtain ⟨pc', w'⟩ := next
      have hmoved : stepThread p i cfg
          = { world := w', threads := cfg.threads.set i { t with pc := pc' } } := by
        simp [stepThread, hget, hstep]
      rw [hmoved]
      obtain ⟨hint, h0, hsum, hpos⟩ := hs
      have hmem : t ∈ cfg.threads := List.getElem?_mem hget
      obtain ⟨e1, e2, e3, e4⟩ :=
        stepCall_effect p t.call t.pc pc' cfg.world w' hstep hint h0 (hpos t hmem)
      have heta : takenBy { call := t.call, pc := t.pc } = takenBy t := rfl
      refine ⟨e2, e3, ?_, ?_⟩
      · simp only [totalTaken] at hsum ⊢
        rw [sum_map_set takenBy cfg.threads i t _ hget]
        omega
      · intro u hu
        rcases List.mem_or_eq_of_mem_set hu with hu | hu
        · exact hpos u hu
        · subst hu
          exact e1

theorem runSchedule_safe (p : UUID) (S : Int) (schedule : List Nat) :
    ∀ cfg : Config, Safe p S cfg → Safe p S (runSchedule p schedule cfg) := by
  induction schedule with
  | nil =>
    intro cfg hs
    exact hs
  | cons i rest ih =>
    intro cfg hs
    simp only [runSchedule, List.foldl_cons]
    exact ih _ (stepThread_safe p S i cfg hs)

theorem spawn_safe (p : UUID) (w : World) (calls : List CreateCall)
    (hint : IsInt (stock w p)) (h0 : 0 ≤ stock w p) : Safe p (stock w p) (spawn w calls) := by
  refine ⟨hint, h0, ?_, ?_⟩
  · have hz : totalTaken (spawn w calls).threads = 0 := by
      simp only [spawn, totalTaken]
      induction calls with
      | nil => rfl
      | cons c cs ih => simpa [takenBy] using ih
    rw [hz]
    simp [spawn]
  · intro t ht
    simp only [spawn, List.mem_map] at ht
    obtain ⟨c, -, rfl⟩ := ht
    simp [pastChecks]

theorem totalReserved_le_totalTaken (threads : List Thread)
    (hpos : ∀ t ∈ threads, pastChecks t.pc = true → 0 < t.call.quantity) :
    totalReserved threads ≤ totalTaken threads := by
  induction threads with
  | nil => simp [totalReserved, totalTaken]
  | cons t ts ih =>
    have hts := ih (fun u hu => hpos u (List.mem_cons_of_mem t hu))
    have ht := hpos t (List.mem_cons_self t ts)
    simp only [totalReserved, totalTaken, List.map_cons, List.sum_cons] at hts ⊢
    have hle : reservedBy t ≤ takenBy t := by
      obtain ⟨c, pc⟩ := t
      cases pc with
      | done r => cases r <;> simp [reservedBy, takenBy]
      | decremented =>
        have hq : 0 < c.quantity := ht rfl
        simp only [reservedBy, takenBy]
        omega
      | released =>
        have hq : 0 < c.quantity := ht rfl
        simp only [reservedBy, takenBy]
        omega
      | _ => simp [reservedBy, takenBy]
    omega

/-- Claim C2. In every interleaving of `CreateOrder` calls on one product, the
quantities of the calls that have returned an order sum to at most the stock
the product had when the calls were handed in. -/
theorem concurrent_CreateOrder_no_oversell (p : UUID) (calls : List CreateCall)
    (schedule : List Nat) (w : World)
    (hint : IsInt (stock w p)) (h0 : 0 ≤ stock w p) :
    totalReserved (runSchedule p schedule (spawn w calls)).threads ≤ stock w p := by
  obtain ⟨-, h1, h2, h3⟩ :=
    runSchedule_safe p (stock w p) schedule (spawn w calls) (spawn_safe p w calls hint h0)
  have := totalReserved_le_totalTaken _ h3
  omega


/-- Claim C2 at two calls for 60 against a stock of 100, stepping in turns. -/
theorem concurrent_CreateOrder_no_oversell_witness :
    0 ≤ stock sampleWorld 7
    ∧ totalReserved
        (runSchedule 7 [0, 1, 0, 1, 0, 1, 0, 1, 0, 1, 0, 1, 0, 1]
          (spawn sampleWorld [sampleCall, sampleCall])).threads
      ≤ stock sampleWorld 7 :=
  ⟨by decide,
    concurrent_CreateOrder_no_oversell 7 [sampleCall, sampleCall]
      [0, 1, 0, 1, 0, 1, 0, 1, 0, 1, 0, 1, 0, 1] sampleWorld (by decide) (by decide)⟩

/-- The steps agree with the method: a call that runs alone ends where
`CreateOrder` on the plain fakes ends, and waits where it waits. -/
theorem runSchedule_alone (c : CreateCall) (p : UUID) (w : World) :
    match (plainService c.env).CreateOrder c.userID p c.quantity c.metadata w with
    | .ret r w1 =>
      runSchedule p [0, 0, 0, 0, 0, 0, 0] (spawn w [c])
        = { world := w1, threads := [{ call := c, pc := Pc.done r }] }
    | .blocked w1 =>
      runSchedule p [0, 0, 0, 0, 0, 0, 0] (spawn w [c])
        = { world := w1, threads := [{ call := c, pc := Pc.validated }] }
    | .fatal _ => False := by
  by_cases hu : c.userID ≤ 0
  · simp [orderService.CreateOrder, hu, runSchedule, spawn, stepThread, stepCall]
  by_cases hq : c.quantity ≤ 0
  · simp [orderService.CreateOrder, hu, hq, runSchedule, spawn, stepThread, stepCall]
  cases hl : w.productLocks p with
  | true =>
    simp [orderService.CreateOrder, hu, hq, plainService, fakeService, NewOrderService,
      InventoryStoreFake.toStore, InventoryStoreFake.LockForUpdate, InventoryStoreFake.plain, hl,
      runSchedule, spawn, stepThread, stepCall]
  | false =>
    cases hrec : w.inventoryMap p with
    | none =>
      by_cases hlt : (defaultInventory p).Quantity < c.quantity
      · simp [orderService.CreateOrder, hu, hq, plainService, fakeService, NewOrderService,
          InventoryStoreFake.toStore, InventoryStoreFake.LockForUpdate, InventoryStoreFake.plain,
          hl, hrec, hlt, runSchedule, spawn, stepThread, stepCall]
      · simp [orderService.CreateOrder, hu, hq, plainService, fakeService, NewOrderService,
          InventoryStoreFake.toStore, InventoryStoreFake.LockForUpdate, InventoryStoreFake.plain,
          InventoryStoreFake.DecrementQuantity, unlockProduct, OrderStoreFake.toStore,
          OrderStoreFake.Create, OrderStoreFake.plain, uuidNil,
          hl, hrec, hlt, runSchedule, spawn, stepThread, stepCall, setKey]
    | some inv =>
      by_cases hlt : inv.Quantity < c.quantity
      · simp [orderService.CreateOrder, hu, hq, plainService, fakeService, NewOrderService,
          InventoryStoreFake.toStore, InventoryStoreFake.LockForUpdate, InventoryStoreFake.plain,
          hl, hrec, hlt, runSchedule, spawn, stepThread, stepCall]
      · simp [orderService.CreateOrder, hu, hq, plainService, fakeService, NewOrderService,
          InventoryStoreFake.toStore, InventoryStoreFake.LockForUpdate, InventoryStoreFake.plain,
          InventoryStoreFake.DecrementQuantity, unlockProduct, OrderStoreFake.toStore,
          OrderStoreFake.Create, OrderStoreFake.plain, uuidNil,
          hl, hrec, hlt, runSchedule, spawn, stepThread, stepCall, setKey]

/-! ## `UpdateOrderStatus` -/

/-- Where `UpdateOrderStatus` stands once the order is read, the validator
agrees and the target differs from the current status. -/
theorem UpdateOrderStatus_transition {σ : Type} (s : orderService σ) (now : Time)
    (orderID : UUID) (newStatus : OrderStatus) (updatedBy : Int) (w w1 : σ) (order : Order)
    (hget : s.orderStore.GetByID orderID w = .ret (.ok order) w1)
    (hval : s.fsmValidator.ValidateTransition order.CurrentStatus newStatus = none)
    (hne : order.CurrentStatus ≠ newStatus) :
    s.UpdateOrderStatus now orderID newStatus updatedBy w
      = (s.orderStore.UpdateStatus orderID newStatus w1).bind fun updErr w2 =>
        match updErr with
        | some err => .ret (.error ("failed to update order status: " ++ err)) w2
        | none =>
          (s.orderStateLogStore.Create
            { ID := uuidNil, OrderID := orderID, PreviousStatus := order.CurrentStatus,
              NewStatus := newStatus, UpdatedBy := updatedBy, UpdatedAt := now } w2).bind
          fun _ w3 =>
          (if s.fsmValidator.RequiresInventoryRestore newStatus then
            s.inventoryStore.IncrementQuantity order.ProductID order.Quantity w3
           else .ret none w3).bind fun _ w4 =>
          (s.orderStore.GetByID orderID w4).bind fun refetched w5 =>
          match refetched with
          | .error err => .ret (.error ("failed to fetch updated order: " ++ err)) w5
          | .ok updatedOrder => .ret (.ok updatedOrder) w5 := by
  unfold orderService.UpdateOrderStatus
  simp [hget, hval, hne]

/-- What `UpdateOrderStatus` on the plain fakes does on an allowed change of
status: the status and `UpdatedAt` of the stored order are set, the audit entry
is appended, and a cancellation goes on to `IncrementQuantity`. -/
theorem plainService_UpdateOrderStatus_transition (env : Env) (now : Time) (orderID : UUID)
    (newStatus : OrderStatus) (updatedBy : Int) (w : World) (order : Order)
    (hstored : w.orders orderID = some order)
    (hval : ValidateTransition order.CurrentStatus newStatus = none)
    (hne : order.CurrentStatus ≠ newStatus) :
    (plainService env).UpdateOrderStatus now orderID newStatus updatedBy w
      = (if newStatus = OrderStatusCancelled then
          InventoryStoreFake.plain.IncrementQuantity order.ProductID order.Quantity
            { w with
              orders := setKey w.orders orderID
                (some { order with CurrentStatus := newStatus, UpdatedAt := env.now }),
              orderStateLogs := setKey w.orderStateLogs orderID
                (some ((match w.orderStateLogs orderID with
                        | some logs => logs
                        | none => [])
                  ++ [{ ID := uuidNil, OrderID := orderID,
                        PreviousStatus := order.CurrentStatus, NewStatus := newStatus,
                        UpdatedBy := updatedBy, UpdatedAt := now }])) }
         else
          .ret none
            { w with
              orders := setKey w.orders orderID
                (some { order with CurrentStatus := newStatus, UpdatedAt := env.now }),
              orderStateLogs := setKey w.orderStateLogs orderID
                (some ((match w.orderStateLogs orderID with
                        | some logs => logs
                        | none => [])
                  ++ [{ ID := uuidNil, OrderID := orderID,
                        PreviousStatus := order.CurrentStatus, NewStatus := newStatus,
                        UpdatedBy := updatedBy, UpdatedAt := now }])) }).bind
        fun _ w4 =>
          .ret (.ok { order with CurrentStatus := newStatus, UpdatedAt := env.now }) w4 := by
  have hget : (plainService env).orderStore.GetByID orderID w = .ret (.ok order) w := by
    simp [plainService, fakeService, NewOrderService, OrderStoreFake.toStore,
      OrderStoreFake.GetByID, OrderStoreFake.plain, hstored]
  rw [UpdateOrderStatus_transition (plainService env) now orderID newStatus updatedBy w w order
    hget hval hne]
  simp only [plainService, fakeService, NewOrderService, OrderStoreFake.toStore,
    OrderStoreFake.UpdateStatus, OrderStoreFake.GetByID, OrderStoreFake.plain,
    OrderStateLogStoreFake.toStore, OrderStateLogStoreFake.Create,
    OrderStateLogStoreFake.plain, InventoryStoreFake.toStore, NewValidator,
    RequiresInventoryRestore, hstored, Run.bind_ret]
  by_cases hc : newStatus = OrderStatusCancelled
  · subst hc
    simp only [beq_self_eq_true, if_true]
    unfold InventoryStoreFake.IncrementQuantity InventoryStoreFake.plain
    cases hl : w.productLocks order.ProductID <;> simp [hl, setKey]
  · have hb : (newStatus == OrderStatusCancelled) = false := by simpa using hc
    simp [hb, hc, setKey]

/-- Claim C11. For a stored order and a target status that the state machine
rejects, `UpdateOrderStatus` returns the invalid-transition error, whose message
names the current and the target status, and leaves the state as it was: stored
status, history and every inventory quantity. -/
theorem UpdateOrderStatus_rejected (env : Env) (inventoryStore : InventoryStore World)
    (logStore : OrderStateLogStore World) (now : Time) (orderID : UUID) (order : Order)
    (newStatus : OrderStatus) (updatedBy : Int) (w : World) (err : Error)
    (hstored : w.orders orderID = some order)
    (hrej : ValidateTransition order.CurrentStatus newStatus = some err) :
    (NewOrderService (OrderStoreFake.plain.toStore env) inventoryStore logStore
        NewValidator).UpdateOrderStatus now orderID newStatus updatedBy w
      = .ret (.error ("invalid transition from " ++ order.CurrentStatus ++ " to " ++ newStatus
          ++ ": " ++ err)) w
    ∧ order.CurrentStatus.data <:+:
        ("invalid transition from " ++ order.CurrentStatus ++ " to " ++ newStatus
          ++ ": " ++ err).data
    ∧ newStatus.data <:+:
        ("invalid transition from " ++ order.CurrentStatus ++ " to " ++ newStatus
          ++ ": " ++ err).data := by
  refine ⟨?_, ?_, ?_⟩
  · unfold orderService.UpdateOrderStatus
    simp [NewOrderService, OrderStoreFake.toStore, OrderStoreFake.GetByID, OrderStoreFake.plain,
      hstored, NewValidator, hrej]
  · refine ⟨"invalid transition from ".data, (" to " ++ newStatus ++ ": " ++ err).data, ?_⟩
    simp [String.data_append]
  · refine ⟨("invalid transition from " ++ order.CurrentStatus ++ " to ").data,
      (": " ++ err).data, ?_⟩
    simp [String.data_append]

/-- Claim C11 at the sample order, ORDERED, asked to go to DELIVERED. -/
theorem UpdateOrderStatus_rejected_witness :
    ValidateTransition sampleOrder.CurrentStatus OrderStatusDelivered
      = some "invalid transition from ORDERED to DELIVERED"
    ∧ (plainService sampleEnv).UpdateOrderStatus 3 11 OrderStatusDelivered 9 sampleWorld
      = .ret (.error ("invalid transition from ORDERED to DELIVERED: "
          ++ "invalid transition from ORDERED to DELIVERED")) sampleWorld :=
  ⟨by decide,
    (UpdateOrderStatus_rejected sampleEnv InventoryStoreFake.plain.toStore
      OrderStateLogStoreFake.plain.toStore 3 11 sampleOrder OrderStatusDelivered 9 sampleWorld
      "invalid transition from ORDERED to DELIVERED" rfl (by decide)).1⟩

/-- What `IncrementQuantity` of the plain fake does when the mutex of the
product is free. -/
theorem plain_IncrementQuantity_free (w : World) (p : UUID) (q : Int)
    (hl : w.productLocks p = false) :
    InventoryStoreFake.plain.IncrementQuantity p q w = .ret none
      { w with
        inventoryMap := setKey w.inventoryMap p
          (some
            { ProductID :=
                (match w.inventoryMap p with
                 | some inv => inv
                 | none => { ProductID := p, Quantity := 0 }).ProductID,
              Quantity := wrapInt
                ((match w.inventoryMap p with
                  | some inv => inv
                  | none => { ProductID := p, Quantity := 0 }).Quantity + q) }) } := by
  unfold InventoryStoreFake.IncrementQuantity InventoryStoreFake.plain
  simp [hl]

/-- Change of status with the mutex free. For a stored order with status `c`
and a target `t ≠ c` that the state machine allows, `UpdateOrderStatus` on the plain fakes (for a
cancellation: called while the mutex of the product is free) returns the order
as the store now holds it, with status `t`; every other order is as before; and
the history of the order is the former one followed by one entry, from `c` to
`t` by the given actor. -/
theorem UpdateOrderStatus_success (env : Env) (now : Time) (orderID : UUID) (order : Order)
    (newStatus : OrderStatus) (updatedBy : Int) (w : World)
    (hstored : w.orders orderID = some order)
    (hval : ValidateTransition order.CurrentStatus newStatus = none)
    (hne : order.CurrentStatus ≠ newStatus)
    (hfree : newStatus = OrderStatusCancelled → w.productLocks order.ProductID = false) :
    ∃ w1,
      (plainService env).UpdateOrderStatus now orderID newStatus updatedBy w
        = .ret (.ok { order with CurrentStatus := newStatus, UpdatedAt := env.now }) w1
      ∧ w1.orders orderID
          = some { order with CurrentStatus := newStatus, UpdatedAt := env.now }
      ∧ (∀ k, k ≠ orderID → w1.orders k = w.orders k)
      ∧ w1.orderStateLogs orderID
          = some ((match w.orderStateLogs orderID with
                   | some logs => logs
                   | none => [])
              ++ [{ ID := uuidNil, OrderID := orderID, PreviousStatus := order.CurrentStatus,
                    NewStatus := newStatus, UpdatedBy := updatedBy, UpdatedAt := now }])
      ∧ (∀ k, k ≠ orderID → w1.orderStateLogs k = w.orderStateLogs k) := by
  rw [plainService_UpdateOrderStatus_transition env now orderID newStatus updatedBy w order
    hstored hval hne]
  by_cases hc : newStatus = OrderStatusCancelled
  · have hl := hfree hc
    simp only [hc, if_true]
    simp only [InventoryStoreFake.IncrementQuantity, InventoryStoreFake.plain, hl,
      Bool.false_eq_true, if_false, Run.bind_ret]
    refine ⟨_, rfl, ?_, ?_, ?_, ?_⟩
    · simp [setKey]
    · intro k hk
      simp [setKey, hk]
    · simp [setKey]
    · intro k hk
      simp [setKey, hk]
  · simp only [hc, if_false]
    refine ⟨_, rfl, ?_, ?_, ?_, ?_⟩
    · simp [setKey]
    · intro k hk
      simp [setKey, hk]
    · simp [setKey]
    · intro k hk
      simp [setKey, hk]

/-- The sample order going from ORDERED to CANCELLED by actor 9, the mutex being
free. -/
theorem UpdateOrderStatus_success_witness :
    ∃ w1,
      (plainService sampleEnv).UpdateOrderStatus 3 11 OrderStatusCancelled 9 sampleWorld
        = .ret (.ok { sampleOrder with CurrentStatus := OrderStatusCancelled, UpdatedAt := 2 })
            w1
      ∧ w1.orders 11
          = some { sampleOrder with CurrentStatus := OrderStatusCancelled, UpdatedAt := 2 }
      ∧ (∀ k, k ≠ 11 → w1.orders k = sampleWorld.orders k)
      ∧ w1.orderStateLogs 11
          = some ((match sampleWorld.orderStateLogs 11 with
                   | some logs => logs
                   | none => [])
              ++ [{ ID := uuidNil, OrderID := 11, PreviousStatus := OrderStatusOrdered,
                    NewStatus := OrderStatusCancelled, UpdatedBy := 9, UpdatedAt := 3 }])
      ∧ (∀ k, k ≠ 11 → w1.orderStateLogs k = sampleWorld.orderStateLogs k) :=
  UpdateOrderStatus_success sampleEnv 3 11 sampleOrder OrderStatusCancelled 9 sampleWorld rfl
    (by decide) (by decide) (fun _ => rfl)

/-- Store failures with the mutex free. For every allowed transition, whatever
`Create` of the audit log fake and `IncrementQuantity` of the inventory fake
answer, an error handed back by their `...Func` fields included,
`UpdateOrderStatus` (for a cancellation that reaches the `IncrementQuantity` of
the fake itself: called while the mutex of the product is free) returns the
updated order and no error, and the stored order has the new status. With the
`CreateFunc` set no audit entry is stored, and with the `IncrementQuantityFunc`
set no inventory quantity changes. -/
theorem UpdateOrderStatus_survives_store_failures (env : Env)
    (logStore : OrderStateLogStoreFake) (inventoryStore : InventoryStoreFake) (now : Time)
    (orderID : UUID) (order : Order) (newStatus : OrderStatus) (updatedBy : Int) (w : World)
    (hstored : w.orders orderID = some order)
    (hval : ValidateTransition order.CurrentStatus newStatus = none)
    (hne : order.CurrentStatus ≠ newStatus)
    (hfree : newStatus = OrderStatusCancelled → inventoryStore.IncrementQuantityFunc = none →
      w.productLocks order.ProductID = false) :
    ∃ w1,
      (fakeService OrderStoreFake.plain inventoryStore logStore NewValidator
          env).UpdateOrderStatus now orderID newStatus updatedBy w
        = .ret (.ok { order with CurrentStatus := newStatus, UpdatedAt := env.now }) w1
      ∧ w1.orders orderID
          = some { order with CurrentStatus := newStatus, UpdatedAt := env.now }
      ∧ (∀ hook, logStore.CreateFunc = some hook → w1.orderStateLogs = w.orderStateLogs)
      ∧ (∀ hook, inventoryStore.IncrementQuantityFunc = some hook →
          w1.inventoryMap = w.inventoryMap) := by
  have hget : (fakeService OrderStoreFake.plain inventoryStore logStore NewValidator
      env).orderStore.GetByID orderID w = .ret (.ok order) w := by
    simp [fakeService, NewOrderService, OrderStoreFake.toStore, OrderStoreFake.GetByID,
      OrderStoreFake.plain, hstored]
  rw [UpdateOrderStatus_transition _ now orderID newStatus updatedBy w w order hget hval hne]
  simp only [fakeService, NewOrderService, OrderStoreFake.toStore,
    OrderStoreFake.UpdateStatus, OrderStoreFake.GetByID, OrderStoreFake.plain,
    OrderStateLogStoreFake.toStore, OrderStateLogStoreFake.Create,
    InventoryStoreFake.toStore, InventoryStoreFake.IncrementQuantity, NewValidator,
    RequiresInventoryRestore, hstored, Run.bind_ret]
  by_cases hc : newStatus = OrderStatusCancelled
  · subst hc
    simp only [beq_self_eq_true, if_true]
    cases hlog : logStore.CreateFunc with
    | none =>
      cases hinc : inventoryStore.IncrementQuantityFunc with
      | none =>
        have hl := hfree rfl hinc
        simp [hl, setKey]
      | some incHook => simp [setKey]
    | some logHook =>
      cases hinc : inventoryStore.IncrementQuantityFunc with
      | none =>
        have hl := hfree rfl hinc
        simp [hl, setKey]
      | some incHook => simp [setKey]
  · have hb : (newStatus == OrderStatusCancelled) = false := by simpa using hc
    simp only [hb]
    cases hlog : logStore.CreateFunc with
    | none => simp [setKey]
    | some logHook => simp [setKey]

/-- The cancellation of the sample order while the audit log and the inventory
store both refuse: the order is CANCELLED all the same. -/
theorem UpdateOrderStatus_survives_store_failures_witness :
    ∃ w1,
      (fakeService OrderStoreFake.plain failingRestoreStore failingLogStore NewValidator
          sampleEnv).UpdateOrderStatus 3 11 OrderStatusCancelled 9 sampleWorld
        = .ret (.ok { sampleOrder with CurrentStatus := OrderStatusCancelled, UpdatedAt := 2 })
            w1
      ∧ w1.orders 11
          = some { sampleOrder with CurrentStatus := OrderStatusCancelled, UpdatedAt := 2 }
      ∧ (∀ hook, failingLogStore.CreateFunc = some hook →
          w1.orderStateLogs = sampleWorld.orderStateLogs)
      ∧ (∀ hook, failingRestoreStore.IncrementQuantityFunc = some hook →
          w1.inventoryMap = sampleWorld.inventoryMap) :=
  UpdateOrderStatus_survives_store_failures sampleEnv failingLogStore failingRestoreStore 3 11
    sampleOrder OrderStatusCancelled 9 sampleWorld rfl (by decide) (by decide)
    (fun _ h => by simp [failingRestoreStore] at h)

/-- What a cancellation of an ORDERED order does on the plain fakes when the
mutex of the product is free. -/
theorem plainService_cancel (env : Env) (now : Time) (orderID : UUID) (order : Order)
    (updatedBy : Int) (w : World) (hstored : w.orders orderID = some order)
    (hord : order.CurrentStatus = OrderStatusOrdered)
    (hl : w.productLocks order.ProductID = false) :
    (plainService env).UpdateOrderStatus now orderID OrderStatusCancelled updatedBy w
      = .ret (.ok { order with CurrentStatus := OrderStatusCancelled, UpdatedAt := env.now })
          { w with
            inventoryMap := setKey w.inventoryMap order.ProductID
              (some
                { ProductID :=
                    (match w.inventoryMap order.ProductID with
                     | some inv => inv
                     | none => { ProductID := order.ProductID, Quantity := 0 }).ProductID,
                  Quantity := wrapInt
                    ((match w.inventoryMap order.ProductID with
                      | some inv => inv
                      | none => { ProductID := order.ProductID, Quantity := 0 }).Quantity
                      + order.Quantity) }),
            orders := setKey w.orders orderID
              (some { order with CurrentStatus := OrderStatusCancelled, UpdatedAt := env.now }),
            orderStateLogs := setKey w.orderStateLogs orderID
              (some ((match w.orderStateLogs orderID with
                      | some logs => logs
                      | none => [])
                ++ [{ ID := uuidNil, OrderID := orderID,
                      PreviousStatus := order.CurrentStatus,
                      NewStatus := OrderStatusCancelled,
                      UpdatedBy := updatedBy, UpdatedAt := now }])) } := by
  have hval : ValidateTransition order.CurrentStatus OrderStatusCancelled = none := by
    rw [hord]
    decide
  have hne : order.CurrentStatus ≠ OrderStatusCancelled := by
    rw [hord]
    decide
  rw [plainService_UpdateOrderStatus_transition env now orderID OrderStatusCancelled updatedBy
    w order hstored hval hne]
  simp only [if_true, InventoryStoreFake.IncrementQuantity, InventoryStoreFake.plain, hl,
    Bool.false_eq_true, if_false, Run.bind_ret]

/-- Counterexample to claim C14 as stated. A cancellation that returns the
CANCELLED order and no error leaves the stock where it was when the inventory
store refuses the increment; it takes the stock the fake reports from 100 to 3
when the product had no record; and it wraps the stock round to a negative
number when the sum passes the largest machine integer. -/
theorem cancel_restores_quantity_counterexample :
    (∃ o w1,
      (fakeService OrderStoreFake.plain failingRestoreStore OrderStateLogStoreFake.plain
          NewValidator sampleEnv).UpdateOrderStatus 3 11 OrderStatusCancelled 9 sampleWorld
        = .ret (.ok o) w1
      ∧ o.CurrentStatus = OrderStatusCancelled
      ∧ stock sampleWorld 7 = 100 ∧ stock w1 7 = 100
      ∧ stock w1 7 ≠ stock sampleWorld 7 + sampleOrder.Quantity)
    ∧ (∃ o w1,
      (plainService sampleEnv).UpdateOrderStatus 3 11 OrderStatusCancelled 9 unrecordedWorld
        = .ret (.ok o) w1
      ∧ o.CurrentStatus = OrderStatusCancelled
      ∧ stock unrecordedWorld 7 = 100 ∧ stock w1 7 = 3
      ∧ stock w1 7 ≠ stock unrecordedWorld 7 + sampleOrder.Quantity)
    ∧ (∃ o w1,
      (plainService sampleEnv).UpdateOrderStatus 3 11 OrderStatusCancelled 9 brimfulWorld
        = .ret (.ok o) w1
      ∧ o.CurrentStatus = OrderStatusCancelled
      ∧ stock brimfulWorld 7 = 9223372036854775807
      ∧ stock w1 7 = -9223372036854775806
      ∧ stock w1 7 ≠ stock brimfulWorld 7 + sampleOrder.Quantity) :=
  ⟨⟨_, _, rfl, rfl, by decide, by decide, by decide⟩,
   ⟨_, _, rfl, rfl, by decide, by decide, by decide⟩,
   ⟨_, _, rfl, rfl, by decide, by decide, by decide⟩⟩

/-- Claim C14, amended. For a stored ORDERED order of quantity `q` on a product
`p` that has an inventory record whose quantity plus `q` is a machine integer,
`UpdateOrderStatus` to CANCELLED on the plain fakes, called while the mutex of
`p` is free, returns the CANCELLED order, raises the stock of `p` by exactly `q`
and leaves the stock of every other product as it was. -/
theorem cancel_restores_quantity (env : Env) (now : Time) (orderID : UUID) (order : Order)
    (updatedBy : Int) (w : World) (inv : Inventory)
    (hstored : w.orders orderID = some order)
    (hord : order.CurrentStatus = OrderStatusOrdered)
    (hrec : w.inventoryMap order.ProductID = some inv)
    (hint : IsInt (inv.Quantity + order.Quantity))
    (hl : w.productLocks order.ProductID = false) :
    ∃ w1,
      (plainService env).UpdateOrderStatus now orderID OrderStatusCancelled updatedBy w
        = .ret (.ok { order with CurrentStatus := OrderStatusCancelled, UpdatedAt := env.now })
            w1
      ∧ stock w1 order.ProductID = stock w order.ProductID + order.Quantity
      ∧ (∀ p', p' ≠ order.ProductID → stock w1 p' = stock w p') := by
  refine ⟨_, plainService_cancel env now orderID order updatedBy w hstored hord hl, ?_, ?_⟩
  · simp [stock_eq, setKey, hrec, wrapInt_eq_self _ hint]
  · intro p' hp
    simp [stock_eq, setKey, hp]

/-- Claim C14, amended, at the sample order: 3 units go back to the 100 of product 7. -/
theorem cancel_restores_quantity_witness :
    ∃ w1,
      (plainService sampleEnv).UpdateOrderStatus 3 11 OrderStatusCancelled 9 sampleWorld
        = .ret (.ok { sampleOrder with CurrentStatus := OrderStatusCancelled, UpdatedAt := 2 })
            w1
      ∧ stock w1 7 = stock sampleWorld 7 + 3
      ∧ (∀ p', p' ≠ 7 → stock w1 p' = stock sampleWorld p') :=
  cancel_restores_quantity sampleEnv 3 11 sampleOrder 9 sampleWorld
    { ProductID := 7, Quantity := 100 } rfl rfl rfl (by decide) rfl

/-- The state `CreateOrder` on the plain fakes leaves when it returns an order:
the record of the product holds the stock less the quantity, the mutex is free
again, and the order is stored. -/
theorem plainService_CreateOrder_ok_record (env : Env) (userID : Int) (p : UUID) (q : Int)
    (md : JSONB) (w : World) (hu : 0 < userID) (hq : 0 < q) (hl : w.productLocks p = false)
    (hint : IsInt (stock w p)) (hge : q ≤ stock w p) :
    ∃ inv w1,
      (plainService env).CreateOrder userID p q md w
        = .ret (.ok { ID := env.newID, UserID := userID, ProductID := p, Quantity := q,
                      CurrentStatus := OrderStatusOrdered, Metadata := md,
                      CreatedAt := env.now, UpdatedAt := env.now }) w1
      ∧ w1.inventoryMap p = some inv
      ∧ inv.Quantity = stock w p - q
      ∧ (∀ p', p' ≠ p → w1.inventoryMap p' = w.inventoryMap p')
      ∧ w1.productLocks p = false
      ∧ w1.orders = setKey w.orders env.newID
          (some { ID := env.newID, UserID := userID, ProductID := p, Quantity := q,
                  CurrentStatus := OrderStatusOrdered, Metadata := md,
                  CreatedAt := env.now, UpdatedAt := env.now })
      ∧ w1.orderStateLogs = w.orderStateLogs := by
  obtain ⟨inv, w1, -, hqty, hrec, hoth, hstock, hlocks, hord, hlog, -, hok⟩ :=
    CreateOrder_plain_inventory (OrderStoreFake.plain.toStore env)
      OrderStateLogStoreFake.plain.toStore NewValidator userID p q md w hu hq hl
  have hge' : ¬ stock w p < q := by omega
  have hrun := hok hge'
  rw [← plainService_eq] at hrun
  have hwrap : wrapInt (inv.Quantity - q) = stock w p - q := by
    rw [hqty]
    apply wrapInt_eq_self
    unfold IsInt at *
    omega
  simp only [OrderStoreFake.toStore, OrderStoreFake.Create, OrderStoreFake.plain, uuidNil,
    if_true, Run.bind_ret] at hrun
  refine ⟨{ ProductID := inv.ProductID, Quantity := stock w p - q }, _, hrun, ?_, rfl, ?_, ?_,
    ?_, hlog⟩
  · simp [setKey, hwrap]
  · intro p' hp
    simp [setKey, hp, hoth p' hp]
  · simp [setKey]
  · simp [hord]

/-- Placing and cancelling with the mutex free. For a product with stock `S`
and a quantity `q` with `0 < q ≤ S`, `CreateOrder` on the plain fakes (valid user, mutex of the product
free, an identifier with no history yet) followed by `UpdateOrderStatus` of the
new order to CANCELLED leaves the stock at `S`, after `S - q` in between, the
order CANCELLED, and `GetOrderHistory` of the order returns exactly one entry,
from ORDERED to CANCELLED. -/
theorem place_then_cancel (env env2 : Env) (now : Time) (userID updatedBy : Int) (p : UUID)
    (q : Int) (md : JSONB) (w : World) (hu : 0 < userID) (hq : 0 < q)
    (hl : w.productLocks p = false) (hint : IsInt (stock w p)) (hge : q ≤ stock w p)
    (hfresh : w.orderStateLogs env.newID = none) :
    ∃ o w1 o2 w2,
      (plainService env).CreateOrder userID p q md w = .ret (.ok o) w1
      ∧ o.ID = env.newID
      ∧ stock w1 p = stock w p - q
      ∧ (plainService env2).UpdateOrderStatus now o.ID OrderStatusCancelled updatedBy w1
          = .ret (.ok o2) w2
      ∧ o2.CurrentStatus = OrderStatusCancelled
      ∧ w2.orders o.ID = some o2
      ∧ stock w2 p = stock w p
      ∧ (plainService env2).GetOrderHistory o.ID w2
          = .ret (.ok [{ ID := uuidNil, OrderID := o.ID, PreviousStatus := OrderStatusOrdered,
                         NewStatus := OrderStatusCancelled, UpdatedBy := updatedBy,
                         UpdatedAt := now }]) w2 := by
  obtain ⟨inv, w1, hrun, hrec, hqty, -, hl1, hord, hlog⟩ :=
    plainService_CreateOrder_ok_record env userID p q md w hu hq hl hint hge
  have hstored : w1.orders env.newID
      = some { ID := env.newID, UserID := userID, ProductID := p, Quantity := q,
               CurrentStatus := OrderStatusOrdered, Metadata := md,
               CreatedAt := env.now, UpdatedAt := env.now } := by
    simp [hord, setKey]
  have hcancel := plainService_cancel env2 now env.newID _ updatedBy w1 hstored rfl hl1
  have hback : wrapInt (stock w p) = stock w p := wrapInt_eq_self _ hint
  generalize stock w p = S at hqty hback ⊢
  refine ⟨_, w1, _, _, hrun, rfl, ?_, hcancel, rfl, ?_, ?_, ?_⟩
  · simp [stock_eq, hrec, hqty]
  · simp [setKey]
  · simp [stock_eq, setKey, hrec, hqty, hback]
  · simp [orderService.GetOrderHistory, plainService, fakeService, NewOrderService,
      OrderStateLogStoreFake.toStore, OrderStateLogStoreFake.GetByOrderID,
      OrderStateLogStoreFake.plain, setKey, hlog, hfresh]

/-- Placing and cancelling 5 units at a stock of 100, the mutex being free. -/
theorem place_then_cancel_witness :
    stock sampleWorld 7 = 100
    ∧ ∃ o w1 o2 w2,
      (plainService sampleEnv).CreateOrder 5 7 5 [] sampleWorld = .ret (.ok o) w1
      ∧ o.ID = 12
      ∧ stock w1 7 = stock sampleWorld 7 - 5
      ∧ (plainService sampleEnv).UpdateOrderStatus 3 o.ID OrderStatusCancelled 9 w1
          = .ret (.ok o2) w2
      ∧ o2.CurrentStatus = OrderStatusCancelled
      ∧ w2.orders o.ID = some o2
      ∧ stock w2 7 = stock sampleWorld 7
      ∧ (plainService sampleEnv).GetOrderHistory o.ID w2
          = .ret (.ok [{ ID := uuidNil, OrderID := o.ID, PreviousStatus := OrderStatusOrdered,
                         NewStatus := OrderStatusCancelled, UpdatedBy := 9,
                         UpdatedAt := 3 }]) w2 :=
  ⟨by decide,
    place_then_cancel sampleEnv sampleEnv 3 5 9 7 5 [] sampleWorld (by decide) (by decide) rfl
      (by decide) (by decide) rfl⟩

/-! ## Runs of operations -/

/-- A property of states that every call of a run keeps, in whatever state the
call leaves, holds of the state the run leaves. -/
theorem runOps_induct (P : World → Prop) (ops : List Op)
    (hstep : ∀ op ∈ ops, ∀ w, P w → P (runOp op w).state) :
    ∀ w, P w → P (runOps ops w) := by
  induction ops with
  | nil =>
    intro w hw
    exact hw
  | cons op rest ih =>
    intro w hw
    have h1 := hstep op (List.mem_cons_self op rest) w hw
    have hrest : ∀ o ∈ rest, ∀ w, P w → P (runOp o w).state :=
      fun o ho => hstep o (List.mem_cons_of_mem op ho)
    unfold runOps
    cases hrun : runOp op w with
    | ret r w1 =>
      rw [hrun] at h1
      exact ih hrest w1 h1
    | blocked w1 =>
      rw [hrun] at h1
      exact h1
    | fatal w1 =>
      rw [hrun] at h1
      exact h1

/-- The pairs of different statuses that the state machine lets pass. -/
theorem ValidateTransition_allowed (c t : OrderStatus) (hval : ValidateTransition c t = none)
    (hne : c ≠ t) :
    (c = OrderStatusOrdered ∧ t = OrderStatusShipped)
    ∨ (c = OrderStatusOrdered ∧ t = OrderStatusCancelled)
    ∨ (c = OrderStatusShipped ∧ t = OrderStatusDelivered) := by
  unfold ValidateTransition at hval
  simp only [hne, if_false] at hval
  simp only [StateTransition, List.lookup] at hval
  by_cases h1 : c = OrderStatusOrdered
  · subst h1
    simp [OrderStatusOrdered, OrderStatusShipped, OrderStatusCancelled] at hval
    by_cases hs : "SHIPPED" = t
    · exact Or.inl ⟨rfl, hs.symm⟩
    · exact Or.inr (Or.inl ⟨rfl, (hval hs).symm⟩)
  · have e1 : (c == OrderStatusOrdered) = false := by simpa using h1
    simp only [e1] at hval
    by_cases h2 : c = OrderStatusShipped
    · subst h2
      simp [OrderStatusShipped, OrderStatusDelivered] at hval
      exact Or.inr (Or.inr ⟨rfl, hval.symm⟩)
    · have e2 : (c == OrderStatusShipped) = false := by simpa using h2
      simp only [e2] at hval
      cases hd : c == OrderStatusDelivered <;>
        cases hc : c == OrderStatusCancelled <;> simp [hd, hc] at hval

/-- A terminal status is left only for itself. -/
theorem ValidateTransition_terminal (c t : OrderStatus)
    (hterm : c = OrderStatusDelivered ∨ c = OrderStatusCancelled) (hne : c ≠ t) :
    ValidateTransition c t = some ("invalid transition from " ++ c ++ " to " ++ t) := by
  rcases hterm with rfl | rfl
  · have hne2 : ¬ "DELIVERED" = t := hne
    simp [ValidateTransition, hne2, StateTransition, List.lookup, OrderStatusDelivered,
      OrderStatusOrdered, OrderStatusShipped]
  · have hne2 : ¬ "CANCELLED" = t := hne
    simp [ValidateTransition, hne2, StateTransition, List.lookup, OrderStatusDelivered,
      OrderStatusOrdered, OrderStatusShipped, OrderStatusCancelled]

/-- The ways `UpdateOrderStatus` on the plain fakes can go. -/
theorem plainService_UpdateOrderStatus_cases (env : Env) (now : Time) (orderID : UUID)
    (newStatus : OrderStatus) (updatedBy : Int) (w : World) :
    (∃ msg, (plainService env).UpdateOrderStatus now orderID newStatus updatedBy w
        = .ret (.error msg) w)
    ∨ (∃ order, w.orders orderID = some order ∧ order.CurrentStatus = newStatus
        ∧ (plainService env).UpdateOrderStatus now orderID newStatus updatedBy w
            = .ret (.ok order) w)
    ∨ (∃ order, w.orders orderID = some order
        ∧ ValidateTransition order.CurrentStatus newStatus = none
        ∧ order.CurrentStatus ≠ newStatus) := by
  cases hstored : w.orders orderID with
  | none =>
    refine Or.inl ⟨"order not found: order not found", ?_⟩
    unfold orderService.UpdateOrderStatus
    simp [plainService, fakeService, NewOrderService, OrderStoreFake.toStore,
      OrderStoreFake.GetByID, OrderStoreFake.plain, hstored]
  | some order =>
    cases hval : ValidateTransition order.CurrentStatus newStatus with
    | some err =>
      refine Or.inl ⟨"invalid transition from " ++ order.CurrentStatus ++ " to " ++ newStatus
        ++ ": " ++ err, ?_⟩
      unfold orderService.UpdateOrderStatus
      simp [plainService, fakeService, NewOrderService, OrderStoreFake.toStore,
        OrderStoreFake.GetByID, OrderStoreFake.plain, hstored, NewValidator, hval]
    | none =>
      by_cases hsame : order.CurrentStatus = newStatus
      · refine Or.inr (Or.inl ⟨order, rfl, hsame, ?_⟩)
        subst hsame
        unfold orderService.UpdateOrderStatus
        simp [plainService, fakeService, NewOrderService, OrderStoreFake.toStore,
          OrderStoreFake.GetByID, OrderStoreFake.plain, hstored, NewValidator, hval]
      · exact Or.inr (Or.inr ⟨order, rfl, hval, hsame⟩)

/-- The state `UpdateOrderStatus` on the plain fakes leaves on an allowed change
of status: the order and its history are updated, and a cancellation that got
the mutex of the product has added the quantity of the order to its record. -/
theorem plainService_UpdateOrderStatus_state (env : Env) (now : Time) (orderID : UUID)
    (newStatus : OrderStatus) (updatedBy : Int) (w : World) (order : Order)
    (hstored : w.orders orderID = some order)
    (hval : ValidateTransition order.CurrentStatus newStatus = none)
    (hne : order.CurrentStatus ≠ newStatus) :
    ∃ w3 : World,
      w3.orders = setKey w.orders orderID
        (some { order with CurrentStatus := newStatus, UpdatedAt := env.now })
      ∧ w3.inventoryMap = w.inventoryMap
      ∧ w3.productLocks = w.productLocks
      ∧ (((plainService env).UpdateOrderStatus now orderID newStatus updatedBy w).state = w3
        ∨ (newStatus = OrderStatusCancelled
          ∧ w.productLocks order.ProductID = false
          ∧ ((plainService env).UpdateOrderStatus now orderID newStatus updatedBy w).state
            = { w3 with
                inventoryMap := setKey w.inventoryMap order.ProductID
                  (some
                    { ProductID :=
                        (match w.inventoryMap order.ProductID with
                         | some inv => inv
                         | none => { ProductID := order.ProductID, Quantity := 0 }).ProductID,
                      Quantity := wrapInt
                        ((match w.inventoryMap order.ProductID with
                          | some inv => inv
                          | none => { ProductID := order.ProductID, Quantity := 0 }).Quantity
                          + order.Quantity) }) })) := by
  rw [plainService_UpdateOrderStatus_transition env now orderID newStatus updatedBy w order
    hstored hval hne]
  refine ⟨{ w with
      orders := setKey w.orders orderID
        (some { order with CurrentStatus := newStatus, UpdatedAt := env.now }),
      orderStateLogs := setKey w.orderStateLogs orderID
        (some ((match w.orderStateLogs orderID with
                | some logs => logs
                | none => [])
          ++ [{ ID := uuidNil, OrderID := orderID,
                PreviousStatus := order.CurrentStatus, NewStatus := newStatus,
                UpdatedBy := updatedBy, UpdatedAt := now }])) }, rfl, rfl, rfl, ?_⟩
  by_cases hc : newStatus = OrderStatusCancelled
  · simp only [hc, if_true]
    cases hl : w.productLocks order.ProductID with
    | true =>
      left
      simp [InventoryStoreFake.IncrementQuantity, InventoryStoreFake.plain, hl, Run.state]
    | false =>
      right
      refine ⟨trivial, rfl, ?_⟩
      simp [InventoryStoreFake.IncrementQuantity, InventoryStoreFake.plain, hl, Run.state]
  · left
    simp [hc, Run.state]

/-- The method `CreateOrder` on the plain fakes touches no stored order but the one under
the identifier it was handed. -/
theorem plainService_CreateOrder_orders (env : Env) (userID : Int) (p : UUID) (q : Int)
    (md : JSONB) (w : World) (k : UUID) (hk : k ≠ env.newID) :
    ((plainService env).CreateOrder userID p q md w).state.orders k = w.orders k := by
  by_cases hu : userID ≤ 0
  · simp [orderService.CreateOrder, hu, Run.state]
  by_cases hq : q ≤ 0
  · simp [orderService.CreateOrder, hu, hq, Run.state]
  cases hl : w.productLocks p with
  | true =>
    simp [orderService.CreateOrder, hu, hq, plainService, fakeService, NewOrderService,
      InventoryStoreFake.toStore, InventoryStoreFake.LockForUpdate, InventoryStoreFake.plain, hl,
      Run.state]
  | false =>
    obtain ⟨inv, w1, -, -, -, -, -, -, hord, -, hins, hok⟩ :=
      CreateOrder_plain_inventory (OrderStoreFake.plain.toStore env)
        OrderStateLogStoreFake.plain.toStore NewValidator userID p q md w
        (by omega) (by omega) hl
    rw [← plainService_eq] at hins hok
    by_cases hlt : stock w p < q
    · rw [hins hlt]
      simp [Run.state, hord]
    · rw [hok hlt]
      simp [OrderStoreFake.toStore, OrderStoreFake.Create, OrderStoreFake.plain, uuidNil,
        Run.state, setKey, hk, hord]

/-- Claim C16. Once the stored status of an order is DELIVERED or CANCELLED,
every `UpdateOrderStatus` on it with a different target fails and leaves the
state as it was, and after any run of `CreateOrder` and `UpdateOrderStatus`
calls (none of them handed the identifier of the order for a new one) the
stored order is still the same, status included. -/
theorem terminal_status_is_final (orderID : UUID) (order : Order)
    (hterm : order.CurrentStatus = OrderStatusDelivered
      ∨ order.CurrentStatus = OrderStatusCancelled) :
    (∀ (env : Env) (now : Time) (newStatus : OrderStatus) (updatedBy : Int) (w : World),
      w.orders orderID = some order → newStatus ≠ order.CurrentStatus →
        (plainService env).UpdateOrderStatus now orderID newStatus updatedBy w
          = .ret (.error ("invalid transition from " ++ order.CurrentStatus ++ " to "
              ++ newStatus ++ ": " ++ ("invalid transition from " ++ order.CurrentStatus
              ++ " to " ++ newStatus))) w)
    ∧ (∀ (ops : List Op) (w : World),
      w.orders orderID = some order →
      (∀ c p, Op.create c p ∈ ops → c.env.newID ≠ orderID) →
        (runOps ops w).orders orderID = some order) := by
  constructor
  · intro env now newStatus updatedBy w hstored hne
    have hrej := ValidateTransition_terminal order.CurrentStatus newStatus hterm
      (fun h => hne h.symm)
    unfold orderService.UpdateOrderStatus
    simp [plainService, fakeService, NewOrderService, OrderStoreFake.toStore,
      OrderStoreFake.GetByID, OrderStoreFake.plain, hstored, NewValidator, hrej]
  · intro ops w hstored hfresh
    refine runOps_induct (fun w => w.orders orderID = some order) ops ?_ w hstored
    intro op hop w hw
    cases op with
    | create c p =>
      simp only [runOp]
      rw [plainService_CreateOrder_orders c.env c.userID p c.quantity c.metadata w orderID
        (fun h => hfresh c p hop h.symm)]
      exact hw
    | update env now id2 newStatus updatedBy =>
      simp only [runOp]
      rcases plainService_UpdateOrderStatus_cases env now id2 newStatus updatedBy w with
        ⟨msg, hrun⟩ | ⟨o, -, -, hrun⟩ | ⟨o, hst, hval, hne⟩
      · rw [hrun]
        exact hw
      · rw [hrun]
        exact hw
      · have hid : id2 ≠ orderID := by
          intro hid
          subst hid
          rw [hw] at hst
          cases hst
          rw [ValidateTransition_terminal order.CurrentStatus newStatus hterm hne] at hval
          cases hval
        obtain ⟨w3, hord, -, -, hstate⟩ :=
          plainService_UpdateOrderStatus_state env now id2 newStatus updatedBy w o hst hval hne
        rcases hstate with hstate | ⟨-, -, hstate⟩
        · rw [hstate, hord]
          simp [setKey, Ne.symm hid, hw]
        · rw [hstate]
          simp [hord, setKey, Ne.symm hid, hw]

/-- Claim C16 at the cancelled sample order: asking for SHIPPED fails, and a
run that tries SHIPPED and places a new order leaves it CANCELLED. -/
theorem terminal_status_is_final_witness :
    (plainService sampleEnv).UpdateOrderStatus 3 11 OrderStatusShipped 9 cancelledWorld
      = .ret (.error ("invalid transition from CANCELLED to SHIPPED: "
          ++ "invalid transition from CANCELLED to SHIPPED")) cancelledWorld
    ∧ (runOps [Op.update sampleEnv 3 11 OrderStatusShipped 9, Op.create sampleCall 7]
        cancelledWorld).orders 11 = some cancelledOrder :=
  ⟨(terminal_status_is_final 11 cancelledOrder (Or.inr rfl)).1 sampleEnv 3 OrderStatusShipped 9
      cancelledWorld rfl (by decide),
    (terminal_status_is_final 11 cancelledOrder (Or.inr rfl)).2
      [Op.update sampleEnv 3 11 OrderStatusShipped 9, Op.create sampleCall 7] cancelledWorld rfl
      (by
        intro c p hmem
        simp only [List.mem_cons, List.mem_singleton, List.mem_nil_iff, or_false] at hmem
        rcases hmem with hmem | hmem
        · cases hmem
        · cases hmem
          decide)⟩

/-- The method `UpdateOrderStatus` on the plain fakes leaves the state as it was when the
order is CANCELLED or DELIVERED already. -/
theorem plainService_UpdateOrderStatus_terminal (env : Env) (now : Time) (orderID : UUID)
    (newStatus : OrderStatus) (updatedBy : Int) (w : World) (order : Order)
    (hstored : w.orders orderID = some order)
    (hterm : order.CurrentStatus = OrderStatusDelivered
      ∨ order.CurrentStatus = OrderStatusCancelled) :
    ((plainService env).UpdateOrderStatus now orderID newStatus updatedBy w).state = w := by
  rcases plainService_UpdateOrderStatus_cases env now orderID newStatus updatedBy w with
    ⟨msg, hrun⟩ | ⟨o, -, -, hrun⟩ | ⟨o, hst, hval, hne⟩
  · rw [hrun]
    rfl
  · rw [hrun]
    rfl
  · rw [hstored] at hst
    cases hst
    rw [ValidateTransition_terminal order.CurrentStatus newStatus hterm hne] at hval
    cases hval

/-- Claim C18. Over any run of `UpdateOrderStatus` calls on one stored order,
the inventory in the end is either the inventory at the start or what a single
`IncrementQuantity` of the product and quantity of the order makes of it; and
when the order is CANCELLED at the start, the run changes nothing at all. -/
theorem restore_at_most_once (orderID : UUID) (order : Order) (ops : List Op) (w : World)
    (hstored : w.orders orderID = some order)
    (hops : ∀ op ∈ ops, ∃ env now newStatus updatedBy,
      op = Op.update env now orderID newStatus updatedBy) :
    ((runOps ops w).inventoryMap = w.inventoryMap
      ∨ ∃ u u1 : World, u.inventoryMap = w.inventoryMap
          ∧ InventoryStoreFake.plain.IncrementQuantity order.ProductID order.Quantity u
              = .ret none u1
          ∧ (runOps ops w).inventoryMap = u1.inventoryMap)
    ∧ (order.CurrentStatus = OrderStatusCancelled → runOps ops w = w) := by
  constructor
  · have hinv := runOps_induct
      (fun v => ∃ o, v.orders orderID = some o ∧ o.ProductID = order.ProductID
        ∧ o.Quantity = order.Quantity
        ∧ (v.inventoryMap = w.inventoryMap
          ∨ (o.CurrentStatus = OrderStatusCancelled
            ∧ v.inventoryMap = setKey w.inventoryMap order.ProductID
                (some
                  { ProductID :=
                      (match w.inventoryMap order.ProductID with
                       | some inv => inv
                       | none => { ProductID := order.ProductID, Quantity := 0 }).ProductID,
                    Quantity := wrapInt
                      ((match w.inventoryMap order.ProductID with
                        | some inv => inv
                        | none => { ProductID := order.ProductID, Quantity := 0 }).Quantity
                        + order.Quantity) }))))
      ops ?_ w ⟨order, hstored, rfl, rfl, Or.inl rfl⟩
    · obtain ⟨o, -, -, -, hmap⟩ := hinv
      rcases hmap with hmap | ⟨-, hmap⟩
      · exact Or.inl hmap
      · refine Or.inr ⟨{ w with productLocks := fun _ => false }, _, rfl,
          plain_IncrementQuantity_free _ _ _ rfl, ?_⟩
        rw [hmap]
    · intro op hop v hv
      obtain ⟨env, now, newStatus, updatedBy, rfl⟩ := hops op hop
      obtain ⟨o, hvo, hp, hq, hmap⟩ := hv
      simp only [runOp]
      rcases plainService_UpdateOrderStatus_cases env now orderID newStatus updatedBy v with
        ⟨msg, hrun⟩ | ⟨o2, -, -, hrun⟩ | ⟨o2, hst, hval, hne⟩
      · rw [hrun]
        exact ⟨o, hvo, hp, hq, hmap⟩
      · rw [hrun]
        exact ⟨o, hvo, hp, hq, hmap⟩
      · rw [hvo] at hst
        cases hst
        rcases hmap with hmap | ⟨hcan, hmap⟩
        · obtain ⟨w3, hord, hinv3, -, hstate⟩ :=
            plainService_UpdateOrderStatus_state env now orderID newStatus updatedBy v o hvo
              hval hne
          rcases hstate with hstate | ⟨hc, -, hstate⟩
          · rw [hstate]
            refine ⟨{ o with CurrentStatus := newStatus, UpdatedAt := env.now }, ?_, hp, hq,
              Or.inl ?_⟩
            · simp [hord, setKey]
            · rw [hinv3, hmap]
          · rw [hstate]
            refine ⟨{ o with CurrentStatus := newStatus, UpdatedAt := env.now }, ?_, hp, hq,
              Or.inr ⟨hc, ?_⟩⟩
            · simp [hord, setKey]
            · simp only [hmap, hp, hq]
        · rw [ValidateTransition_terminal o.CurrentStatus newStatus (Or.inr hcan) hne] at hval
          cases hval
  · intro hcan
    refine runOps_induct (fun v => v = w) ops ?_ w rfl
    intro op hop v hv
    obtain ⟨env, now, newStatus, updatedBy, rfl⟩ := hops op hop
    subst hv
    exact plainService_UpdateOrderStatus_terminal env now orderID newStatus updatedBy v order
      hstored (Or.inr hcan)

/-- Claim C18 at three cancel requests in a row on the sample order. -/
theorem restore_at_most_once_witness :
    ((runOps
        [Op.update sampleEnv 3 11 OrderStatusCancelled 9,
         Op.update sampleEnv 4 11 OrderStatusCancelled 9,
         Op.update sampleEnv 5 11 OrderStatusCancelled 9] sampleWorld).inventoryMap
        = sampleWorld.inventoryMap
      ∨ ∃ u u1 : World, u.inventoryMap = sampleWorld.inventoryMap
          ∧ InventoryStoreFake.plain.IncrementQuantity sampleOrder.ProductID
              sampleOrder.Quantity u = .ret none u1
          ∧ (runOps
              [Op.update sampleEnv 3 11 OrderStatusCancelled 9,
               Op.update sampleEnv 4 11 OrderStatusCancelled 9,
               Op.update sampleEnv 5 11 OrderStatusCancelled 9] sampleWorld).inventoryMap
            = u1.inventoryMap)
    ∧ stock (runOps
        [Op.update sampleEnv 3 11 OrderStatusCancelled 9,
         Op.update sampleEnv 4 11 OrderStatusCancelled 9,
         Op.update sampleEnv 5 11 OrderStatusCancelled 9] sampleWorld) 7 = 103 :=
  ⟨(restore_at_most_once 11 sampleOrder
      [Op.update sampleEnv 3 11 OrderStatusCancelled 9,
       Op.update sampleEnv 4 11 OrderStatusCancelled 9,
       Op.update sampleEnv 5 11 OrderStatusCancelled 9] sampleWorld rfl
      (by
        intro op hop
        simp only [List.mem_cons, List.mem_singleton, List.mem_nil_iff, or_false] at hop
        rcases hop with rfl | rfl | rfl
        · exact ⟨_, _, _, _, rfl⟩
        · exact ⟨_, _, _, _, rfl⟩
        · exact ⟨_, _, _, _, rfl⟩)).1,
    by decide⟩

/-! ## Reads of unknown products, and the mutex after a refusal -/

/-- Counterexample to claim C19 as stated. For product 7, which has no record
in the empty state, `GetByProductID` of the fake returns quantity 100. -/
theorem GetByProductID_unknown_counterexample :
    World.empty.inventoryMap 7 = none
    ∧ InventoryStoreFake.plain.GetByProductID 7 World.empty
      = .ret (.ok { ProductID := 7, Quantity := 100 })
          { World.empty with
            inventoryMap := setKey World.empty.inventoryMap 7
              (some { ProductID := 7, Quantity := 100 }) } :=
  ⟨rfl, rfl⟩

/-- A quantity looked up in a table is at least as large as a bound that holds
of every entry. -/
theorem lookup_ge (bound : Int) (table : List (UUID × Int)) (p : UUID) (qty : Int)
    (hall : ∀ entry ∈ table, bound ≤ entry.2) (hfound : table.lookup p = some qty) :
    bound ≤ qty := by
  induction table with
  | nil => simp at hfound
  | cons entry rest ih =>
    obtain ⟨k, v⟩ := entry
    simp only [List.lookup] at hfound
    cases hk : p == k with
    | true =>
      simp only [hk, Option.some.injEq] at hfound
      subst hfound
      exact hall (k, v) (List.mem_cons_self _ _)
    | false =>
      simp only [hk] at hfound
      exact ih (fun e he => hall e (List.mem_cons_of_mem _ he)) hfound

/-- The default quantity of every product is at least 50. -/
theorem getDefaultQuantity_ge (p : UUID) : 50 ≤ getDefaultQuantity p := by
  unfold getDefaultQuantity
  split
  · next qty hfound => exact lookup_ge 50 _ p qty (by decide) hfound
  · decide

/-- Claim C19, amended. For a product with no inventory record,
`GetByProductID` of the database store returns quantity 0 and no error, while
`GetByProductID` of the fake returns the default quantity of the product, which
is never below 50, and no error, and puts that record on file. -/
theorem GetByProductID_unknown :
    (∀ (first : UUID → FirstResult) (p : UUID), first p = FirstResult.recordNotFound →
      inventoryStore.GetByProductID first p = .ok { ProductID := p, Quantity := 0 })
    ∧ (∀ (f : InventoryStoreFake) (p : UUID) (w : World),
      f.GetByProductIDFunc = none → w.inventoryMap p = none →
        f.GetByProductID p w
          = .ret (.ok { ProductID := p, Quantity := getDefaultQuantity p })
              { w with
                inventoryMap := setKey w.inventoryMap p
                  (some { ProductID := p, Quantity := getDefaultQuantity p }) }
        ∧ 50 ≤ getDefaultQuantity p) := by
  constructor
  · intro first p hnone
    simp [inventoryStore.GetByProductID, hnone]
  · intro f p w hf hnone
    refine ⟨?_, getDefaultQuantity_ge p⟩
    simp [InventoryStoreFake.GetByProductID, hf, hnone, defaultInventory]

/-- Claim C19, amended, at product 7: 0 from a database with no rows, 100 from the fake. -/
theorem GetByProductID_unknown_witness :
    inventoryStore.GetByProductID (fun _ => FirstResult.recordNotFound) 7
      = .ok { ProductID := 7, Quantity := 0 }
    ∧ (InventoryStoreFake.plain.GetByProductID 7 World.empty
        = .ret (.ok { ProductID := 7, Quantity := getDefaultQuantity 7 })
            { World.empty with
              inventoryMap := setKey World.empty.inventoryMap 7
                (some { ProductID := 7, Quantity := getDefaultQuantity 7 }) }
      ∧ 50 ≤ getDefaultQuantity 7) :=
  ⟨GetByProductID_unknown.1 (fun _ => FirstResult.recordNotFound) 7 rfl,
    GetByProductID_unknown.2 InventoryStoreFake.plain 7 World.empty rfl rfl⟩

/-- Claim C20 at its failing input. With 100 units in stock and the mutex of
product 7 free, `CreateOrder` for 150 units returns the insufficient-inventory
error and leaves the mutex held; the next `CreateOrder` on the product, for a
single unit, waits for ever. -/
theorem insufficient_stock_leaves_mutex_held :
    sampleWorld.productLocks 7 = false
    ∧ ∃ w1,
      (plainService sampleEnv).CreateOrder 5 7 150 [] sampleWorld
        = .ret (.error "insufficient inventory: requested 150, available 100") w1
      ∧ w1.productLocks 7 = true
      ∧ stock w1 7 = 100
      ∧ (plainService sampleEnv).CreateOrder 5 7 1 [] w1 = .blocked w1 :=
  ⟨rfl, _, rfl, rfl, by decide, rfl⟩

/-! ## Stock stays non-negative -/

/-- Two functions that agree away from `k` have the same sum over a list that
does not hold `k`. -/
theorem sum_map_eq_of_not_mem (f g : UUID → Int) (k : UUID) (ids : List UUID)
    (hk : k ∉ ids) (hfg : ∀ j, j ≠ k → g j = f j) :
    (ids.map g).sum = (ids.map f).sum := by
  induction ids with
  | nil => rfl
  | cons a rest ih =>
    have ha : a ≠ k := fun h => hk (h ▸ List.mem_cons_self a rest)
    have hrest : k ∉ rest := fun h => hk (List.mem_cons_of_mem a h)
    simp only [List.map_cons, List.sum_cons, hfg a ha, ih hrest]

/-- Two functions that agree away from `k` have sums over a list that holds `k`
once that differ by their values at `k`. -/
theorem sum_map_eq_of_mem (f g : UUID → Int) (k : UUID) (ids : List UUID)
    (hnd : ids.Nodup) (hk : k ∈ ids) (hfg : ∀ j, j ≠ k → g j = f j) :
    (ids.map g).sum = (ids.map f).sum - f k + g k := by
  induction ids with
  | nil => simp at hk
  | cons a rest ih =>
    have hnd2 := List.nodup_cons.mp hnd
    by_cases ha : a = k
    · subst ha
      simp only [List.map_cons, List.sum_cons,
        sum_map_eq_of_not_mem f g a rest hnd2.1 hfg]
      omega
    · have hk2 : k ∈ rest := by
        rcases List.mem_cons.mp hk with h | h
        · exact absurd h.symm ha
        · exact h
      simp only [List.map_cons, List.sum_cons, hfg a ha, ih hnd2.2 hk2]
      omega

/-- The stock of a state is the quantity on record, or the default. -/
theorem stock_of_record (w : World) (p : UUID) (inv : Inventory)
    (hrec : w.inventoryMap p = some inv) : stock w p = inv.Quantity := by
  simp [stock_eq, hrec]

/-- No order hands back a negative quantity when no ORDERED order has one. -/
theorem outstanding_nonneg (w : World) (p k : UUID)
    (hb : ∀ id o, w.orders id = some o → o.CurrentStatus = OrderStatusOrdered →
      0 ≤ o.Quantity) :
    0 ≤ outstanding w p k := by
  unfold outstanding
  cases hk : w.orders k with
  | none => simp
  | some o =>
    by_cases hc : o.ProductID = p ∧ o.CurrentStatus = OrderStatusOrdered
    · simp only [hc, and_self, if_true]
      exact hb k o hk hc.2
    · simp [hc]

/-- A change of the order stored under `k` leaves what the other orders hand back. -/
theorem outstanding_other (w v : World) (p k j : UUID) (o : Order)
    (hord : v.orders = setKey w.orders k (some o)) (hj : j ≠ k) :
    outstanding v p j = outstanding w p j := by
  simp [outstanding, hord, setKey, hj]

/-- Balanced states stay balanced when nothing but the mutexes and the history
changes. -/
theorem Balanced_congr (w v : World) (hb : Balanced w)
    (hstock : ∀ p, stock v p = stock w p) (hord : v.orders = w.orders) : Balanced v := by
  obtain ⟨h1, h2, h3⟩ := hb
  refine ⟨?_, ?_, ?_⟩
  · intro p
    rw [hstock p]
    exact h1 p
  · intro id o ho
    rw [hord] at ho
    exact h2 id o ho
  · intro p ids hnd
    have hout : ∀ j, outstanding v p j = outstanding w p j := by
      intro j
      simp [outstanding, hord]
    have hsum : (ids.map (outstanding v p)).sum = (ids.map (outstanding w p)).sum := by
      congr 1
      exact List.map_congr_left (fun j _ => hout j)
    rw [hstock p, hsum]
    exact h3 p ids hnd

/-- Balanced states stay balanced under a change of one stored order and of the
stock that does not raise, for any product, the stock together with what that
order may hand back. -/
theorem Balanced_step (w v : World) (k : UUID) (o : Order) (hb : Balanced w)
    (hord : v.orders = setKey w.orders k (some o))
    (hstock : ∀ p, 0 ≤ stock v p)
    (hq : o.CurrentStatus = OrderStatusOrdered → 0 ≤ o.Quantity)
    (hle : ∀ p, stock v p + outstanding v p k ≤ stock w p + outstanding w p k) :
    Balanced v := by
  obtain ⟨h1, h2, h3⟩ := hb
  have hb2 : ∀ id o2, v.orders id = some o2 → o2.CurrentStatus = OrderStatusOrdered →
      0 ≤ o2.Quantity := by
    intro id o2 ho hs
    by_cases hid : id = k
    · subst hid
      simp only [hord, setKey, if_true, Option.some.injEq] at ho
      subst ho
      exact hq hs
    · simp only [hord, setKey, hid, if_false] at ho
      exact h2 id o2 ho hs
  refine ⟨hstock, hb2, ?_⟩
  intro p ids hnd
  have hfg : ∀ j, j ≠ k → outstanding v p j = outstanding w p j :=
    fun j hj => outstanding_other w v p k j o hord hj
  have hlep := hle p
  by_cases hk : k ∈ ids
  · have hsum := sum_map_eq_of_mem (outstanding w p) (outstanding v p) k ids hnd hk hfg
    have hbound := h3 p ids hnd
    omega
  · have hsum := sum_map_eq_of_not_mem (outstanding w p) (outstanding v p) k ids hk hfg
    have hbound := h3 p (k :: ids) (List.nodup_cons.mpr ⟨hk, hnd⟩)
    simp only [List.map_cons, List.sum_cons] at hbound
    have hnn := outstanding_nonneg v p k hb2
    omega

/-- The state `CreateOrder` on the plain fakes leaves: stock and stored orders
as they were, or the stock of the product down by the quantity and the new
order stored. -/
theorem plainService_CreateOrder_state (env : Env) (userID : Int) (p : UUID) (q : Int)
    (md : JSONB) (w : World) (hint : IsInt (stock w p)) :
    ((∀ p', stock ((plainService env).CreateOrder userID p q md w).state p' = stock w p')
      ∧ ((plainService env).CreateOrder userID p q md w).state.orders = w.orders)
    ∨ (0 < q ∧ q ≤ stock w p
      ∧ stock ((plainService env).CreateOrder userID p q md w).state p = stock w p - q
      ∧ (∀ p', p' ≠ p →
          stock ((plainService env).CreateOrder userID p q md w).state p' = stock w p')
      ∧ ((plainService env).CreateOrder userID p q md w).state.orders
          = setKey w.orders env.newID
              (some { ID := env.newID, UserID := userID, ProductID := p, Quantity := q,
                      CurrentStatus := OrderStatusOrdered, Metadata := md,
                      CreatedAt := env.now, UpdatedAt := env.now })) := by
  by_cases hu : userID ≤ 0
  · left
    simp [orderService.CreateOrder, hu, Run.state]
  by_cases hq : q ≤ 0
  · left
    simp [orderService.CreateOrder, hu, hq, Run.state]
  cases hl : w.productLocks p with
  | true =>
    left
    simp [orderService.CreateOrder, hu, hq, plainService, fakeService, NewOrderService,
      InventoryStoreFake.toStore, InventoryStoreFake.LockForUpdate, InventoryStoreFake.plain, hl,
      Run.state]
  | false =>
    by_cases hlt : stock w p < q
    · left
      obtain ⟨inv, w1, -, -, -, -, hstock, -, hord, -, hins, -⟩ :=
        CreateOrder_plain_inventory (OrderStoreFake.plain.toStore env)
          OrderStateLogStoreFake.plain.toStore NewValidator userID p q md w
          (by omega) (by omega) hl
      rw [← plainService_eq] at hins
      rw [hins hlt]
      exact ⟨hstock, hord⟩
    · right
      obtain ⟨w1, hrun, hst, hoth, -, hord, -⟩ :=
        plainService_CreateOrder_ok env userID p q md w (by omega) (by omega) hl hint
          (by omega)
      rw [hrun]
      exact ⟨by omega, by omega, hst, hoth, hord⟩

/-- A call of `CreateOrder` on the plain fakes keeps a balanced state balanced. -/
theorem Balanced_create (c : CreateCall) (p : UUID) (w : World) (hb : Balanced w) :
    Balanced ((plainService c.env).CreateOrder c.userID p c.quantity c.metadata w).state := by
  have hint : IsInt (stock w p) := by
    have h0 := hb.1 p
    have hmax := hb.2.2 p [] List.nodup_nil
    simp only [List.map_nil, List.sum_nil, maxInt] at hmax
    unfold IsInt
    omega
  rcases plainService_CreateOrder_state c.env c.userID p c.quantity c.metadata w hint with
    ⟨hstock, hord⟩ | ⟨hq, hle, hst, hoth, hord⟩
  · exact Balanced_congr w _ hb hstock hord
  · refine Balanced_step w _ c.env.newID _ hb hord ?_ (fun _ => by simp only; omega) ?_
    · intro p'
      by_cases hp : p' = p
      · subst hp
        rw [hst]
        omega
      · rw [hoth p' hp]
        exact hb.1 p'
    · intro p'
      have hnn := outstanding_nonneg w p' c.env.newID hb.2.1
      by_cases hp : p' = p
      · subst hp
        have hv : outstanding
            ((plainService c.env).CreateOrder c.userID p' c.quantity c.metadata w).state p'
            c.env.newID = c.quantity := by
          simp [outstanding, hord, setKey]
        rw [hst, hv]
        omega
      · have hp2 : ¬ (p = p') := fun h => hp h.symm
        have hv : outstanding
            ((plainService c.env).CreateOrder c.userID p c.quantity c.metadata w).state p'
            c.env.newID = 0 := by
          simp [outstanding, hord, setKey, hp2]
        rw [hoth p' hp, hv]
        omega

/-- A call of `UpdateOrderStatus` on the plain fakes keeps a balanced state balanced. -/
theorem Balanced_update (env : Env) (now : Time) (orderID : UUID) (newStatus : OrderStatus)
    (updatedBy : Int) (w : World) (hb : Balanced w) :
    Balanced ((plainService env).UpdateOrderStatus now orderID newStatus updatedBy w).state := by
  rcases plainService_UpdateOrderStatus_cases env now orderID newStatus updatedBy w with
    ⟨msg, hrun⟩ | ⟨o, -, -, hrun⟩ | ⟨o, hst, hval, hne⟩
  · rw [hrun]
    exact hb
  · rw [hrun]
    exact hb
  · have hnot : newStatus ≠ OrderStatusOrdered := by
      rcases ValidateTransition_allowed o.CurrentStatus newStatus hval hne with
        ⟨-, h⟩ | ⟨-, h⟩ | ⟨-, h⟩ <;> rw [h] <;> decide
    have hout0 : ∀ (v : World) (p : UUID),
        v.orders = setKey w.orders orderID
          (some { o with CurrentStatus := newStatus, UpdatedAt := env.now }) →
        outstanding v p orderID = 0 := by
      intro v p hv
      simp [outstanding, hv, setKey, hnot]
    obtain ⟨w3, hord, hinv3, -, hstate⟩ :=
      plainService_UpdateOrderStatus_state env now orderID newStatus updatedBy w o hst hval hne
    have hstock3 : ∀ p, stock w3 p = stock w p := by
      intro p
      simp [stock_eq, hinv3]
    rcases hstate with hstate | ⟨hc, -, hstate⟩
    · rw [hstate]
      refine Balanced_step w w3 orderID _ hb hord ?_ (fun h => absurd h hnot) ?_
      · intro p
        rw [hstock3 p]
        exact hb.1 p
      · intro p
        rw [hstock3 p, hout0 w3 p hord]
        have hnn := outstanding_nonneg w p orderID hb.2.1
        omega
    · have hord1 : o.CurrentStatus = OrderStatusOrdered := by
        rcases ValidateTransition_allowed o.CurrentStatus newStatus hval hne with
          ⟨h, -⟩ | ⟨h, -⟩ | ⟨-, h⟩
        · exact h
        · exact h
        · rw [hc] at h
          exact absurd h (by decide)
      have hq0 : 0 ≤ o.Quantity := hb.2.1 orderID o hst hord1
      have hout : outstanding w o.ProductID orderID = o.Quantity := by
        simp [outstanding, hst, hord1]
      have hmax := hb.2.2 o.ProductID [orderID] (List.nodup_singleton _)
      simp only [List.map_cons, List.map_nil, List.sum_cons, List.sum_nil, hout, maxInt]
        at hmax
      have h0 := hb.1 o.ProductID
      have hvord :
          ((plainService env).UpdateOrderStatus now orderID newStatus updatedBy w).state.orders
            = setKey w.orders orderID
                (some { o with CurrentStatus := newStatus, UpdatedAt := env.now }) := by
        rw [hstate]
        exact hord
      have hvinv : ∀ p,
          stock ((plainService env).UpdateOrderStatus now orderID newStatus updatedBy w).state p
            = if p = o.ProductID then
                wrapInt
                  ((match w.inventoryMap o.ProductID with
                    | some inv => inv
                    | none => { ProductID := o.ProductID, Quantity := 0 }).Quantity
                    + o.Quantity)
              else stock w p := by
        intro p
        rw [hstate]
        by_cases hp : p = o.ProductID
        · simp [stock_eq, setKey, hp]
        · simp [stock_eq, setKey, hp]
      have hnew :
          stock ((plainService env).UpdateOrderStatus now orderID newStatus updatedBy w).state
              o.ProductID ≤ stock w o.ProductID + o.Quantity
          ∧ 0 ≤ stock
              ((plainService env).UpdateOrderStatus now orderID newStatus updatedBy w).state
              o.ProductID := by
        rw [hvinv o.ProductID]
        simp only [if_true]
        cases hrec : w.inventoryMap o.ProductID with
        | none =>
          have hst0 : stock w o.ProductID = getDefaultQuantity o.ProductID := by
            simp [stock_eq, hrec]
          have hd := getDefaultQuantity_ge o.ProductID
          have hwrap : wrapInt (0 + o.Quantity) = o.Quantity := by
            rw [Int.zero_add]
            apply wrapInt_eq_self
            unfold IsInt
            omega
          simp only [hwrap]
          omega
        | some inv =>
          have hst0 : stock w o.ProductID = inv.Quantity := stock_of_record w _ inv hrec
          have hwrap : wrapInt (inv.Quantity + o.Quantity) = inv.Quantity + o.Quantity := by
            apply wrapInt_eq_self
            unfold IsInt
            omega
          simp only [hwrap]
          omega
      refine Balanced_step w _ orderID _ hb hvord ?_ (fun h => absurd h hnot) ?_
      · intro p
        by_cases hp : p = o.ProductID
        · subst hp
          exact hnew.2
        · rw [hvinv p]
          simp only [hp, if_false]
          exact hb.1 p
      · intro p
        rw [hout0 _ p hvord]
        by_cases hp : p = o.ProductID
        · subst hp
          rw [hout]
          have := hnew.1
          omega
        · rw [hvinv p]
          simp only [hp, if_false]
          have hnn := outstanding_nonneg w p orderID hb.2.1
          omega

/-- A quantity looked up in a table is at most as large as a bound that holds
of every entry. -/
theorem lookup_le (bound : Int) (table : List (UUID × Int)) (p : UUID) (qty : Int)
    (hall : ∀ entry ∈ table, entry.2 ≤ bound) (hfound : table.lookup p = some qty) :
    qty ≤ bound := by
  induction table with
  | nil => simp at hfound
  | cons entry rest ih =>
    obtain ⟨k, v⟩ := entry
    simp only [List.lookup] at hfound
    cases hk : p == k with
    | true =>
      simp only [hk, Option.some.injEq] at hfound
      subst hfound
      exact hall (k, v) (List.mem_cons_self _ _)
    | false =>
      simp only [hk] at hfound
      exact ih (fun e he => hall e (List.mem_cons_of_mem _ he)) hfound

/-- The default quantity of every product is at most 200. -/
theorem getDefaultQuantity_le (p : UUID) : getDefaultQuantity p ≤ 200 := by
  unfold getDefaultQuantity
  split
  · next qty hfound => exact lookup_le 200 _ p qty (by decide) hfound
  · decide

/-- A state with no stored order is balanced once every quantity on record is a
non-negative machine integer. -/
theorem Balanced_of_no_orders (w : World) (hnone : ∀ id, w.orders id = none)
    (hrec : ∀ p inv, w.inventoryMap p = some inv →
      0 ≤ inv.Quantity ∧ inv.Quantity ≤ maxInt) :
    Balanced w := by
  have hstock : ∀ p, 0 ≤ stock w p ∧ stock w p ≤ maxInt := by
    intro p
    cases h : w.inventoryMap p with
    | none =>
      have h1 := getDefaultQuantity_ge p
      have h2 := getDefaultQuantity_le p
      simp only [stock_eq, h, maxInt]
      omega
    | some inv =>
      rw [stock_of_record w p inv h]
      exact hrec p inv h
  refine ⟨fun p => (hstock p).1, ?_, ?_⟩
  · intro id o ho
    rw [hnone id] at ho
    cases ho
  · intro p ids _
    have hzero : ∀ l : List UUID, (l.map (outstanding w p)).sum = 0 := by
      intro l
      induction l with
      | nil => rfl
      | cons a rest ih =>
        simp only [List.map_cons, List.sum_cons, ih, outstanding, hnone a]
        rfl
    rw [hzero ids]
    have := (hstock p).2
    omega

/-- Counterexample to claim C17 as stated. In two states in which every
inventory quantity is `≥ 0`, cancelling the stored ORDERED order leaves a
negative quantity on record: the sum passes the largest machine integer in the
first, and the order has a negative quantity in the second. -/
theorem stock_never_negative_counterexample :
    ((∀ p inv, brimfulWorld.inventoryMap p = some inv → 0 ≤ inv.Quantity)
      ∧ (runOps [Op.update sampleEnv 3 11 OrderStatusCancelled 9] brimfulWorld).inventoryMap 7
          = some { ProductID := 7, Quantity := -9223372036854775806 })
    ∧ ((∀ p inv, owingWorld.inventoryMap p = some inv → 0 ≤ inv.Quantity)
      ∧ (runOps [Op.update sampleEnv 3 11 OrderStatusCancelled 9] owingWorld).inventoryMap 7
          = some { ProductID := 7, Quantity := -2 }) := by
  refine ⟨⟨?_, by decide⟩, ⟨?_, by decide⟩⟩
  · intro p inv h
    simp only [brimfulWorld, World.empty, setKey] at h
    split at h
    · cases h
      decide
    · cases h
  · intro p inv h
    simp only [owingWorld, World.empty, setKey] at h
    split at h
    · cases h
      decide
    · cases h

/-- Claim C17, amended. From a balanced state (no negative inventory quantity,
no ORDERED order with a negative quantity, and the stock of every product
together with the quantities of any ORDERED orders on it a machine integer),
every state that a sequence of `CreateOrder` and `UpdateOrderStatus` calls on
the plain fakes leads to is balanced, and every inventory quantity on record
in it is `≥ 0`. -/
theorem stock_never_negative (ops : List Op) (w : World) (hb : Balanced w) :
    Balanced (runOps ops w)
    ∧ ∀ p inv, (runOps ops w).inventoryMap p = some inv → 0 ≤ inv.Quantity := by
  have hfinal : Balanced (runOps ops w) := by
    refine runOps_induct Balanced ops ?_ w hb
    intro op _ v hv
    cases op with
    | create c p => exact Balanced_create c p v hv
    | update env now orderID newStatus updatedBy =>
      exact Balanced_update env now orderID newStatus updatedBy v hv
  refine ⟨hfinal, ?_⟩
  intro p inv hrec
  rw [← stock_of_record _ p inv hrec]
  exact hfinal.1 p

/-- Claim C17, amended, at the empty state: an order for 60 units of product 7
is placed, cancelled, and asked to be cancelled again. -/
theorem stock_never_negative_witness :
    Balanced
      (runOps [Op.create sampleCall 7, Op.update sampleEnv 3 12 OrderStatusCancelled 9,
        Op.update sampleEnv 4 12 OrderStatusCancelled 9] World.empty)
    ∧ ∀ p inv,
        (runOps [Op.create sampleCall 7, Op.update sampleEnv 3 12 OrderStatusCancelled 9,
          Op.update sampleEnv 4 12 OrderStatusCancelled 9] World.empty).inventoryMap p
          = some inv → 0 ≤ inv.Quantity :=
  stock_never_negative
    [Op.create sampleCall 7, Op.update sampleEnv 3 12 OrderStatusCancelled 9,
      Op.update sampleEnv 4 12 OrderStatusCancelled 9] World.empty
    (Balanced_of_no_orders World.empty (fun _ => rfl) (fun _ _ h => by cases h))

/-! ## `IncrementQuantity` -/

/-- Claim C21 does not hold as stated: with the largest machine integer on
record for product 7, `IncrementQuantity(7, 1)` returns `nil` and leaves the
smallest machine integer on record, not the previous value plus one. -/
theorem IncrementQuantity_effect_counterexample :
    ∃ w1 : World,
      InventoryStoreFake.plain.IncrementQuantity 7 1 brimfulWorld = .ret none w1
      ∧ brimfulWorld.inventoryMap 7 = some { ProductID := 7, Quantity := 9223372036854775807 }
      ∧ w1.inventoryMap 7 = some { ProductID := 7, Quantity := -9223372036854775808 }
      ∧ (-9223372036854775808 : Int) ≠ 9223372036854775807 + 1 := by
  refine ⟨{ brimfulWorld with
      inventoryMap := setKey brimfulWorld.inventoryMap 7
        (some { ProductID := 7, Quantity := -9223372036854775808 }) }, ?_, ?_, ?_, by decide⟩
  · simp [InventoryStoreFake.IncrementQuantity, InventoryStoreFake.plain, brimfulWorld,
      World.empty, setKey, maxInt, wrapInt]
  · simp [brimfulWorld, setKey, maxInt]
  · simp [setKey]

/-- Claim C21, amended. For every product `p` and machine integer `q`,
`IncrementQuantity(p, q)` of the inventory fake, called while the mutex of `p`
is free, returns `nil`. If `p` had no record it has one with quantity exactly
`q` afterwards; otherwise its quantity is the previous one plus `q` wrapped to
64 bits, which is the previous one plus `q` whenever that sum is a machine
integer. The records of all other products, the mutexes, the orders and the
audit log are as before. -/
theorem IncrementQuantity_effect (p : UUID) (q : Int) (w : World) (hq : IsInt q)
    (hl : w.productLocks p = false) :
    ∃ w1 : World,
      InventoryStoreFake.plain.IncrementQuantity p q w = .ret none w1
      ∧ (w.inventoryMap p = none →
          w1.inventoryMap p = some { ProductID := p, Quantity := q })
      ∧ (∀ inv, w.inventoryMap p = some inv →
          w1.inventoryMap p = some { inv with Quantity := wrapInt (inv.Quantity + q) }
          ∧ (IsInt (inv.Quantity + q) →
              w1.inventoryMap p = some { inv with Quantity := inv.Quantity + q }))
      ∧ (∀ k, k ≠ p → w1.inventoryMap k = w.inventoryMap k)
      ∧ (∀ k, k ≠ p → stock w1 k = stock w k)
      ∧ w1.productLocks = w.productLocks
      ∧ w1.orders = w.orders
      ∧ w1.orderStateLogs = w.orderStateLogs := by
  refine ⟨_, plain_IncrementQuantity_free w p q hl, ?_, ?_, ?_, ?_, rfl, rfl, rfl⟩
  · intro hnone
    simp [hnone, setKey, wrapInt_eq_self q hq]
  · intro inv hsome
    refine ⟨by simp [hsome, setKey], ?_⟩
    intro hsum
    simp [hsome, setKey, wrapInt_eq_self _ hsum]
  · intro k hk
    simp [setKey, hk]
  · intro k hk
    simp [stock_eq, setKey, hk]

/-- The amended claim C21 at work: 3 units are added to the 100 units on record
for product 7. -/
theorem IncrementQuantity_effect_witness :
    IsInt 3 ∧ sampleWorld.productLocks 7 = false
    ∧ ∃ w1 : World,
      InventoryStoreFake.plain.IncrementQuantity 7 3 sampleWorld = .ret none w1
      ∧ w1.inventoryMap 7 = some { ProductID := 7, Quantity := 103 } := by
  refine ⟨by decide, rfl, ?_⟩
  obtain ⟨w1, hrun, -, hsome, -⟩ :=
    IncrementQuantity_effect 7 3 sampleWorld (by decide) rfl
  refine ⟨w1, hrun, ?_⟩
  have h := (hsome { ProductID := 7, Quantity := 100 } (by simp [sampleWorld, setKey])).2
    (by decide)
  simpa using h

/-! ## `GetOrderHistory` -/

/-- The method `GetOrderHistory` on the plain fakes reads the audit log and nothing else:
it returns the entries stored under the identifier, none at all when there are
none, and leaves the state as it was. -/
theorem plainService_GetOrderHistory (env : Env) (orderID : UUID) (w : World) :
    (plainService env).GetOrderHistory orderID w = .ret (.ok (history w orderID)) w := by
  unfold orderService.GetOrderHistory history
  simp only [plainService, fakeService, NewOrderService, OrderStateLogStoreFake.toStore,
    OrderStateLogStoreFake.GetByOrderID, OrderStateLogStoreFake.plain]
  cases w.orderStateLogs orderID <;> rfl

/-- Claim C22 does not hold as stated: no order is stored under identifier 13,
and `GetOrderHistory` returns the empty history for it, with no error. -/
theorem GetOrderHistory_unknown_order_counterexample :
    sampleWorld.orders 13 = none
    ∧ (plainService sampleEnv).GetOrderByID 13 sampleWorld
        = .ret (.error "order not found") sampleWorld
    ∧ (plainService sampleEnv).GetOrderHistory 13 sampleWorld = .ret (.ok []) sampleWorld := by
  refine ⟨rfl, rfl, rfl⟩

/-- Claim C22, amended. For every order identifier under which no order and no
audit entry is stored, `GetOrderHistory` returns the empty history and no
error, in the unchanged state; an unknown order is reported by `GetOrderByID`
only. -/
theorem GetOrderHistory_unknown_order (env : Env) (orderID : UUID) (w : World)
    (horder : w.orders orderID = none) (hlogs : w.orderStateLogs orderID = none) :
    (plainService env).GetOrderHistory orderID w = .ret (.ok []) w
    ∧ (plainService env).GetOrderByID orderID w = .ret (.error "order not found") w := by
  constructor
  · rw [plainService_GetOrderHistory]
    simp [history, OrderStateLogStoreFake.GetByOrderID, OrderStateLogStoreFake.plain, hlogs]
  · simp [orderService.GetOrderByID, plainService, fakeService, NewOrderService,
      OrderStoreFake.toStore, OrderStoreFake.GetByID, OrderStoreFake.plain, horder]

/-- The amended claim C22 at work on the identifier 13, which the sample state
does not know. -/
theorem GetOrderHistory_unknown_order_witness :
    (plainService sampleEnv).GetOrderHistory 13 sampleWorld = .ret (.ok []) sampleWorld
    ∧ (plainService sampleEnv).GetOrderByID 13 sampleWorld
        = .ret (.error "order not found") sampleWorld :=
  GetOrderHistory_unknown_order sampleEnv 13 sampleWorld rfl rfl

/-! ## The audit log -/

/-- The history the audit log fake reports is the list stored under the
identifier, and the empty list when there is none. -/
theorem history_eq (w : World) (orderID : UUID) :
    history w orderID
      = match w.orderStateLogs orderID with
        | some logs => logs
        | none => [] := by
  unfold history OrderStateLogStoreFake.GetByOrderID OrderStateLogStoreFake.plain
  cases w.orderStateLogs orderID <;> rfl

/-- The method `CreateOrder` on the plain fakes writes nothing to the audit log. -/
theorem plainService_CreateOrder_logs (env : Env) (userID : Int) (p : UUID) (q : Int)
    (md : JSONB) (w : World) :
    ((plainService env).CreateOrder userID p q md w).state.orderStateLogs
      = w.orderStateLogs := by
  by_cases hu : userID ≤ 0
  · simp [orderService.CreateOrder, hu, Run.state]
  by_cases hq : q ≤ 0
  · simp [orderService.CreateOrder, hu, hq, Run.state]
  cases hl : w.productLocks p with
  | true =>
    simp [orderService.CreateOrder, hu, hq, plainService, fakeService, NewOrderService,
      InventoryStoreFake.toStore, InventoryStoreFake.LockForUpdate, InventoryStoreFake.plain, hl,
      Run.state]
  | false =>
    obtain ⟨inv, w1, -, -, -, -, -, -, -, hlog, hins, hok⟩ :=
      CreateOrder_plain_inventory (OrderStoreFake.plain.toStore env)
        OrderStateLogStoreFake.plain.toStore NewValidator userID p q md w
        (by omega) (by omega) hl
    rw [← plainService_eq] at hins hok
    by_cases hlt : stock w p < q
    · rw [hins hlt]
      simp [Run.state, hlog]
    · rw [hok hlt]
      simp [OrderStoreFake.toStore, OrderStoreFake.Create, OrderStoreFake.plain, uuidNil,
        Run.state, hlog]

/-- The orders and the audit log that `UpdateOrderStatus` on the plain fakes
leaves on an allowed change of status, whether or not the restore of a
cancellation got the mutex of the product. -/
theorem plainService_UpdateOrderStatus_books (env : Env) (now : Time) (orderID : UUID)
    (newStatus : OrderStatus) (updatedBy : Int) (w : World) (order : Order)
    (hstored : w.orders orderID = some order)
    (hval : ValidateTransition order.CurrentStatus newStatus = none)
    (hne : order.CurrentStatus ≠ newStatus) :
    ((plainService env).UpdateOrderStatus now orderID newStatus updatedBy w).state.orders
        = setKey w.orders orderID
            (some { order with CurrentStatus := newStatus, UpdatedAt := env.now })
    ∧ ((plainService env).UpdateOrderStatus now orderID newStatus updatedBy w).state.orderStateLogs
        = setKey w.orderStateLogs orderID
            (some (history w orderID
              ++ [{ ID := uuidNil, OrderID := orderID, PreviousStatus := order.CurrentStatus,
                    NewStatus := newStatus, UpdatedBy := updatedBy, UpdatedAt := now }]))
    ∧ ((newStatus = OrderStatusCancelled → w.productLocks order.ProductID = false) →
        (plainService env).UpdateOrderStatus now orderID newStatus updatedBy w
          = .ret (.ok { order with CurrentStatus := newStatus, UpdatedAt := env.now })
              ((plainService env).UpdateOrderStatus now orderID newStatus updatedBy w).state) := by
  rw [plainService_UpdateOrderStatus_transition env now orderID newStatus updatedBy w order
    hstored hval hne, history_eq]
  by_cases hc : newStatus = OrderStatusCancelled
  · simp only [hc, if_true]
    cases hl : w.productLocks order.ProductID with
    | true =>
      simp [InventoryStoreFake.IncrementQuantity, InventoryStoreFake.plain, hl, Run.state]
    | false =>
      simp [InventoryStoreFake.IncrementQuantity, InventoryStoreFake.plain, hl, Run.state]
  · simp [hc, Run.state]

/-- The method `GetByID` of the order fake returns, in the state it was called in. -/
theorem OrderStoreFake_GetByID_ret (f : OrderStoreFake) (orderID : UUID) (w : World) :
    ∃ r, f.GetByID orderID w = .ret r w := by
  unfold OrderStoreFake.GetByID
  cases f.GetByIDFunc with
  | some hook => exact ⟨_, rfl⟩
  | none =>
    cases w.orders orderID with
    | none => exact ⟨_, rfl⟩
    | some order => exact ⟨_, rfl⟩

/-- The method `UpdateStatus` of the order fake returns; it leaves the orders as they were
or, when it returns `nil` with no `UpdateStatusFunc` set, with the status and
`UpdatedAt` of the order under the identifier set. -/
theorem OrderStoreFake_UpdateStatus_ret (f : OrderStoreFake) (env : Env) (orderID : UUID)
    (status : OrderStatus) (w : World) :
    ∃ r v, f.UpdateStatus env orderID status w = .ret r v
      ∧ v.inventoryMap = w.inventoryMap ∧ v.productLocks = w.productLocks
      ∧ v.orderStateLogs = w.orderStateLogs
      ∧ (v.orders = w.orders
        ∨ ∃ order, w.orders orderID = some order ∧ r = none
            ∧ v.orders = setKey w.orders orderID
                (some { order with CurrentStatus := status, UpdatedAt := env.now })) := by
  unfold OrderStoreFake.UpdateStatus
  cases f.UpdateStatusFunc with
  | some hook => exact ⟨_, _, rfl, rfl, rfl, rfl, Or.inl rfl⟩
  | none =>
    cases hstored : w.orders orderID with
    | none => exact ⟨_, _, rfl, rfl, rfl, rfl, Or.inl rfl⟩
    | some order => exact ⟨_, _, rfl, rfl, rfl, rfl, Or.inr ⟨order, rfl, rfl, rfl⟩⟩

/-- The method `Create` of the audit log fake touches no order. -/
theorem OrderStateLogStoreFake_Create_orders (f : OrderStateLogStoreFake) (log : OrderStateLog)
    (w : World) : (f.Create log w).state.orders = w.orders := by
  unfold OrderStateLogStoreFake.Create
  cases f.CreateFunc <;> rfl

/-- The method `IncrementQuantity` of the inventory fake touches no order. -/
theorem InventoryStoreFake_IncrementQuantity_orders (f : InventoryStoreFake) (p : UUID)
    (q : Int) (w : World) : (f.IncrementQuantity p q w).state.orders = w.orders := by
  unfold InventoryStoreFake.IncrementQuantity
  cases f.IncrementQuantityFunc with
  | some hook => rfl
  | none =>
    cases hl : w.productLocks p <;> simp [hl, Run.state]

/-- The orders `UpdateOrderStatus` leaves, over the fakes with any `...Func`
fields set and any validator, however the call ends: the ones before the call,
or those with the status and `UpdatedAt` of the targeted order set. -/
theorem fakeService_UpdateOrderStatus_orders (orderStore : OrderStoreFake)
    (inventoryStore : InventoryStoreFake) (logStore : OrderStateLogStoreFake)
    (fsm : FSMValidator) (env : Env) (now : Time) (orderID : UUID) (newStatus : OrderStatus)
    (updatedBy : Int) (w : World) :
    ((fakeService orderStore inventoryStore logStore fsm env).UpdateOrderStatus now orderID
        newStatus updatedBy w).state.orders = w.orders
    ∨ ∃ order, w.orders orderID = some order
        ∧ ((fakeService orderStore inventoryStore logStore fsm env).UpdateOrderStatus now orderID
            newStatus updatedBy w).state.orders
          = setKey w.orders orderID
              (some { order with CurrentStatus := newStatus, UpdatedAt := env.now }) := by
  unfold orderService.UpdateOrderStatus
  simp only [fakeService, NewOrderService, OrderStoreFake.toStore, InventoryStoreFake.toStore,
    OrderStateLogStoreFake.toStore]
  obtain ⟨r, hr⟩ := OrderStoreFake_GetByID_ret orderStore orderID w
  rw [hr]
  simp only [Run.bind_ret]
  cases r with
  | error err => exact Or.inl rfl
  | ok order =>
    simp only []
    cases fsm.ValidateTransition order.CurrentStatus newStatus with
    | some err => exact Or.inl rfl
    | none =>
      simp only []
      by_cases hsame : order.CurrentStatus = newStatus
      · simp only [hsame, if_true]
        exact Or.inl rfl
      · simp only [hsame, if_false]
        obtain ⟨e, v, hupd, -, -, -, hv⟩ :=
          OrderStoreFake_UpdateStatus_ret orderStore env orderID newStatus w
        rw [hupd]
        simp only [Run.bind_ret]
        cases e with
        | some err =>
          simp only [Run.state]
          rcases hv with hv | ⟨o, -, hnone, -⟩
          · exact Or.inl hv
          · cases hnone
        | none =>
          simp only []
          have htail : ∀ k : Option Error → World → Run World (Except Error Order),
              (∀ a s, (k a s).state.orders = s.orders) →
              ∀ r : Run World (Option Error), r.state.orders = v.orders →
                (r.bind k).state.orders = v.orders := by
            intro k hk r hr
            cases r with
            | ret a s => simp only [Run.bind_ret]; rw [hk a s]; exact hr
            | blocked s => exact hr
            | fatal s => exact hr
          have key : ∀ X : Run World (Except Error Order), X.state.orders = v.orders →
              (X.state.orders = w.orders
                ∨ ∃ order, w.orders orderID = some order
                    ∧ X.state.orders = setKey w.orders orderID
                        (some { order with CurrentStatus := newStatus,
                                           UpdatedAt := env.now })) := by
            intro X hX
            rw [hX]
            rcases hv with hv | ⟨o, ho, -, hv⟩
            · exact Or.inl hv
            · exact Or.inr ⟨o, ho, hv⟩
          apply key
          apply htail _ _ _ (OrderStateLogStoreFake_Create_orders logStore _ v)
          intro _ w3
          have hinc : (if fsm.RequiresInventoryRestore newStatus then
                inventoryStore.IncrementQuantity order.ProductID order.Quantity w3
               else .ret none w3).state.orders = w3.orders := by
            split
            · exact InventoryStoreFake_IncrementQuantity_orders _ _ _ _
            · rfl
          generalize (if fsm.RequiresInventoryRestore newStatus then
                inventoryStore.IncrementQuantity order.ProductID order.Quantity w3
               else .ret none w3) = inc at hinc
          cases inc with
          | ret a w4 =>
            simp only [Run.bind_ret]
            obtain ⟨r2, hr2⟩ := OrderStoreFake_GetByID_ret orderStore orderID w4
            rw [hr2]
            simp only [Run.bind_ret]
            cases r2 <;> exact hinc
          | blocked s => exact hinc
          | fatal s => exact hinc

/-- Claim C28. Whatever `UpdateOrderStatus` does, and however it ends, over
the fakes with any `...Func` fields set and any validator: every order stored
before the call is stored afterwards, with the same `ID`, `UserID`,
`ProductID`, `Quantity`, `Metadata` and `CreatedAt`; an order other than the
targeted one is unchanged altogether; and no order appears. -/
theorem UpdateOrderStatus_frame (orderStore : OrderStoreFake)
    (inventoryStore : InventoryStoreFake) (logStore : OrderStateLogStoreFake)
    (fsm : FSMValidator) (env : Env) (now : Time) (orderID : UUID) (newStatus : OrderStatus)
    (updatedBy : Int) (w : World) :
    (∀ k o, w.orders k = some o →
      ∃ o1, ((fakeService orderStore inventoryStore logStore fsm env).UpdateOrderStatus now
                orderID newStatus updatedBy w).state.orders k = some o1
        ∧ o1.ID = o.ID ∧ o1.UserID = o.UserID ∧ o1.ProductID = o.ProductID
        ∧ o1.Quantity = o.Quantity ∧ o1.Metadata = o.Metadata ∧ o1.CreatedAt = o.CreatedAt
        ∧ (k ≠ orderID → o1 = o))
    ∧ (∀ k, w.orders k = none →
        ((fakeService orderStore inventoryStore logStore fsm env).UpdateOrderStatus now
            orderID newStatus updatedBy w).state.orders k = none) := by
  rcases fakeService_UpdateOrderStatus_orders orderStore inventoryStore logStore fsm env now
      orderID newStatus updatedBy w with h | ⟨order, hstored, h⟩
  · rw [h]
    exact ⟨fun k o ho => ⟨o, ho, rfl, rfl, rfl, rfl, rfl, rfl, fun _ => rfl⟩, fun k hk => hk⟩
  · rw [h]
    constructor
    · intro k o ho
      by_cases hk : k = orderID
      · subst hk
        rw [hstored] at ho
        cases ho
        exact ⟨{ order with CurrentStatus := newStatus, UpdatedAt := env.now }, by simp [setKey],
          rfl, rfl, rfl, rfl, rfl, rfl, fun hne => absurd rfl hne⟩
      · exact ⟨o, by simp [setKey, hk, ho], rfl, rfl, rfl, rfl, rfl, rfl, fun _ => rfl⟩
    · intro k hnone
      by_cases hk : k = orderID
      · subst hk
        rw [hstored] at hnone
        cases hnone
      · simp [setKey, hk, hnone]

/-! ## Histories are paths of the state machine -/

/-- What `CreateOrder` on the plain fakes leaves when it returns an order: the
order is stored under the identifier handed out, it is ORDERED, and the audit
log is as before. -/
theorem plainService_CreateOrder_returned (env : Env) (userID : Int) (p : UUID) (q : Int)
    (md : JSONB) (w w1 : World) (order : Order)
    (hrun : (plainService env).CreateOrder userID p q md w = .ret (.ok order) w1) :
    order.ID = env.newID ∧ order.CurrentStatus = OrderStatusOrdered
    ∧ w1.orders env.newID = some order
    ∧ w1.orderStateLogs = w.orderStateLogs := by
  have hlogs := plainService_CreateOrder_logs env userID p q md w
  rw [hrun] at hlogs
  by_cases hu : userID ≤ 0
  · simp [orderService.CreateOrder, hu] at hrun
  by_cases hq : q ≤ 0
  · simp [orderService.CreateOrder, hu, hq] at hrun
  cases hl : w.productLocks p with
  | true =>
    simp [orderService.CreateOrder, hu, hq, plainService, fakeService, NewOrderService,
      InventoryStoreFake.toStore, InventoryStoreFake.LockForUpdate, InventoryStoreFake.plain, hl]
      at hrun
  | false =>
    obtain ⟨inv, v, -, -, -, -, -, -, -, -, hins, hok⟩ :=
      CreateOrder_plain_inventory (OrderStoreFake.plain.toStore env)
        OrderStateLogStoreFake.plain.toStore NewValidator userID p q md w
        (by omega) (by omega) hl
    rw [← plainService_eq] at hins hok
    by_cases hlt : stock w p < q
    · rw [hins hlt] at hrun
      simp at hrun
    · rw [hok hlt] at hrun
      simp only [OrderStoreFake.toStore, OrderStoreFake.Create, OrderStoreFake.plain, uuidNil,
        Run.bind_ret, if_true] at hrun
      injection hrun with hval hstate
      injection hval with hval
      subst hval
      subst hstate
      exact ⟨rfl, rfl, by simp [setKey], hlogs⟩

/-- Claim C29. An order that `CreateOrder` on the plain fakes returned (under
an identifier with no audit entries yet) and that any run of `CreateOrder` and
`UpdateOrderStatus` calls on the plain fakes has followed (no `CreateOrder` of
the run handed the identifier of the order again) is still stored, and its
history is a path of the state machine from ORDERED to its current status: the
history is empty and the order ORDERED; or it is the one entry ORDERED to
SHIPPED and the order SHIPPED; or the two entries ORDERED to SHIPPED and
SHIPPED to DELIVERED and the order DELIVERED; or the one entry ORDERED to
CANCELLED and the order CANCELLED. So the first entry starts from ORDERED,
every entry starts from the status the one before it ended in, every entry is
one of the three allowed changes of status, the last entry ends in the current
status of the order, and the history never has more than two entries. -/
theorem history_is_path (c : CreateCall) (p : UUID) (w w1 : World) (order : Order)
    (ops : List Op)
    (hcreate : (plainService c.env).CreateOrder c.userID p c.quantity c.metadata w
      = .ret (.ok order) w1)
    (hfresh : w.orderStateLogs c.env.newID = none)
    (hids : ∀ c2 p2, Op.create c2 p2 ∈ ops → c2.env.newID ≠ order.ID) :
    ∃ (stored : Order) (logs : List OrderStateLog),
      (runOps ops w1).orders order.ID = some stored
      ∧ (plainService c.env).GetOrderHistory order.ID (runOps ops w1)
          = .ret (.ok logs) (runOps ops w1)
      ∧ (∀ e, logs.head? = some e → e.PreviousStatus = OrderStatusOrdered)
      ∧ List.Chain' (fun a b => b.PreviousStatus = a.NewStatus) logs
      ∧ (∀ e ∈ logs,
          (e.PreviousStatus = OrderStatusOrdered ∧ e.NewStatus = OrderStatusShipped)
          ∨ (e.PreviousStatus = OrderStatusOrdered ∧ e.NewStatus = OrderStatusCancelled)
          ∨ (e.PreviousStatus = OrderStatusShipped ∧ e.NewStatus = OrderStatusDelivered))
      ∧ (∀ e, logs.getLast? = some e → e.NewStatus = stored.CurrentStatus)
      ∧ (logs = [] → stored.CurrentStatus = OrderStatusOrdered)
      ∧ logs.length ≤ 2
      ∧ ((logs = [] ∧ stored.CurrentStatus = OrderStatusOrdered)
        ∨ (∃ e, logs = [e]
            ∧ e.PreviousStatus = OrderStatusOrdered ∧ e.NewStatus = OrderStatusShipped
            ∧ stored.CurrentStatus = OrderStatusShipped)
        ∨ (∃ e1 e2, logs = [e1, e2]
            ∧ e1.PreviousStatus = OrderStatusOrdered ∧ e1.NewStatus = OrderStatusShipped
            ∧ e2.PreviousStatus = OrderStatusShipped ∧ e2.NewStatus = OrderStatusDelivered
            ∧ stored.CurrentStatus = OrderStatusDelivered)
        ∨ (∃ e, logs = [e]
            ∧ e.PreviousStatus = OrderStatusOrdered ∧ e.NewStatus = OrderStatusCancelled
            ∧ stored.CurrentStatus = OrderStatusCancelled)) := by
  obtain ⟨hid, hstatus, hstored, hlogs⟩ :=
    plainService_CreateOrder_returned c.env c.userID p c.quantity c.metadata w w1 order hcreate
  have hinv := runOps_induct
    (fun u => ∃ stored : Order, u.orders order.ID = some stored
      ∧ ((history u order.ID = [] ∧ stored.CurrentStatus = OrderStatusOrdered)
        ∨ (∃ e, history u order.ID = [e]
            ∧ e.PreviousStatus = OrderStatusOrdered ∧ e.NewStatus = OrderStatusShipped
            ∧ stored.CurrentStatus = OrderStatusShipped)
        ∨ (∃ e1 e2, history u order.ID = [e1, e2]
            ∧ e1.PreviousStatus = OrderStatusOrdered ∧ e1.NewStatus = OrderStatusShipped
            ∧ e2.PreviousStatus = OrderStatusShipped ∧ e2.NewStatus = OrderStatusDelivered
            ∧ stored.CurrentStatus = OrderStatusDelivered)
        ∨ (∃ e, history u order.ID = [e]
            ∧ e.PreviousStatus = OrderStatusOrdered ∧ e.NewStatus = OrderStatusCancelled
            ∧ stored.CurrentStatus = OrderStatusCancelled)))
    ops ?_ w1 ?_
  · obtain ⟨stored, hs, hpath⟩ := hinv
    refine ⟨stored, history (runOps ops w1) order.ID, hs,
      plainService_GetOrderHistory c.env order.ID (runOps ops w1), ?_⟩
    generalize history (runOps ops w1) order.ID = logs at hpath
    refine ⟨?_, ?_, ?_, ?_, ?_, ?_, hpath⟩
    · rcases hpath with ⟨h, -⟩ | ⟨e, h, hp, -⟩ | ⟨e1, e2, h, hp, -⟩ | ⟨e, h, hp, -⟩ <;>
        subst h <;> intro a ha <;> simp at ha
      · subst ha; exact hp
      · subst ha; exact hp
      · subst ha; exact hp
    · rcases hpath with ⟨h, -⟩ | ⟨e, h, -⟩ | ⟨e1, e2, h, -, hn, hp, -⟩ | ⟨e, h, -⟩ <;>
        subst h <;> simp
      rw [hp, hn]
    · rcases hpath with ⟨h, -⟩ | ⟨e, h, hp, hn, -⟩ | ⟨e1, e2, h, hp1, hn1, hp2, hn2, -⟩
          | ⟨e, h, hp, hn, -⟩ <;>
        subst h <;> intro a ha <;> simp at ha
      · subst ha; exact Or.inl ⟨hp, hn⟩
      · rcases ha with rfl | rfl
        · exact Or.inl ⟨hp1, hn1⟩
        · exact Or.inr (Or.inr ⟨hp2, hn2⟩)
      · subst ha; exact Or.inr (Or.inl ⟨hp, hn⟩)
    · rcases hpath with ⟨h, -⟩ | ⟨e, h, -, hn, hst⟩ | ⟨e1, e2, h, -, -, -, hn, hst⟩
          | ⟨e, h, -, hn, hst⟩ <;>
        subst h <;> intro a ha <;> simp at ha
      · subst ha; rw [hn, hst]
      · subst ha; rw [hn, hst]
      · subst ha; rw [hn, hst]
    · rcases hpath with ⟨-, hst⟩ | ⟨e, h, -⟩ | ⟨e1, e2, h, -⟩ | ⟨e, h, -⟩
      · exact fun _ => hst
      · subst h; intro h0; simp at h0
      · subst h; intro h0; simp at h0
      · subst h; intro h0; simp at h0
    · rcases hpath with ⟨h, -⟩ | ⟨e, h, -⟩ | ⟨e1, e2, h, -⟩ | ⟨e, h, -⟩ <;> simp [h]
  · intro op hop u hu
    obtain ⟨stored, hs, hpath⟩ := hu
    cases op with
    | create c2 p2 =>
      have hne : order.ID ≠ c2.env.newID := fun h => hids c2 p2 hop h.symm
      have ho := plainService_CreateOrder_orders c2.env c2.userID p2 c2.quantity c2.metadata u
        order.ID hne
      have hl := plainService_CreateOrder_logs c2.env c2.userID p2 c2.quantity c2.metadata u
      refine ⟨stored, ?_, ?_⟩
      · simp only [runOp]
        rw [ho]
        exact hs
      · simp only [runOp, history_eq, hl]
        simp only [history_eq] at hpath
        exact hpath
    | update env now orderID newStatus updatedBy =>
      rcases plainService_UpdateOrderStatus_cases env now orderID newStatus updatedBy u with
        ⟨msg, hrun⟩ | ⟨o, -, -, hrun⟩ | ⟨o, hstored2, hval, hne⟩
      · simp only [runOp, hrun, Run.state]
        exact ⟨stored, hs, hpath⟩
      · simp only [runOp, hrun, Run.state]
        exact ⟨stored, hs, hpath⟩
      · obtain ⟨hord, hlg, -⟩ := plainService_UpdateOrderStatus_books env now orderID newStatus
          updatedBy u o hstored2 hval hne
        simp only [runOp]
        by_cases hk : order.ID = orderID
        · subst hk
          rw [hs] at hstored2
          cases hstored2
          refine ⟨{ stored with CurrentStatus := newStatus, UpdatedAt := env.now }, ?_, ?_⟩
          · rw [hord]
            simp [setKey]
          · have hh : history ((plainService env).UpdateOrderStatus now order.ID newStatus
                updatedBy u).state order.ID
                = history u order.ID
                  ++ [{ ID := uuidNil, OrderID := order.ID,
                        PreviousStatus := stored.CurrentStatus, NewStatus := newStatus,
                        UpdatedBy := updatedBy, UpdatedAt := now }] := by
              rw [history_eq, hlg]
              simp [setKey]
            rw [hh]
            rcases ValidateTransition_allowed stored.CurrentStatus newStatus hval hne with
              ⟨hc, ht⟩ | ⟨hc, ht⟩ | ⟨hc, ht⟩
            · rcases hpath with ⟨h, -⟩ | ⟨e, -, -, -, hst⟩ | ⟨e1, e2, -, -, -, -, -, hst⟩
                | ⟨e, -, -, -, hst⟩
              · right; left
                exact ⟨_, by rw [h]; rfl, hc, ht, ht⟩
              · rw [hst] at hc; exact absurd hc (by decide)
              · rw [hst] at hc; exact absurd hc (by decide)
              · rw [hst] at hc; exact absurd hc (by decide)
            · rcases hpath with ⟨h, -⟩ | ⟨e, -, -, -, hst⟩ | ⟨e1, e2, -, -, -, -, -, hst⟩
                | ⟨e, -, -, -, hst⟩
              · right; right; right
                exact ⟨_, by rw [h]; rfl, hc, ht, ht⟩
              · rw [hst] at hc; exact absurd hc (by decide)
              · rw [hst] at hc; exact absurd hc (by decide)
              · rw [hst] at hc; exact absurd hc (by decide)
            · rcases hpath with ⟨-, hst⟩ | ⟨e, h, hp, hn, -⟩ | ⟨e1, e2, -, -, -, -, -, hst⟩
                | ⟨e, -, -, -, hst⟩
              · rw [hst] at hc; exact absurd hc (by decide)
              · right; right; left
                exact ⟨e, _, by rw [h]; rfl, hp, hn, hc, ht, ht⟩
              · rw [hst] at hc; exact absurd hc (by decide)
              · rw [hst] at hc; exact absurd hc (by decide)
        · refine ⟨stored, ?_, ?_⟩
          · rw [hord]
            simp [setKey, hk, hs]
          · have hh : history ((plainService env).UpdateOrderStatus now orderID newStatus
                updatedBy u).state order.ID = history u order.ID := by
              rw [history_eq, hlg]
              simp only [setKey, hk, if_false]
              rw [← history_eq]
            rw [hh]
            exact hpath
  · refine ⟨order, ?_, Or.inl ⟨?_, hstatus⟩⟩
    · rw [hid]; exact hstored
    · rw [history_eq, hlogs, hid, hfresh]

/-- Claim C29 at an order of 60 units of product 7 that is shipped and then
delivered: it ends with two entries and is DELIVERED. -/
theorem history_is_path_witness :
    ∃ (order : Order) (w1 : World) (stored : Order) (logs : List OrderStateLog),
      (plainService sampleEnv).CreateOrder 5 7 60 [] sampleWorld = .ret (.ok order) w1
      ∧ (runOps [Op.update sampleEnv 3 12 OrderStatusShipped 1,
                 Op.update sampleEnv 4 12 OrderStatusDelivered 1] w1).orders order.ID
          = some stored
      ∧ (plainService sampleEnv).GetOrderHistory order.ID
            (runOps [Op.update sampleEnv 3 12 OrderStatusShipped 1,
                     Op.update sampleEnv 4 12 OrderStatusDelivered 1] w1)
          = .ret (.ok logs)
              (runOps [Op.update sampleEnv 3 12 OrderStatusShipped 1,
                       Op.update sampleEnv 4 12 OrderStatusDelivered 1] w1)
      ∧ logs.length ≤ 2 := by
  obtain ⟨order, w1, hrun⟩ : ∃ order w1,
      (plainService sampleCall.env).CreateOrder sampleCall.userID 7 sampleCall.quantity
        sampleCall.metadata sampleWorld = .ret (.ok order) w1 := by
    obtain ⟨v, hv, -⟩ := plainService_CreateOrder_ok sampleEnv 5 7 60 [] sampleWorld
      (by decide) (by decide) rfl (by decide) (by decide)
    exact ⟨_, v, hv⟩
  obtain ⟨stored, logs, hs, hget, -, -, -, -, -, hlen, -⟩ :=
    history_is_path sampleCall 7 sampleWorld w1 order
      [Op.update sampleEnv 3 12 OrderStatusShipped 1,
       Op.update sampleEnv 4 12 OrderStatusDelivered 1] hrun rfl (by simp)
  exact ⟨order, w1, stored, logs, hrun, hs, hget, hlen⟩

/-! ## Failures of `UpdateOrderStatus` -/

/-- Claim C30 does not hold as stated: over an order store whose re-read of the
cancelled order fails, cancelling the sample order returns an error, yet the
stored status has become CANCELLED, the audit entry is appended and the 3 units
are back on product 7. -/
theorem UpdateOrderStatus_failure_counterexample :
    ∃ w1 : World,
      (hidingService sampleEnv).UpdateOrderStatus 4 11 OrderStatusCancelled 9 sampleWorld
        = .ret (.error "failed to fetch updated order: record not found") w1
      ∧ sampleWorld.orders 11 = some sampleOrder
      ∧ sampleOrder.CurrentStatus = OrderStatusOrdered
      ∧ w1.orders 11
          = some { sampleOrder with CurrentStatus := OrderStatusCancelled, UpdatedAt := 2 }
      ∧ history sampleWorld 11 = []
      ∧ history w1 11
          = [{ ID := uuidNil, OrderID := 11, PreviousStatus := OrderStatusOrdered,
               NewStatus := OrderStatusCancelled, UpdatedBy := 9, UpdatedAt := 4 }]
      ∧ stock sampleWorld 7 = 100
      ∧ stock w1 7 = 103 := by
  refine ⟨{ sampleWorld with
      inventoryMap := setKey sampleWorld.inventoryMap 7 (some { ProductID := 7, Quantity := 103 }),
      orders := setKey sampleWorld.orders 11
        (some { sampleOrder with CurrentStatus := OrderStatusCancelled, UpdatedAt := 2 }),
      orderStateLogs := setKey sampleWorld.orderStateLogs 11
        (some [{ ID := uuidNil, OrderID := 11, PreviousStatus := OrderStatusOrdered,
                 NewStatus := OrderStatusCancelled, UpdatedBy := 9, UpdatedAt := 4 }]) },
    ?_, rfl, rfl, ?_, rfl, ?_, ?_, ?_⟩
  · unfold orderService.UpdateOrderStatus
    simp [hidingService, hidingOrderStore, NewOrderService, NewValidator, ValidateTransition,
      StateTransition, List.lookup, RequiresInventoryRestore,
      OrderStoreFake.UpdateStatus, OrderStoreFake.plain, OrderStateLogStoreFake.toStore,
      OrderStateLogStoreFake.Create, OrderStateLogStoreFake.plain, InventoryStoreFake.toStore,
      InventoryStoreFake.IncrementQuantity, InventoryStoreFake.plain, sampleWorld, sampleOrder,
      sampleEnv, World.empty, setKey, wrapInt, OrderStatusOrdered, OrderStatusCancelled,
      OrderStatusShipped, OrderStatusDelivered]
  · simp [setKey]
  · simp [history_eq, setKey]
  · simp [stock_eq, sampleWorld, setKey]
  · simp [stock_eq, setKey]

/-- Claim C30, amended. For arbitrary store collaborators and any validator,
`UpdateOrderStatus` returns an error at one of four points only. (1) The order
could not be read: "order not found", and nothing but that read was done.
(2) The validator refused: "invalid transition", and nothing but that read was
done. (3) `UpdateStatus` failed: "failed to update order status", and nothing
but the read and that call was done. In these three the audit log store and the
inventory store were not called, so the call appended no audit entry and changed
no inventory. (4) The re-read at the end failed: "failed to fetch updated
order", returned after `UpdateStatus` returned `nil`, the audit entry was handed
to its store and, for a status that needs it, the quantity was handed back;
none of that is undone. -/
theorem UpdateOrderStatus_failure {σ : Type} (s : orderService σ) (now : Time)
    (orderID : UUID) (newStatus : OrderStatus) (updatedBy : Int) (w w5 : σ) (msg : Error)
    (hret : s.UpdateOrderStatus now orderID newStatus updatedBy w = .ret (.error msg) w5) :
    (∃ err, s.orderStore.GetByID orderID w = .ret (.error err) w5
      ∧ msg = "order not found: " ++ err)
    ∨ (∃ order err, s.orderStore.GetByID orderID w = .ret (.ok order) w5
      ∧ s.fsmValidator.ValidateTransition order.CurrentStatus newStatus = some err
      ∧ msg = "invalid transition from " ++ order.CurrentStatus ++ " to " ++ newStatus
          ++ ": " ++ err)
    ∨ (∃ order w1 err, s.orderStore.GetByID orderID w = .ret (.ok order) w1
      ∧ s.fsmValidator.ValidateTransition order.CurrentStatus newStatus = none
      ∧ order.CurrentStatus ≠ newStatus
      ∧ s.orderStore.UpdateStatus orderID newStatus w1 = .ret (some err) w5
      ∧ msg = "failed to update order status: " ++ err)
    ∨ (∃ order w1 w2 logErr w3 restoreErr w4 err,
      s.orderStore.GetByID orderID w = .ret (.ok order) w1
      ∧ s.fsmValidator.ValidateTransition order.CurrentStatus newStatus = none
      ∧ order.CurrentStatus ≠ newStatus
      ∧ s.orderStore.UpdateStatus orderID newStatus w1 = .ret none w2
      ∧ s.orderStateLogStore.Create
          { ID := uuidNil, OrderID := orderID, PreviousStatus := order.CurrentStatus,
            NewStatus := newStatus, UpdatedBy := updatedBy, UpdatedAt := now } w2
          = .ret logErr w3
      ∧ (if s.fsmValidator.RequiresInventoryRestore newStatus then
          s.inventoryStore.IncrementQuantity order.ProductID order.Quantity w3
         else .ret none w3) = .ret restoreErr w4
      ∧ s.orderStore.GetByID orderID w4 = .ret (.error err) w5
      ∧ msg = "failed to fetch updated order: " ++ err) := by
  unfold orderService.UpdateOrderStatus at hret
  cases hget : s.orderStore.GetByID orderID w with
  | blocked v => simp [hget, Run.bind] at hret
  | fatal v => simp [hget, Run.bind] at hret
  | ret fetched w1 =>
    rw [hget] at hret
    simp only [Run.bind_ret] at hret
    cases fetched with
    | error err =>
      simp only [] at hret
      injection hret with hval hstate
      injection hval with hval
      subst hstate
      exact Or.inl ⟨err, rfl, hval.symm⟩
    | ok order =>
      simp only [] at hret
      cases hv : s.fsmValidator.ValidateTransition order.CurrentStatus newStatus with
      | some err =>
        rw [hv] at hret
        simp only [] at hret
        injection hret with hval hstate
        injection hval with hval
        subst hstate
        exact Or.inr (Or.inl ⟨order, err, rfl, hv, hval.symm⟩)
      | none =>
        rw [hv] at hret
        simp only [] at hret
        by_cases hsame : order.CurrentStatus = newStatus
        · simp [hsame] at hret
        · simp only [hsame, if_false] at hret
          cases hupd : s.orderStore.UpdateStatus orderID newStatus w1 with
          | blocked v => simp [hupd, Run.bind] at hret
          | fatal v => simp [hupd, Run.bind] at hret
          | ret updErr w2 =>
            rw [hupd] at hret
            simp only [Run.bind_ret] at hret
            cases updErr with
            | some err =>
              simp only [] at hret
              injection hret with hval hstate
              injection hval with hval
              subst hstate
              exact Or.inr (Or.inr (Or.inl ⟨order, w1, err, rfl, hv, hsame, hupd, hval.symm⟩))
            | none =>
              simp only [] at hret
              cases hlog : s.orderStateLogStore.Create
                  { ID := uuidNil, OrderID := orderID, PreviousStatus := order.CurrentStatus,
                    NewStatus := newStatus, UpdatedBy := updatedBy, UpdatedAt := now } w2 with
              | blocked v => simp [hlog, Run.bind] at hret
              | fatal v => simp [hlog, Run.bind] at hret
              | ret logErr w3 =>
                rw [hlog] at hret
                simp only [Run.bind_ret] at hret
                cases hinc : (if s.fsmValidator.RequiresInventoryRestore newStatus then
                    s.inventoryStore.IncrementQuantity order.ProductID order.Quantity w3
                   else .ret none w3) with
                | blocked v => simp [hinc, Run.bind] at hret
                | fatal v => simp [hinc, Run.bind] at hret
                | ret restoreErr w4 =>
                  rw [hinc] at hret
                  simp only [Run.bind_ret] at hret
                  cases hget2 : s.orderStore.GetByID orderID w4 with
                  | blocked v => simp [hget2, Run.bind] at hret
                  | fatal v => simp [hget2, Run.bind] at hret
                  | ret refetched w6 =>
                    rw [hget2] at hret
                    simp only [Run.bind_ret] at hret
                    cases refetched with
                    | ok updated => simp at hret
                    | error err =>
                      simp only [] at hret
                      injection hret with hval hstate
                      injection hval with hval
                      subst hstate
                      exact Or.inr (Or.inr (Or.inr ⟨order, w1, w2, logErr, w3, restoreErr, w4,
                        err, rfl, hv, hsame, hupd, hlog, hinc, hget2, hval.symm⟩))

/-- The amended claim C30 at the rejected move of the sample order from ORDERED
to DELIVERED: the error is the validator's, returned in the state the read
left. -/
theorem UpdateOrderStatus_failure_witness :
    (plainService sampleEnv).UpdateOrderStatus 4 11 OrderStatusDelivered 9 sampleWorld
      = .ret (.error ("invalid transition from ORDERED to DELIVERED"
          ++ ": invalid transition from ORDERED to DELIVERED")) sampleWorld
    ∧ ((∃ err, (plainService sampleEnv).orderStore.GetByID 11 sampleWorld
          = .ret (.error err) sampleWorld)
      ∨ (∃ order err, (plainService sampleEnv).orderStore.GetByID 11 sampleWorld
          = .ret (.ok order) sampleWorld
        ∧ (plainService sampleEnv).fsmValidator.ValidateTransition order.CurrentStatus
            OrderStatusDelivered = some err)) := by
  have hrun : (plainService sampleEnv).UpdateOrderStatus 4 11 OrderStatusDelivered 9 sampleWorld
      = .ret (.error ("invalid transition from ORDERED to DELIVERED"
          ++ ": invalid transition from ORDERED to DELIVERED")) sampleWorld := by
    unfold orderService.UpdateOrderStatus
    simp [plainService, fakeService, NewOrderService, OrderStoreFake.toStore,
      OrderStoreFake.GetByID, OrderStoreFake.plain, NewValidator, ValidateTransition,
      StateTransition, List.lookup, sampleWorld, sampleOrder, World.empty, setKey,
      OrderStatusOrdered, OrderStatusCancelled, OrderStatusShipped, OrderStatusDelivered]
  refine ⟨hrun, ?_⟩
  rcases UpdateOrderStatus_failure (plainService sampleEnv) 4 11 OrderStatusDelivered 9
      sampleWorld sampleWorld _ hrun with
    ⟨err, h, -⟩ | ⟨order, err, h, hv, -⟩ | ⟨order, w1, err, h, hv, -⟩
      | ⟨order, w1, w2, logErr, w3, restoreErr, w4, err, h, hv, -⟩
  · exact Or.inl ⟨err, h⟩
  · exact Or.inr ⟨order, err, h, hv⟩
  · exfalso
    have h0 : (plainService sampleEnv).orderStore.GetByID 11 sampleWorld
        = .ret (.ok sampleOrder) sampleWorld := rfl
    rw [h0] at h
    injection h with h1 h2
    injection h1 with h1
    subst h1
    revert hv
    decide
  · exfalso
    have h0 : (plainService sampleEnv).orderStore.GetByID 11 sampleWorld
        = .ret (.ok sampleOrder) sampleWorld := rfl
    rw [h0] at h
    injection h with h1 h2
    injection h1 with h1
    subst h1
    revert hv
    decide

/-! ## HTTP layer -/

/-- A slice shorter than a literal is never equal to it. -/
theorem goSlice_ne (s lit : String) (n : Nat) (h : n < goLen lit) :
    goSlice s n ≠ goBytes lit := by
  intro heq
  have hlen := congrArg List.length heq
  unfold goSlice goLen at *
  rw [List.length_take] at hlen
  omega

/-- A message that begins "invalid transition" is not the message "order not
found". -/
theorem invalid_transition_ne_not_found (rest : String) :
    "invalid transition" ++ rest ≠ "order not found" := by
  intro h
  have h2 := congrArg String.data h
  simp at h2

/-- Claim C25: what the code does instead. Whatever error the service's
`CreateOrder` returns for a well-formed request of a regular user, also one
whose message begins "insufficient inventory", `OrderController.CreateOrder`
answers 500 with the code "internal_error": the comparison of the first 20
bytes of the message with the 22 bytes of "insufficient inventory" never
holds. -/
theorem CreateOrder_handler_insufficient_inventory {σ : Type} (svc : OrderService σ)
    (lib : Library) (r : Request) (w w1 : σ) (req : CreateOrderRequest) (productID : UUID)
    (rest : String)
    (huser : getUserIDFromContext r.ctx ≠ 0)
    (hrole : getUserRoleFromContext r.ctx ≠ "admin")
    (hbody : lib.decodeCreateOrderRequest r.Body = some req)
    (hqty : 0 < req.Quantity)
    (hparse : lib.uuidParse req.ProductID = some productID)
    (hfail : svc.CreateOrder (getUserIDFromContext r.ctx) productID req.Quantity
        (match req.ShippingAddress with
         | some address => address
         | none => []) w
      = .ret (.error ("insufficient inventory" ++ rest)) w1) :
    (NewOrderController svc).CreateOrder lib r w
      = .ret (WriteErrorResponse StatusInternalServerError "internal_error"
          ("Failed to create order: " ++ ("insufficient inventory" ++ rest))) w1 := by
  have hdead : ¬ (goLen ("insufficient inventory" ++ rest) > 20
      ∧ goSlice ("insufficient inventory" ++ rest) 20 = goBytes "insufficient inventory") :=
    fun h => goSlice_ne _ "insufficient inventory" 20 (by decide) h.2
  have hq : ¬ req.Quantity ≤ 0 := by omega
  unfold OrderController.CreateOrder
  simp only [NewOrderController, huser, hrole, hbody, hq, hparse, hfail, if_false,
    Run.bind_ret, hdead]

/-- Claim C25 at the request of user 5 for 150 units of product 7, of which
there are 100: the service refuses with "insufficient inventory: requested 150,
available 100" and the handler answers 500 "internal_error". -/
theorem CreateOrder_handler_insufficient_inventory_witness :
    ∃ w1 : World,
      (plainService sampleEnv).CreateOrder 5 7 150 [] sampleWorld
        = .ret (.error "insufficient inventory: requested 150, available 100") w1
      ∧ sampleController.CreateOrder sampleLibrary sampleCreateRequest sampleWorld
        = .ret (WriteErrorResponse StatusInternalServerError "internal_error"
            "Failed to create order: insufficient inventory: requested 150, available 100")
            w1 := by
  obtain ⟨inv, w1, -, -, -, -, -, -, -, -, hins, -⟩ :=
    CreateOrder_plain_inventory (OrderStoreFake.plain.toStore sampleEnv)
      OrderStateLogStoreFake.plain.toStore NewValidator 5 7 150 [] sampleWorld
      (by decide) (by decide) rfl
  rw [← plainService_eq] at hins
  have hs : stock sampleWorld 7 = 100 := by decide
  have hmsg : "insufficient inventory: requested " ++ fmtInt 150 ++ ", available "
      ++ fmtInt 100 = "insufficient inventory" ++ ": requested 150, available 100" := by
    decide
  have hrun : (plainService sampleEnv).CreateOrder 5 7 150 [] sampleWorld
      = .ret (.error ("insufficient inventory" ++ ": requested 150, available 100")) w1 := by
    rw [hins (by decide), hs, hmsg]
  have hanswer :=
    CreateOrder_handler_insufficient_inventory ((plainService sampleEnv).toService 4)
      sampleLibrary sampleCreateRequest sampleWorld w1
      { ProductID := "7", Quantity := 150, ShippingAddress := none } 7
      ": requested 150, available 100"
      (by decide) (by decide) rfl (by decide) rfl hrun
  exact ⟨w1, hrun, hanswer⟩

/-- Claim C24: what the code does instead. When the service's
`UpdateOrderStatus` fails with a message that begins "invalid transition", on a
request that passed the checks of the handler, `OrderController.UpdateOrderStatus`
answers 500 with the code "internal_error": the comparison of the first 15
bytes of the message with the 18 bytes of "invalid transition" never holds. -/
theorem UpdateOrderStatus_handler_invalid_transition {σ : Type} (svc : OrderService σ)
    (lib : Library) (r : Request) (w w1 w2 : σ) (req : UpdateOrderStatusRequest)
    (orderUUID : UUID) (currentOrder : Order) (rest : String)
    (hbody : lib.decodeUpdateOrderStatusRequest r.Body = some req)
    (hparse : lib.uuidParse (r.vars "orderId") = some orderUUID)
    (hvalid : isValidOrderStatus req.CurrentStatus = true)
    (hget : svc.GetOrderByID orderUUID w = .ret (.ok currentOrder) w1)
    (hpolicy : (getUserRoleFromContext r.ctx = "admin"
        ∧ (req.CurrentStatus = OrderStatusShipped ∨ req.CurrentStatus = OrderStatusDelivered))
      ∨ (getUserRoleFromContext r.ctx ≠ "admin" ∧ req.CurrentStatus = OrderStatusCancelled
        ∧ currentOrder.CurrentStatus = OrderStatusOrdered))
    (hfail : svc.UpdateOrderStatus orderUUID req.CurrentStatus (getUserIDFromContext r.ctx) w1
      = .ret (.error ("invalid transition" ++ rest)) w2) :
    (NewOrderController svc).UpdateOrderStatus lib r w
      = .ret (WriteErrorResponse StatusInternalServerError "internal_error"
          "Failed to update order status") w2 := by
  have hdead1 : ¬ (goLen ("invalid transition" ++ rest) > 15
      ∧ goSlice ("invalid transition" ++ rest) 15 = goBytes "invalid transition") :=
    fun h => goSlice_ne _ "invalid transition" 15 (by decide) h.2
  have hdead2 : ¬ ("invalid transition" ++ rest = "order not found"
      ∨ (goLen ("invalid transition" ++ rest) > 13
        ∧ goSlice ("invalid transition" ++ rest) 13 = goBytes "order not found")) := by
    rintro (h | h)
    · exact invalid_transition_ne_not_found rest h
    · exact goSlice_ne _ "order not found" 13 (by decide) h.2
  unfold OrderController.UpdateOrderStatus
  simp only [NewOrderController, hbody, hparse, hvalid, hget, Run.bind_ret, hfail]
  rcases hpolicy with ⟨hadmin, hst | hst⟩ | ⟨huser, hst, hcur⟩
  · simp [hadmin, hst, hdead1, hdead2, OrderStatusShipped, OrderStatusDelivered]
  · simp [hadmin, hst, hdead1, hdead2, OrderStatusShipped, OrderStatusDelivered]
  · simp [huser, hst, hcur, hdead1, hdead2]

/-- Claim C24 at the request of an admin to set the sample order, which is
ORDERED, to DELIVERED: the service refuses with "invalid transition from ORDERED
to DELIVERED: ..." and the handler answers 500 "internal_error". -/
theorem UpdateOrderStatus_handler_invalid_transition_witness :
    (plainService sampleEnv).UpdateOrderStatus 4 11 OrderStatusDelivered 1 sampleWorld
      = .ret (.error ("invalid transition" ++ (" from ORDERED to DELIVERED"
          ++ ": invalid transition from ORDERED to DELIVERED"))) sampleWorld
    ∧ sampleController.UpdateOrderStatus sampleLibrary sampleDeliverRequest sampleWorld
      = .ret (WriteErrorResponse StatusInternalServerError "internal_error"
          "Failed to update order status") sampleWorld := by
  have hrun : (plainService sampleEnv).UpdateOrderStatus 4 11 OrderStatusDelivered 1 sampleWorld
      = .ret (.error ("invalid transition" ++ (" from ORDERED to DELIVERED"
          ++ ": invalid transition from ORDERED to DELIVERED"))) sampleWorld := by
    unfold orderService.UpdateOrderStatus
    simp [plainService, fakeService, NewOrderService, OrderStoreFake.toStore,
      OrderStoreFake.GetByID, OrderStoreFake.plain, NewValidator, ValidateTransition,
      StateTransition, List.lookup, sampleWorld, sampleOrder, World.empty, setKey,
      OrderStatusOrdered, OrderStatusCancelled, OrderStatusShipped, OrderStatusDelivered]
  exact ⟨hrun,
    UpdateOrderStatus_handler_invalid_transition ((plainService sampleEnv).toService 4)
      sampleLibrary sampleDeliverRequest sampleWorld sampleWorld sampleWorld
      { CurrentStatus := "DELIVERED" } 11 sampleOrder
      (" from ORDERED to DELIVERED" ++ ": invalid transition from ORDERED to DELIVERED")
      rfl rfl (by decide) rfl (Or.inl ⟨rfl, Or.inr rfl⟩) hrun⟩

/-- Claim C26 does not hold as stated: an admin asks to set the sample order,
which exists, to `FOO`. The target is neither SHIPPED nor DELIVERED, yet the
answer is 400 with the code "invalid_request", not 403. -/
theorem UpdateOrderStatus_handler_role_policy_counterexample :
    sampleController.orderService.GetOrderByID 11 sampleWorld
      = .ret (.ok sampleOrder) sampleWorld
    ∧ getUserRoleFromContext sampleBogusRequest.ctx = "admin"
    ∧ sampleLibrary.decodeUpdateOrderStatusRequest sampleBogusRequest.Body
        = some { CurrentStatus := "FOO" }
    ∧ "FOO" ≠ OrderStatusShipped ∧ "FOO" ≠ OrderStatusDelivered
    ∧ sampleController.UpdateOrderStatus sampleLibrary sampleBogusRequest sampleWorld
        = .ret (WriteErrorResponse StatusBadRequest "invalid_request" "Invalid order status")
            sampleWorld
    ∧ StatusBadRequest ≠ StatusForbidden := by
  refine ⟨rfl, rfl, rfl, by decide, by decide, ?_, by decide⟩
  unfold OrderController.UpdateOrderStatus
  have hvalid : isValidOrderStatus "FOO" = false := by decide
  have hbody : sampleLibrary.decodeUpdateOrderStatusRequest sampleBogusRequest.Body
      = some { CurrentStatus := "FOO" } := rfl
  have hparse : sampleLibrary.uuidParse (sampleBogusRequest.vars "orderId") = some 11 := rfl
  simp only [hbody, hparse, hvalid, Bool.not_false, if_true]

/-- Claim C26, amended. For a request whose body decodes and whose order
identifier parses, for an order the service finds,
`OrderController.UpdateOrderStatus` goes on to the service's `UpdateOrderStatus`
exactly when the role policy allows it: an admin with target SHIPPED or
DELIVERED, any other role with target CANCELLED on an order that is ORDERED. In
every other case the service's `UpdateOrderStatus` is not called (the answer is
the same whatever that method would do): the answer is 400 with the code
"invalid_request", in the state before the call, when the target is not one of
the four statuses, and 403 with the code "forbidden", in the state the lookup
left, when it is. -/
theorem UpdateOrderStatus_handler_role_policy {σ : Type} (svc : OrderService σ)
    (lib : Library) (r : Request) (w w1 : σ) (req : UpdateOrderStatusRequest)
    (orderUUID : UUID) (currentOrder : Order)
    (hbody : lib.decodeUpdateOrderStatusRequest r.Body = some req)
    (hparse : lib.uuidParse (r.vars "orderId") = some orderUUID)
    (hget : svc.GetOrderByID orderUUID w = .ret (.ok currentOrder) w1) :
    (isValidOrderStatus req.CurrentStatus = true →
      ((getUserRoleFromContext r.ctx = "admin"
        ∧ (req.CurrentStatus = OrderStatusShipped ∨ req.CurrentStatus = OrderStatusDelivered))
      ∨ (getUserRoleFromContext r.ctx ≠ "admin" ∧ req.CurrentStatus = OrderStatusCancelled
        ∧ currentOrder.CurrentStatus = OrderStatusOrdered)) →
      (NewOrderController svc).UpdateOrderStatus lib r w
        = (svc.UpdateOrderStatus orderUUID req.CurrentStatus (getUserIDFromContext r.ctx) w1).bind
          fun result w2 =>
          match result with
          | .error errMsg =>
            if goLen errMsg > 15 ∧ goSlice errMsg 15 = goBytes "invalid transition" then
              .ret (WriteErrorResponse StatusConflict "invalid_transition" errMsg) w2
            else if errMsg = "order not found"
                ∨ (goLen errMsg > 13 ∧ goSlice errMsg 13 = goBytes "order not found") then
              .ret (WriteErrorResponse StatusNotFound "not_found" errMsg) w2
            else
              .ret (WriteErrorResponse StatusInternalServerError "internal_error"
                "Failed to update order status") w2
          | .ok order =>
            .ret (WriteJSONResponse StatusOK
              (.updateOrderStatus
                { OrderID := lib.uuidString order.ID,
                  PreviousStatus := currentOrder.CurrentStatus,
                  CurrentStatus := order.CurrentStatus,
                  UpdatedBy := getUserIDFromContext r.ctx,
                  UpdatedAt := order.UpdatedAt })) w2)
    ∧ (isValidOrderStatus req.CurrentStatus = true →
      ¬ ((getUserRoleFromContext r.ctx = "admin"
          ∧ (req.CurrentStatus = OrderStatusShipped ∨ req.CurrentStatus = OrderStatusDelivered))
        ∨ (getUserRoleFromContext r.ctx ≠ "admin" ∧ req.CurrentStatus = OrderStatusCancelled
          ∧ currentOrder.CurrentStatus = OrderStatusOrdered)) →
      ∃ message, ∀ update : UUID → OrderStatus → Int → σ → Run σ (Except Error Order),
        (NewOrderController { svc with UpdateOrderStatus := update }).UpdateOrderStatus lib r w
          = .ret (WriteErrorResponse StatusForbidden "forbidden" message) w1)
    ∧ (isValidOrderStatus req.CurrentStatus = false →
      ∀ update : UUID → OrderStatus → Int → σ → Run σ (Except Error Order),
        (NewOrderController { svc with UpdateOrderStatus := update }).UpdateOrderStatus lib r w
          = .ret (WriteErrorResponse StatusBadRequest "invalid_request" "Invalid order status")
              w) := by
  refine ⟨?_, ?_, ?_⟩
  · intro hvalid hpolicy
    unfold OrderController.UpdateOrderStatus
    simp only [NewOrderController, hbody, hparse, hvalid, hget, Run.bind_ret]
    rcases hpolicy with ⟨hadmin, hst | hst⟩ | ⟨huser, hst, hcur⟩
    · simp [hadmin, hst, OrderStatusShipped, OrderStatusDelivered]
    · simp [hadmin, hst, OrderStatusShipped, OrderStatusDelivered]
    · simp [huser, hst, hcur]
  · intro hvalid hpolicy
    unfold OrderController.UpdateOrderStatus
    simp only [NewOrderController, hbody, hparse, hvalid, hget, Run.bind_ret]
    by_cases hadmin : getUserRoleFromContext r.ctx = "admin"
    · have hst : req.CurrentStatus ≠ OrderStatusShipped
          ∧ req.CurrentStatus ≠ OrderStatusDelivered := by
        constructor
        · intro h; exact hpolicy (Or.inl ⟨hadmin, Or.inl h⟩)
        · intro h; exact hpolicy (Or.inl ⟨hadmin, Or.inr h⟩)
      refine ⟨"Admin can only update status to SHIPPED or DELIVERED", fun update => ?_⟩
      simp [hadmin, hst]
    · by_cases hst : req.CurrentStatus = OrderStatusCancelled
      · have hcur : currentOrder.CurrentStatus ≠ OrderStatusOrdered :=
          fun h => hpolicy (Or.inr ⟨hadmin, hst, h⟩)
        refine ⟨"Only ORDERED orders can be cancelled by regular users", fun update => ?_⟩
        simp [hadmin, hst, hcur]
      · refine ⟨"Regular users can only cancel ORDERED orders. "
          ++ "Only admin can update status to SHIPPED or DELIVERED", fun update => ?_⟩
        simp [hadmin, hst]
  · intro hvalid update
    unfold OrderController.UpdateOrderStatus
    simp only [NewOrderController, hbody, hparse, hvalid, Bool.not_false, if_true]

/-- The amended claim C26 at the request of a regular user to set the sample
order to SHIPPED: the answer is 403 and the state is untouched. -/
theorem UpdateOrderStatus_handler_role_policy_witness :
    ∃ message,
      sampleController.UpdateOrderStatus sampleLibrary sampleShipRequest sampleWorld
        = .ret (WriteErrorResponse StatusForbidden "forbidden" message) sampleWorld := by
  obtain ⟨message, h⟩ :=
    (UpdateOrderStatus_handler_role_policy ((plainService sampleEnv).toService 4) sampleLibrary
      sampleShipRequest sampleWorld sampleWorld { CurrentStatus := "SHIPPED" } 11 sampleOrder
      rfl rfl rfl).2.1 (by decide) (by decide)
  exact ⟨message, h ((plainService sampleEnv).toService 4).UpdateOrderStatus⟩

/-- Claim C27: what the code does instead. A request whose path is
"/api/v1/products" followed by more characters and that carries no
`Authorization` header is answered 401 by `AuthMiddleware`, whatever its method,
`GET` included, and the next handler is not run: the comparison of the first 15
bytes of the path with the 16 bytes of "/api/v1/products" never holds. -/
theorem AuthMiddleware_product_by_id {σ : Type} (lib : Library)
    (next : Request → σ → Run σ Response) (r : Request) (w : σ) (rest : String)
    (hpath : r.Path = "/api/v1/products" ++ rest) (hrest : rest ≠ "")
    (hauth : r.Authorization = "") :
    AuthMiddleware lib next r w
      = .ret (WriteErrorResponse StatusUnauthorized "unauthorized"
          "Missing Authorization header") w := by
  have hdead : ¬ (r.Method = "GET" ∧ goLen r.Path > 15
      ∧ goSlice r.Path 15 = goBytes "/api/v1/products") :=
    fun h => goSlice_ne _ "/api/v1/products" 15 (by decide) h.2.2
  have hdata : rest.data ≠ [] := by
    intro h
    apply hrest
    exact String.ext h
  have hpublic : publicPaths.any (fun path => r.Path == path) = false := by
    rw [hpath]
    simp only [publicPaths, List.any_cons, List.any_nil, Bool.or_false, Bool.or_eq_false_iff,
      beq_eq_false_iff_ne, ne_eq]
    refine ⟨?_, ?_, ?_, ?_⟩ <;> intro h <;> have h2 := congrArg String.data h <;>
      simp at h2
    exact hdata h2
  unfold AuthMiddleware
  simp only [hpublic, hdead, hauth, if_false, if_true, Bool.false_eq_true]

/-- Claim C27 at the request `GET /api/v1/products/42` without an
`Authorization` header: it is answered 401 and never reaches the handler of the
product route. -/
theorem AuthMiddleware_product_by_id_witness :
    AuthMiddleware sampleLibrary productHandler sampleProductRequest sampleWorld
      = .ret (WriteErrorResponse StatusUnauthorized "unauthorized"
          "Missing Authorization header") sampleWorld :=
  AuthMiddleware_product_by_id sampleLibrary productHandler sampleProductRequest sampleWorld
    "/42" (by decide) (by decide) rfl

/-! ## Calls after a refused order

`CreateOrder` returns its insufficient-inventory error without releasing the
mutex that `LockForUpdate` took. What the next call on the product then does is
evaluated here, each time from the sample state after an order for 150 units of
product 7 was refused. -/

/-- Claim C5 at its failing input. With 100 units of product 7 in stock, a first
`CreateOrder` for 150 units returns the insufficient-inventory error; a second
one, again for 150 units against the unchanged stock of 100, returns nothing: it
waits for ever on the mutex of the product. -/
theorem second_refusal_never_returns :
    ∃ w1,
      (plainService sampleEnv).CreateOrder 5 7 150 [] sampleWorld
        = .ret (.error "insufficient inventory: requested 150, available 100") w1
      ∧ stock w1 7 = 100
      ∧ (plainService sampleEnv).CreateOrder 5 7 150 [] w1 = .blocked w1 :=
  ⟨_, rfl, by decide, rfl⟩

/-- Claim C6 at its failing input. After a refused order for 150 units, product
7 still has 100 units in stock and no store has failed, yet `CreateOrder` for 60
units returns no order: it waits for ever on the mutex of the product, the stock
stays 100 and no order is stored. -/
theorem order_after_refusal_never_returns :
    ∃ w1,
      (plainService sampleEnv).CreateOrder 5 7 150 [] sampleWorld
        = .ret (.error "insufficient inventory: requested 150, available 100") w1
      ∧ stock w1 7 = 100
      ∧ (plainService sampleEnv).CreateOrder 5 7 60 [] w1 = .blocked w1
      ∧ w1.orders sampleEnv.newID = none :=
  ⟨_, rfl, by decide, rfl, rfl⟩

/-- Claim C12 at its failing input. After a refused order for 150 units of
product 7, cancelling the sample order, which is ORDERED and on product 7,
returns nothing: the call stores the status CANCELLED and the audit entry and
then waits for ever on the mutex of the product, with the stock still 100. -/
theorem cancel_after_refusal_never_returns :
    ∃ w1 w2,
      (plainService sampleEnv).CreateOrder 5 7 150 [] sampleWorld
        = .ret (.error "insufficient inventory: requested 150, available 100") w1
      ∧ w1.orders 11 = some sampleOrder
      ∧ ValidateTransition sampleOrder.CurrentStatus OrderStatusCancelled = none
      ∧ (plainService sampleEnv).UpdateOrderStatus 4 11 OrderStatusCancelled 9 w1 = .blocked w2
      ∧ w2.orders 11
          = some { sampleOrder with CurrentStatus := OrderStatusCancelled, UpdatedAt := 2 }
      ∧ history w2 11
          = [{ ID := uuidNil, OrderID := 11, PreviousStatus := OrderStatusOrdered,
               NewStatus := OrderStatusCancelled, UpdatedBy := 9, UpdatedAt := 4 }]
      ∧ stock w2 7 = 100 :=
  ⟨_, _, rfl, rfl, by decide, rfl, rfl, rfl, by decide⟩

/-- Claim C13 at its failing input. After a refused order for 150 units of
product 7, and over an audit log store that refuses every entry, cancelling the
sample order does not return the updated order: the call stores the status
CANCELLED and then waits for ever on the mutex of the product. -/
theorem cancel_with_refusing_audit_never_returns :
    ∃ w1 w2,
      (plainService sampleEnv).CreateOrder 5 7 150 [] sampleWorld
        = .ret (.error "insufficient inventory: requested 150, available 100") w1
      ∧ w1.orders 11 = some sampleOrder
      ∧ ValidateTransition sampleOrder.CurrentStatus OrderStatusCancelled = none
      ∧ failingLogStore.Create
          { ID := uuidNil, OrderID := 11, PreviousStatus := OrderStatusOrdered,
            NewStatus := OrderStatusCancelled, UpdatedBy := 9, UpdatedAt := 4 } w1
          = .ret (some "audit down") w1
      ∧ (fakeService OrderStoreFake.plain InventoryStoreFake.plain failingLogStore NewValidator
          sampleEnv).UpdateOrderStatus 4 11 OrderStatusCancelled 9 w1 = .blocked w2
      ∧ w2.orders 11
          = some { sampleOrder with CurrentStatus := OrderStatusCancelled, UpdatedAt := 2 } :=
  ⟨_, _, rfl, rfl, by decide, rfl, rfl, rfl⟩

/-- Claim C15 at its failing input. After a refused order for 150 units, product
7 has a stock of 100, and `CreateOrder` for 5 units, the first half of placing
and cancelling, returns nothing: it waits for ever on the mutex of the product,
so that no order is placed and none can be cancelled. -/
theorem place_after_refusal_never_returns :
    ∃ w1,
      (plainService sampleEnv).CreateOrder 5 7 150 [] sampleWorld
        = .ret (.error "insufficient inventory: requested 150, available 100") w1
      ∧ stock w1 7 = 100
      ∧ (plainService sampleEnv).CreateOrder 5 7 5 [] w1 = .blocked w1
      ∧ w1.orders sampleEnv.newID = none
      ∧ history w1 sampleEnv.newID = [] :=
  ⟨_, rfl, by decide, rfl, rfl, rfl⟩

end OMS
